import Mathlib

/-!
# EventSimulation: bank and grocery discrete-event queues

A shallow embedding of `EventSimulation/main.cpp`.

* `int` is the 32-bit two's complement integer.  Its values are carried by `Int`, and every sum
  and difference the program computes on event times, durations, service times and backlogs
  (lines 81, 87, 118, 173-175 and 203) is reduced to the range `-2147483648 .. 2147483647` by
  `wrapInt`, the wrap-around of the compiled program.  The counter `tellersAvailable` is only
  changed by `--` and `++` (lines 108 and 126); in a run from `NUM_TELLERS` servers and a
  scheduler of Arrival events it stays between 0 and `NUM_TELLERS` (C9), so the two
  operations are taken exact.
* `std::priority_queue<Event, vector<Event>, compareEventTime>` is library code.  It is modelled
  by its contract: the queue holds a finite collection of events (a list, new events at the
  end), `top()` yields an element that `compareEventTime` ranks below no other element, and
  which of several such elements it yields is not determined.  The choice is an explicit
  argument `tie : Nat` of `top`, so every statement that quantifies over all `tie` values (or
  all tie sequences `ties : Nat → Nat`) holds for every implementation of the queue.
* `NUM_TELLERS` and `SIM_LENGTH` are arguments of the embedding (the initial value of
  `tellersAvailable` and the argument `SIM_LENGTH` of the loop bodies).
* `std::array<int,6>` is `Fin 6 → Int`; `array::at` with an index outside `0..5` throws
  `std::out_of_range`, which is the outcome `Loop.thrown`.
-/

namespace EventSimulation

/-! ## Events and the scheduler -/

/-- The record `Event` (main.cpp, lines 22-30). -/
structure Event where
  customerID : Int
  eventTime : Int
  duration : Int
  event : Int
  totalServiceTime : Int
  cashier : Int
deriving DecidableEq

/-- The `int` value of an arithmetic expression whose exact value is `x`: the representative of
`x` modulo `2^32` in `-2147483648 .. 2147483647`. -/
def wrapInt (x : Int) : Int :=
  (x + 2147483648) % 4294967296 - 2147483648

/-- Enumerator `ARRIVAL` of `EventType` (line 33). -/
def ARRIVAL : Int := 0

/-- Enumerator `DEPARTURE` of `EventType` (line 33). -/
def DEPARTURE : Int := 1

/-- The comparator `compareEventTime::operator()` (lines 36-42). -/
def compareEventTime (lhs rhs : Event) : Bool :=
  decide (lhs.eventTime > rhs.eventTime)

/-- The elements `top()` may yield: those that the comparator ranks below no element of the
queue, in the order in which the queue holds them. -/
def topCandidates (q : List Event) : List Event :=
  q.filter (fun e => q.all (fun x => !compareEventTime e x))

/-- The call `eventQueue.top()`: one of the candidates, selected by `tie`; `none` when the queue
is empty. -/
def top (tie : Nat) (q : List Event) : Option Event :=
  (topCandidates q)[tie % (topCandidates q).length]?

/-- The call `eventQueue.pop()` after `top()` yielded `e`: one copy of `e` leaves the queue. -/
def pop (q : List Event) (e : Event) : List Event :=
  q.erase e

/-- The call `eventQueue.push(e)`. -/
def push (q : List Event) (e : Event) : List Event :=
  q ++ [e]

/-- The test `event == ARRIVAL` on an event, for counting. -/
def isArrival (e : Event) : Bool :=
  decide (e.event = ARRIVAL)

/-- The test `event == DEPARTURE` on an event, for counting. -/
def isDeparture (e : Event) : Bool :=
  decide (e.event = DEPARTURE)

/-- Outcome of one pass through a `while` loop of `runSim`: the loop is left (`stop`, by the
loop condition or by `break`), the body ran to its end (`next`), or `std::out_of_range`
escaped (`thrown`). -/
inductive Loop (σ : Type) where
  | stop (s : σ)
  | next (s : σ)
  | thrown
deriving DecidableEq

/-- Run at most `n` passes of a loop with the given body, pass `k` using the tie value
`ties k`: `next s` when `n` passes ran to their end and left state `s`, `stop s` when the loop
was left with state `s` during one of them. -/
def iterate {σ : Type} (body : Nat → σ → Loop σ) (ties : Nat → Nat) : Nat → σ → Loop σ
  | 0, s => Loop.next s
  | n + 1, s =>
    match body (ties 0) s with
    | Loop.next s' => iterate body (fun k => ties (k + 1)) n s'
    | Loop.stop s' => Loop.stop s'
    | Loop.thrown => Loop.thrown

/-! ## The bank simulation -/

/-- State of a `BankSim` object (lines 45-64) during `runSim`, together with the vector
`serviceTime` that `runSim` receives by reference.  The member `debugOn` is never read. -/
structure BankSim where
  eventQueue : List Event
  bankQueue : List Event
  currentTime : Int
  tellersAvailable : Int
  serviceTime : List Int
deriving DecidableEq

/-- Method `BankSim::addEvent` (lines 67-70). -/
def BankSim.addEvent (s : BankSim) (event : Event) : BankSim :=
  { s with eventQueue := push s.eventQueue event }

/-- Method `BankSim::addBankQueueCustomer` (lines 73-76). -/
def BankSim.addBankQueueCustomer (s : BankSim) (event : Event) : BankSim :=
  { s with bankQueue := s.bankQueue ++ [event] }

/-- Method `BankSim::setArrivalEvent` (lines 78-83); the result is the updated `event`. -/
def BankSim.setArrivalEvent (s : BankSim) (event : Event) : Event :=
  let event := { event with totalServiceTime := event.duration }
  let event := { event with eventTime := wrapInt (s.currentTime + event.duration) }
  { event with event := DEPARTURE }

/-- Method `BankSim::setCustomerDeparture` (lines 85-89); the result is the updated
`nextCustomer`. -/
def BankSim.setCustomerDeparture (s : BankSim) (nextCustomer nextEvent : Event) : Event :=
  let nextCustomer := { nextCustomer with
    eventTime := wrapInt (s.currentTime + nextEvent.duration) }
  { nextCustomer with event := DEPARTURE }

/-- Lines 97-131 of `BankSim::runSim`: the rest of one pass through the loop once
`nextEvent = eventQueue.top()` is known. -/
def BankSim.handle (SIM_LENGTH : Int) (s : BankSim) (nextEvent : Event) : Loop BankSim :=
  let s := { s with currentTime := nextEvent.eventTime }
  if s.currentTime > SIM_LENGTH then Loop.stop s
  else
    let s := { s with eventQueue := pop s.eventQueue nextEvent }
    if nextEvent.event = ARRIVAL then
      if s.tellersAvailable ≠ 0 then
        let nextEvent := s.setArrivalEvent nextEvent
        let s := s.addEvent nextEvent
        Loop.next { s with tellersAvailable := s.tellersAvailable - 1 }
      else
        Loop.next (s.addBankQueueCustomer nextEvent)
    else if nextEvent.event = DEPARTURE then
      match s.bankQueue with
      | nextCustomer :: rest =>
        let s := { s with bankQueue := rest }
        let nextCustomer := { nextCustomer with
          totalServiceTime :=
            wrapInt (wrapInt (s.currentTime - nextCustomer.eventTime) + nextCustomer.duration) }
        let s := { s with serviceTime := s.serviceTime ++ [nextEvent.totalServiceTime] }
        let nextCustomer := s.setCustomerDeparture nextCustomer nextEvent
        Loop.next (s.addEvent nextCustomer)
      | [] =>
        let s := { s with serviceTime := s.serviceTime ++ [nextEvent.totalServiceTime] }
        Loop.next { s with tellersAvailable := s.tellersAvailable + 1 }
    else
      Loop.next s

/-- One pass through the loop of `BankSim::runSim` (lines 95-132): the loop is left when the
scheduler is empty, otherwise its top event is handled. -/
def BankSim.loopBody (SIM_LENGTH : Int) (tie : Nat) (s : BankSim) : Loop BankSim :=
  match top tie s.eventQueue with
  | none => Loop.stop s
  | some nextEvent => s.handle SIM_LENGTH nextEvent

/-- The events that the first `n` passes of the loop of `BankSim::runSim` take from the
scheduler and process, in order (the values of `nextEvent` at line 96). -/
def BankSim.processed (SIM_LENGTH : Int) (ties : Nat → Nat) : Nat → BankSim → List Event
  | 0, _ => []
  | n + 1, s =>
    match top (ties 0) s.eventQueue, s.loopBody SIM_LENGTH (ties 0) with
    | some nextEvent, Loop.next s' =>
      nextEvent :: BankSim.processed SIM_LENGTH (fun k => ties (k + 1)) n s'
    | _, _ => []

/-- The customer that a pass of the bank loop, run to its end on `nextEvent`, appends to the
wait line: the Arrival itself when no teller is available (lines 104-112). -/
def BankSim.joining (s : BankSim) (nextEvent : Event) : List Event :=
  if nextEvent.event = ARRIVAL then
    if s.tellersAvailable ≠ 0 then [] else [nextEvent]
  else []

/-- The customer that a pass of the bank loop, run to its end on `nextEvent`, removes from the
wait line: its front element when a Departure finds the wait line non-empty (lines 114-117). -/
def BankSim.leaving (s : BankSim) (nextEvent : Event) : List Event :=
  if nextEvent.event = ARRIVAL then []
  else if nextEvent.event = DEPARTURE then
    match s.bankQueue with
    | nextCustomer :: _ => [nextCustomer]
    | [] => []
  else []

/-- The customers appended to the wait line by the first `n` passes of the loop of
`BankSim::runSim`, in the order of the calls of `addBankQueueCustomer`. -/
def BankSim.appended (SIM_LENGTH : Int) (ties : Nat → Nat) : Nat → BankSim → List Event
  | 0, _ => []
  | n + 1, s =>
    match top (ties 0) s.eventQueue, s.loopBody SIM_LENGTH (ties 0) with
    | some nextEvent, Loop.next s' =>
      s.joining nextEvent ++ BankSim.appended SIM_LENGTH (fun k => ties (k + 1)) n s'
    | _, _ => []

/-- The customers removed from the wait line by the first `n` passes of the loop of
`BankSim::runSim`, in the order of the calls of `bankQueue.pop()`. -/
def BankSim.removed (SIM_LENGTH : Int) (ties : Nat → Nat) : Nat → BankSim → List Event
  | 0, _ => []
  | n + 1, s =>
    match top (ties 0) s.eventQueue, s.loopBody SIM_LENGTH (ties 0) with
    | some nextEvent, Loop.next s' =>
      s.leaving nextEvent ++ BankSim.removed SIM_LENGTH (fun k => ties (k + 1)) n s'
    | _, _ => []

/-- A number of passes within which the loop of `BankSim::runSim` is left. -/
def BankSim.fuel (s : BankSim) : Nat :=
  2 * s.eventQueue.length + s.bankQueue.length + 1

/-- Method `BankSim::runSim` (lines 93-133). -/
def BankSim.runSim (SIM_LENGTH : Int) (ties : Nat → Nat) (s : BankSim) : Loop BankSim :=
  iterate (BankSim.loopBody SIM_LENGTH) ties s.fuel s

/-! ## The grocery simulation -/

/-- State of a `GrocerySim` object (lines 137-152) during `runSim`, together with the vector
`serviceTime` that `runSim` receives by reference. -/
structure GrocerySim where
  eventQueue : List Event
  cashiers : Fin 6 → Int
  currentTime : Int
  serviceTime : List Int

/-- Method `GrocerySim::chooseShortestLine` (lines 154-163): `minIndex` starts at 0 and the loop
runs over `i = 1, ..., 5`. -/
def GrocerySim.chooseShortestLine (lines : Fin 6 → Int) : Fin 6 :=
  ([1, 2, 3, 4, 5] : List (Fin 6)).foldl
    (fun minIndex i => if lines minIndex > lines i then i else minIndex) 0

/-- Method `GrocerySim::addEvent` (lines 166-169). -/
def GrocerySim.addEvent (s : GrocerySim) (event : Event) : GrocerySim :=
  { s with eventQueue := push s.eventQueue event }

/-- Method `GrocerySim::setArrivalEvent` (lines 171-177), called with an index in `0..5`; the
result is the updated `nextEvent` and the updated object. -/
def GrocerySim.setArrivalEvent (s : GrocerySim) (nextEvent : Event) (shortestLine : Fin 6) :
    Event × GrocerySim :=
  let nextEvent := { nextEvent with cashier := ((shortestLine : Nat) : Int) }
  let nextEvent := { nextEvent with
    totalServiceTime := wrapInt (s.cashiers shortestLine + nextEvent.duration) }
  let s := { s with
    cashiers := Function.update s.cashiers shortestLine
      (wrapInt (s.cashiers shortestLine + nextEvent.duration)) }
  let nextEvent := { nextEvent with
    eventTime := wrapInt (s.currentTime + s.cashiers shortestLine) }
  ({ nextEvent with event := DEPARTURE }, s)

/-- The index check of `array<int,6>::at`: `none` stands for `std::out_of_range`. -/
def atIndex (k : Int) : Option (Fin 6) :=
  if h : 0 ≤ k ∧ k < 6 then some ⟨k.toNat, by omega⟩ else none

/-- Lines 184-208 of `GrocerySim::runSim`: the rest of one pass through the loop once
`nextEvent = eventQueue.top()` is known. -/
def GrocerySim.handle (SIM_LENGTH : Int) (s : GrocerySim) (nextEvent : Event) :
    Loop GrocerySim :=
  let s := { s with currentTime := nextEvent.eventTime }
  if s.currentTime > SIM_LENGTH then Loop.stop s
  else
    let s := { s with eventQueue := pop s.eventQueue nextEvent }
    if nextEvent.event = ARRIVAL then
      let shortestLine := GrocerySim.chooseShortestLine s.cashiers
      let r := s.setArrivalEvent nextEvent shortestLine
      Loop.next (r.2.addEvent r.1)
    else if nextEvent.event = DEPARTURE then
      match atIndex nextEvent.cashier with
      | none => Loop.thrown
      | some c =>
        let s := { s with
          cashiers := Function.update s.cashiers c
            (wrapInt (s.cashiers c - nextEvent.duration)) }
        Loop.next { s with serviceTime := s.serviceTime ++ [nextEvent.totalServiceTime] }
    else
      Loop.next s

/-- One pass through the loop of `GrocerySim::runSim` (lines 182-209): the loop is left when the
scheduler is empty, otherwise its top event is handled. -/
def GrocerySim.loopBody (SIM_LENGTH : Int) (tie : Nat) (s : GrocerySim) : Loop GrocerySim :=
  match top tie s.eventQueue with
  | none => Loop.stop s
  | some nextEvent => s.handle SIM_LENGTH nextEvent

/-- The events that the first `n` passes of the loop of `GrocerySim::runSim` take from the
scheduler and process, in order (the values of `nextEvent` at line 183). -/
def GrocerySim.processed (SIM_LENGTH : Int) (ties : Nat → Nat) : Nat → GrocerySim → List Event
  | 0, _ => []
  | n + 1, s =>
    match top (ties 0) s.eventQueue, s.loopBody SIM_LENGTH (ties 0) with
    | some nextEvent, Loop.next s' =>
      nextEvent :: GrocerySim.processed SIM_LENGTH (fun k => ties (k + 1)) n s'
    | _, _ => []

/-- The sum of the durations of the Departure events of a scheduler whose `cashier` field is
the index `c`. -/
def backlog (q : List Event) (c : Fin 6) : Int :=
  ((q.filter (fun e => isDeparture e && decide (e.cashier = ((c : Nat) : Int)))).map
    (fun e => e.duration)).sum

/-- The sum of the absolute values of the durations of the events of a scheduler: a bound on
every backlog that the customers of the scheduler can build up. -/
def absDurations (q : List Event) : Int :=
  (q.map (fun e => |e.duration|)).sum

/-- A number of passes within which the loop of `GrocerySim::runSim` is left. -/
def GrocerySim.fuel (s : GrocerySim) : Nat :=
  2 * s.eventQueue.length + 1

/-- Method `GrocerySim::runSim` (lines 180-210). -/
def GrocerySim.runSim (SIM_LENGTH : Int) (ties : Nat → Nat) (s : GrocerySim) :
    Loop GrocerySim :=
  iterate (GrocerySim.loopBody SIM_LENGTH) ties s.fuel s

/-! ## The percentile report

`printPercentiles` computes with `double`.  Its three indices are the products `.1 * n`,
`.5 * n` and `.9 * n` of the size `n` of the vector, truncated to `int`.  The constants `.1`
and `.9` are the doubles `1/10 + 1/(5 * 2^55)` and `9/10 + 1/(5 * 2^53)`; for every size below
`2^49` the rounded products truncate to `n / 10`, `n / 2` and `9 * n / 10` (a multiple of ten
gives a product within half a unit in the last place of the integer quotient, every other size
a product at least `1/10` away from the next integer), and the embedding takes these
quotients.  The printed values `(double) x / 60` are modelled by the exact quotients in `ℚ`:
the division of doubles rounds to nearest, so it is monotone and a function of `x`, and
statements on order and equality of the exact quotients carry over. -/

/-- The call `sort(serviceTimes.begin(), serviceTimes.end())` (line 213).  `std::sort` is
library code; it leaves the elements in ascending order, which for integers determines the
result. -/
def sort (serviceTimes : List Int) : List Int :=
  serviceTimes.insertionSort (fun a b => a ≤ b)

/-- What a call of `printPercentiles` that does not throw leaves behind: the vector
`serviceTimes`, sorted in place, and the three values printed; `service90th` is also the value
returned. -/
structure Percentiles where
  serviceTimes : List Int
  service10th : ℚ
  service50th : ℚ
  service90th : ℚ
deriving DecidableEq

/-- Function `printPercentiles` (lines 212-227), without the output to `cout`; the argument
`name` is only printed.  `none` stands for the `std::out_of_range` of `vector::at`. -/
def printPercentiles (serviceTimes : List Int) : Option Percentiles :=
  let serviceTimes := sort serviceTimes
  let service10thIndex := serviceTimes.length / 10
  let service50thIndex := serviceTimes.length / 2
  let service90thIndex := 9 * serviceTimes.length / 10
  match serviceTimes[service10thIndex]?, serviceTimes[service50thIndex]?,
    serviceTimes[service90thIndex]? with
  | some at10, some at50, some at90 =>
    some ⟨serviceTimes, (at10 : ℚ) / 60, (at50 : ℚ) / 60, (at90 : ℚ) / 60⟩
  | _, _, _ => none

/-! ## Machine integers -/

theorem wrapInt_of_range {x : Int} (h1 : -2147483648 ≤ x) (h2 : x ≤ 2147483647) :
    wrapInt x = x := by
  unfold wrapInt
  omega

theorem wrapInt_range (x : Int) : -2147483648 ≤ wrapInt x ∧ wrapInt x ≤ 2147483647 := by
  unfold wrapInt
  omega

theorem wrapInt_wrapInt_add (a b : Int) : wrapInt (wrapInt a + b) = wrapInt (a + b) := by
  unfold wrapInt
  omega

/-! ## The scheduler -/

theorem exists_min_event (q : List Event) (h : q ≠ []) :
    ∃ e ∈ q, ∀ x ∈ q, e.eventTime ≤ x.eventTime := by
  induction q with
  | nil => exact absurd rfl h
  | cons a t ih =>
    by_cases ht : t = []
    · subst ht
      exact ⟨a, by simp, by simp⟩
    · obtain ⟨m, hm, hmin⟩ := ih ht
      by_cases hle : a.eventTime ≤ m.eventTime
      · refine ⟨a, by simp, ?_⟩
        intro x hx
        rcases List.mem_cons.mp hx with rfl | hx
        · exact le_refl _
        · exact le_trans hle (hmin x hx)
      · refine ⟨m, List.mem_cons_of_mem _ hm, ?_⟩
        intro x hx
        rcases List.mem_cons.mp hx with rfl | hx
        · omega
        · exact hmin x hx

theorem mem_topCandidates {q : List Event} {e : Event} :
    e ∈ topCandidates q ↔ e ∈ q ∧ ∀ x ∈ q, e.eventTime ≤ x.eventTime := by
  simp [topCandidates, compareEventTime]

theorem top_mem_candidates {tie : Nat} {q : List Event} {e : Event} (h : top tie q = some e) :
    e ∈ topCandidates q := by
  unfold top at h
  exact List.getElem?_mem h

theorem top_mem {tie : Nat} {q : List Event} {e : Event} (h : top tie q = some e) : e ∈ q :=
  (mem_topCandidates.mp (top_mem_candidates h)).1

theorem top_min {tie : Nat} {q : List Event} {e : Event} (h : top tie q = some e) :
    ∀ x ∈ q, e.eventTime ≤ x.eventTime :=
  (mem_topCandidates.mp (top_mem_candidates h)).2

theorem top_nil (tie : Nat) : top tie [] = none := by
  simp [top, topCandidates]

theorem top_isSome (tie : Nat) {q : List Event} (h : q ≠ []) : ∃ e, top tie q = some e := by
  obtain ⟨m, hm, hmin⟩ := exists_min_event q h
  have hc : m ∈ topCandidates q := mem_topCandidates.mpr ⟨hm, hmin⟩
  have hpos : 0 < (topCandidates q).length := List.length_pos_of_mem hc
  have hlt : tie % (topCandidates q).length < (topCandidates q).length := Nat.mod_lt _ hpos
  exact ⟨(topCandidates q)[tie % (topCandidates q).length], by
    unfold top
    exact List.getElem?_eq_getElem hlt⟩

theorem top_eq_none_iff (tie : Nat) (q : List Event) : top tie q = none ↔ q = [] := by
  constructor
  · intro h
    by_contra hq
    obtain ⟨e, he⟩ := top_isSome tie hq
    rw [h] at he
    exact Option.noConfusion he
  · rintro rfl
    exact top_nil tie

/-- Every candidate is what `top` yields for some tie value: the model leaves the choice among
equal event times open. -/
theorem top_complete {q : List Event} {e : Event} (h : e ∈ topCandidates q) :
    ∃ tie, top tie q = some e := by
  obtain ⟨i, hi, hget⟩ := List.getElem_of_mem h
  refine ⟨i, ?_⟩
  unfold top
  rw [Nat.mod_eq_of_lt hi, List.getElem?_eq_getElem hi, hget]

theorem top_of_candidates_singleton (tie : Nat) {q : List Event} {e : Event}
    (h : topCandidates q = [e]) : top tie q = some e := by
  simp [top, h, Nat.mod_one]

/-! ## Stepping the loops -/

theorem iterate_succ_next {σ : Type} {body : Nat → σ → Loop σ} {ties : Nat → Nat} {s s' : σ}
    (n : Nat) (h : body (ties 0) s = Loop.next s') :
    iterate body ties (n + 1) s = iterate body (fun k => ties (k + 1)) n s' := by
  simp [iterate, h]

theorem iterate_succ_stop {σ : Type} {body : Nat → σ → Loop σ} {ties : Nat → Nat} {s s' : σ}
    (n : Nat) (h : body (ties 0) s = Loop.stop s') :
    iterate body ties (n + 1) s = Loop.stop s' := by
  simp [iterate, h]

theorem BankSim.loopBody_of_top {SIM_LENGTH : Int} {tie : Nat} {s : BankSim} {e : Event}
    (h : top tie s.eventQueue = some e) : s.loopBody SIM_LENGTH tie = s.handle SIM_LENGTH e := by
  simp [BankSim.loopBody, h]

theorem BankSim.loopBody_of_nil (SIM_LENGTH : Int) (tie : Nat) {s : BankSim}
    (h : s.eventQueue = []) : s.loopBody SIM_LENGTH tie = Loop.stop s := by
  simp [BankSim.loopBody, h, top_nil]

theorem BankSim.processed_succ_next {SIM_LENGTH : Int} {ties : Nat → Nat} {s s' : BankSim}
    {e : Event} (n : Nat) (ht : top (ties 0) s.eventQueue = some e)
    (hb : s.handle SIM_LENGTH e = Loop.next s') :
    BankSim.processed SIM_LENGTH ties (n + 1) s
      = e :: BankSim.processed SIM_LENGTH (fun k => ties (k + 1)) n s' := by
  simp [BankSim.processed, ht, BankSim.loopBody, hb]

theorem BankSim.processed_succ_stop {SIM_LENGTH : Int} {ties : Nat → Nat} {s s' : BankSim}
    (n : Nat) (hb : s.loopBody SIM_LENGTH (ties 0) = Loop.stop s') :
    BankSim.processed SIM_LENGTH ties (n + 1) s = [] := by
  unfold BankSim.processed
  rw [hb]
  cases top (ties 0) s.eventQueue <;> rfl

/-! ## C1: the single-teller scenario -/

/-- C1: with one teller, horizon 100 and exactly three Arrival events at times 0, 1, 2 with
duration 10 each (their other fields, the clock and the earlier content `rs` of the results
vector are arbitrary), `BankSim::runSim` returns for every way of breaking ties, the events it
processes are the three Arrivals and then three Departures at times 10, 20 and 30, and the
results vector has gained exactly 10, 19, 28 in that order. -/
theorem bank_scenario_single_teller (ties : Nat → Nat)
    (c0 c1 c2 t0 t1 t2 k0 k1 k2 now : Int) (rs : List Int) :
    BankSim.runSim 100 ties
        ⟨[⟨c0, 0, 10, ARRIVAL, t0, k0⟩, ⟨c1, 1, 10, ARRIVAL, t1, k1⟩,
          ⟨c2, 2, 10, ARRIVAL, t2, k2⟩], [], now, 1, rs⟩
      = Loop.stop ⟨[], [], 30, 1, rs ++ [10, 19, 28]⟩
    ∧ BankSim.processed 100 ties 7
        ⟨[⟨c0, 0, 10, ARRIVAL, t0, k0⟩, ⟨c1, 1, 10, ARRIVAL, t1, k1⟩,
          ⟨c2, 2, 10, ARRIVAL, t2, k2⟩], [], now, 1, rs⟩
      = [⟨c0, 0, 10, ARRIVAL, t0, k0⟩, ⟨c1, 1, 10, ARRIVAL, t1, k1⟩,
         ⟨c2, 2, 10, ARRIVAL, t2, k2⟩, ⟨c0, 10, 10, DEPARTURE, 10, k0⟩,
         ⟨c1, 20, 10, DEPARTURE, 19, k1⟩, ⟨c2, 30, 10, DEPARTURE, 28, k2⟩] := by
  have t0q : ∀ tie, top tie [(⟨c0, 0, 10, ARRIVAL, t0, k0⟩ : Event), ⟨c1, 1, 10, ARRIVAL, t1, k1⟩,
      ⟨c2, 2, 10, ARRIVAL, t2, k2⟩] = some ⟨c0, 0, 10, ARRIVAL, t0, k0⟩ := fun tie =>
    top_of_candidates_singleton tie (by simp [topCandidates, compareEventTime])
  have t1q : ∀ tie, top tie [(⟨c1, 1, 10, ARRIVAL, t1, k1⟩ : Event),
      ⟨c2, 2, 10, ARRIVAL, t2, k2⟩, ⟨c0, 10, 10, DEPARTURE, 10, k0⟩]
      = some ⟨c1, 1, 10, ARRIVAL, t1, k1⟩ := fun tie =>
    top_of_candidates_singleton tie (by simp [topCandidates, compareEventTime])
  have t2q : ∀ tie, top tie [(⟨c2, 2, 10, ARRIVAL, t2, k2⟩ : Event),
      ⟨c0, 10, 10, DEPARTURE, 10, k0⟩] = some ⟨c2, 2, 10, ARRIVAL, t2, k2⟩ := fun tie =>
    top_of_candidates_singleton tie (by simp [topCandidates, compareEventTime])
  have t3q : ∀ (tie : Nat) (e : Event), top tie [e] = some e := fun tie e =>
    top_of_candidates_singleton tie (by simp [topCandidates, compareEventTime])
  have h0 : BankSim.handle 100 ⟨[⟨c0, 0, 10, ARRIVAL, t0, k0⟩, ⟨c1, 1, 10, ARRIVAL, t1, k1⟩,
        ⟨c2, 2, 10, ARRIVAL, t2, k2⟩], [], now, 1, rs⟩ ⟨c0, 0, 10, ARRIVAL, t0, k0⟩
      = Loop.next ⟨[⟨c1, 1, 10, ARRIVAL, t1, k1⟩, ⟨c2, 2, 10, ARRIVAL, t2, k2⟩,
        ⟨c0, 10, 10, DEPARTURE, 10, k0⟩], [], 0, 0, rs⟩ := by
    simp [BankSim.handle, pop, push, BankSim.addEvent, BankSim.setArrivalEvent, ARRIVAL,
      DEPARTURE, wrapInt]
  have h1 : BankSim.handle 100 ⟨[⟨c1, 1, 10, ARRIVAL, t1, k1⟩, ⟨c2, 2, 10, ARRIVAL, t2, k2⟩,
        ⟨c0, 10, 10, DEPARTURE, 10, k0⟩], [], 0, 0, rs⟩ ⟨c1, 1, 10, ARRIVAL, t1, k1⟩
      = Loop.next ⟨[⟨c2, 2, 10, ARRIVAL, t2, k2⟩, ⟨c0, 10, 10, DEPARTURE, 10, k0⟩],
        [⟨c1, 1, 10, ARRIVAL, t1, k1⟩], 1, 0, rs⟩ := by
    simp [BankSim.handle, pop, BankSim.addBankQueueCustomer, ARRIVAL, DEPARTURE]
  have h2 : BankSim.handle 100 ⟨[⟨c2, 2, 10, ARRIVAL, t2, k2⟩, ⟨c0, 10, 10, DEPARTURE, 10, k0⟩],
        [⟨c1, 1, 10, ARRIVAL, t1, k1⟩], 1, 0, rs⟩ ⟨c2, 2, 10, ARRIVAL, t2, k2⟩
      = Loop.next ⟨[⟨c0, 10, 10, DEPARTURE, 10, k0⟩],
        [⟨c1, 1, 10, ARRIVAL, t1, k1⟩, ⟨c2, 2, 10, ARRIVAL, t2, k2⟩], 2, 0, rs⟩ := by
    simp [BankSim.handle, pop, BankSim.addBankQueueCustomer, ARRIVAL, DEPARTURE]
  have h3 : BankSim.handle 100 ⟨[⟨c0, 10, 10, DEPARTURE, 10, k0⟩],
        [⟨c1, 1, 10, ARRIVAL, t1, k1⟩, ⟨c2, 2, 10, ARRIVAL, t2, k2⟩], 2, 0, rs⟩
        ⟨c0, 10, 10, DEPARTURE, 10, k0⟩
      = Loop.next ⟨[⟨c1, 20, 10, DEPARTURE, 19, k1⟩], [⟨c2, 2, 10, ARRIVAL, t2, k2⟩], 10, 0,
        rs ++ [10]⟩ := by
    simp [BankSim.handle, pop, push, BankSim.addEvent, BankSim.setCustomerDeparture, ARRIVAL,
      DEPARTURE, wrapInt]
  have h4 : BankSim.handle 100 ⟨[⟨c1, 20, 10, DEPARTURE, 19, k1⟩],
        [⟨c2, 2, 10, ARRIVAL, t2, k2⟩], 10, 0, rs ++ [10]⟩ ⟨c1, 20, 10, DEPARTURE, 19, k1⟩
      = Loop.next ⟨[⟨c2, 30, 10, DEPARTURE, 28, k2⟩], [], 20, 0, rs ++ [10, 19]⟩ := by
    simp [BankSim.handle, pop, push, BankSim.addEvent, BankSim.setCustomerDeparture, ARRIVAL,
      DEPARTURE, wrapInt]
  have h5 : BankSim.handle 100 ⟨[⟨c2, 30, 10, DEPARTURE, 28, k2⟩], [], 20, 0, rs ++ [10, 19]⟩
        ⟨c2, 30, 10, DEPARTURE, 28, k2⟩
      = Loop.next ⟨[], [], 30, 1, rs ++ [10, 19, 28]⟩ := by
    simp [BankSim.handle, pop, ARRIVAL, DEPARTURE]
  have h6 : ∀ tie, BankSim.loopBody 100 tie ⟨[], [], 30, 1, rs ++ [10, 19, 28]⟩
      = Loop.stop ⟨[], [], 30, 1, rs ++ [10, 19, 28]⟩ := fun tie =>
    BankSim.loopBody_of_nil 100 tie rfl
  constructor
  · show iterate (BankSim.loopBody 100) ties 7 _ = _
    rw [iterate_succ_next 6 ((BankSim.loopBody_of_top (t0q _)).trans h0),
      iterate_succ_next 5 ((BankSim.loopBody_of_top (t1q _)).trans h1),
      iterate_succ_next 4 ((BankSim.loopBody_of_top (t2q _)).trans h2),
      iterate_succ_next 3 ((BankSim.loopBody_of_top (t3q _ _)).trans h3),
      iterate_succ_next 2 ((BankSim.loopBody_of_top (t3q _ _)).trans h4),
      iterate_succ_next 1 ((BankSim.loopBody_of_top (t3q _ _)).trans h5),
      iterate_succ_stop 0 (h6 _)]
  · rw [BankSim.processed_succ_next 6 (t0q _) h0, BankSim.processed_succ_next 5 (t1q _) h1,
      BankSim.processed_succ_next 4 (t2q _) h2, BankSim.processed_succ_next 3 (t3q _ _) h3,
      BankSim.processed_succ_next 2 (t3q _ _) h4, BankSim.processed_succ_next 1 (t3q _ _) h5,
      BankSim.processed_succ_stop 0 (h6 _)]

/-! ## C3, C4: the departure time of a customer taken from the wait line

Both are evaluated at `NUM_TELLERS = 6` and `SIM_LENGTH = 43200`, the values of main.cpp, on
seven Arrivals: customers 0..5 arrive at times 0..5 with duration 100 each and take the six
tellers, customer 6 arrives at time 6 with duration 3 and waits.  No two events of the run
share an event time. -/

/-- C3, evaluated on the code: the pass that processes the Departure of customer 0 at time 100
while customer 6 (arrived at time 6, duration 3) heads the wait line.  Customer 6 is
re-inserted as a Departure with `eventTime` 200, which is `currentTime` plus the duration of
the departing event (100 + 100), and not `currentTime` plus its own duration
(100 + 3 = 103); `tellersAvailable` stays 0. -/
theorem bank_departure_pass_reinserts_head (tie : Nat) :
    BankSim.loopBody 43200 tie
        ⟨[⟨0, 100, 100, DEPARTURE, 100, 0⟩, ⟨1, 101, 100, DEPARTURE, 100, 0⟩,
          ⟨2, 102, 100, DEPARTURE, 100, 0⟩, ⟨3, 103, 100, DEPARTURE, 100, 0⟩,
          ⟨4, 104, 100, DEPARTURE, 100, 0⟩, ⟨5, 105, 100, DEPARTURE, 100, 0⟩],
        [⟨6, 6, 3, ARRIVAL, 0, 0⟩], 6, 0, []⟩
      = Loop.next
        ⟨[⟨1, 101, 100, DEPARTURE, 100, 0⟩, ⟨2, 102, 100, DEPARTURE, 100, 0⟩,
          ⟨3, 103, 100, DEPARTURE, 100, 0⟩, ⟨4, 104, 100, DEPARTURE, 100, 0⟩,
          ⟨5, 105, 100, DEPARTURE, 100, 0⟩, ⟨6, 200, 3, DEPARTURE, 97, 0⟩],
        [], 100, 0, [100]⟩ := by
  rw [BankSim.loopBody_of_top (e := ⟨0, 100, 100, DEPARTURE, 100, 0⟩)
    (top_of_candidates_singleton tie (by simp [topCandidates, compareEventTime]))]
  decide

/-- C4, evaluated on the code: the run from the seven Arrivals returns, for every way of
breaking ties, with results 100, 100, 100, 100, 100, 100, 97.  Customer 6 arrived at time 6
and its Departure is processed at time 200, so the value committed for it, 97, is not the 194
seconds from its arrival to its Departure. -/
theorem bank_run_seven_customers (ties : Nat → Nat) :
    BankSim.runSim 43200 ties
        ⟨[⟨0, 0, 100, ARRIVAL, 0, 0⟩, ⟨1, 1, 100, ARRIVAL, 0, 0⟩, ⟨2, 2, 100, ARRIVAL, 0, 0⟩,
          ⟨3, 3, 100, ARRIVAL, 0, 0⟩, ⟨4, 4, 100, ARRIVAL, 0, 0⟩, ⟨5, 5, 100, ARRIVAL, 0, 0⟩,
          ⟨6, 6, 3, ARRIVAL, 0, 0⟩],
        [], 0, 6, []⟩
      = Loop.stop ⟨[], [], 200, 6, [100, 100, 100, 100, 100, 100, 97]⟩
    ∧ BankSim.processed 43200 ties 15
        ⟨[⟨0, 0, 100, ARRIVAL, 0, 0⟩, ⟨1, 1, 100, ARRIVAL, 0, 0⟩, ⟨2, 2, 100, ARRIVAL, 0, 0⟩,
          ⟨3, 3, 100, ARRIVAL, 0, 0⟩, ⟨4, 4, 100, ARRIVAL, 0, 0⟩, ⟨5, 5, 100, ARRIVAL, 0, 0⟩,
          ⟨6, 6, 3, ARRIVAL, 0, 0⟩],
        [], 0, 6, []⟩
      = [⟨0, 0, 100, ARRIVAL, 0, 0⟩, ⟨1, 1, 100, ARRIVAL, 0, 0⟩, ⟨2, 2, 100, ARRIVAL, 0, 0⟩,
         ⟨3, 3, 100, ARRIVAL, 0, 0⟩, ⟨4, 4, 100, ARRIVAL, 0, 0⟩, ⟨5, 5, 100, ARRIVAL, 0, 0⟩,
         ⟨6, 6, 3, ARRIVAL, 0, 0⟩, ⟨0, 100, 100, DEPARTURE, 100, 0⟩,
         ⟨1, 101, 100, DEPARTURE, 100, 0⟩, ⟨2, 102, 100, DEPARTURE, 100, 0⟩,
         ⟨3, 103, 100, DEPARTURE, 100, 0⟩, ⟨4, 104, 100, DEPARTURE, 100, 0⟩,
         ⟨5, 105, 100, DEPARTURE, 100, 0⟩, ⟨6, 200, 3, DEPARTURE, 97, 0⟩] := by
  have t0 : ∀ tie, top tie
      [(⟨0, 0, 100, ARRIVAL, 0, 0⟩ : Event), ⟨1, 1, 100, ARRIVAL, 0, 0⟩, ⟨2, 2, 100, ARRIVAL, 0, 0⟩,
        ⟨3, 3, 100, ARRIVAL, 0, 0⟩, ⟨4, 4, 100, ARRIVAL, 0, 0⟩, ⟨5, 5, 100, ARRIVAL, 0, 0⟩,
        ⟨6, 6, 3, ARRIVAL, 0, 0⟩]
      = some ⟨0, 0, 100, ARRIVAL, 0, 0⟩ := fun tie =>
    top_of_candidates_singleton tie (by simp [topCandidates, compareEventTime])
  have h0 : BankSim.handle 43200
        ⟨[⟨0, 0, 100, ARRIVAL, 0, 0⟩, ⟨1, 1, 100, ARRIVAL, 0, 0⟩, ⟨2, 2, 100, ARRIVAL, 0, 0⟩,
          ⟨3, 3, 100, ARRIVAL, 0, 0⟩, ⟨4, 4, 100, ARRIVAL, 0, 0⟩, ⟨5, 5, 100, ARRIVAL, 0, 0⟩,
          ⟨6, 6, 3, ARRIVAL, 0, 0⟩],
        [], 0, 6, []⟩
        ⟨0, 0, 100, ARRIVAL, 0, 0⟩
      = Loop.next
        ⟨[⟨1, 1, 100, ARRIVAL, 0, 0⟩, ⟨2, 2, 100, ARRIVAL, 0, 0⟩, ⟨3, 3, 100, ARRIVAL, 0, 0⟩,
          ⟨4, 4, 100, ARRIVAL, 0, 0⟩, ⟨5, 5, 100, ARRIVAL, 0, 0⟩, ⟨6, 6, 3, ARRIVAL, 0, 0⟩,
          ⟨0, 100, 100, DEPARTURE, 100, 0⟩],
        [], 0, 5, []⟩ := by
    decide
  have t1 : ∀ tie, top tie
      [(⟨1, 1, 100, ARRIVAL, 0, 0⟩ : Event), ⟨2, 2, 100, ARRIVAL, 0, 0⟩, ⟨3, 3, 100, ARRIVAL, 0, 0⟩,
        ⟨4, 4, 100, ARRIVAL, 0, 0⟩, ⟨5, 5, 100, ARRIVAL, 0, 0⟩, ⟨6, 6, 3, ARRIVAL, 0, 0⟩,
        ⟨0, 100, 100, DEPARTURE, 100, 0⟩]
      = some ⟨1, 1, 100, ARRIVAL, 0, 0⟩ := fun tie =>
    top_of_candidates_singleton tie (by simp [topCandidates, compareEventTime])
  have h1 : BankSim.handle 43200
        ⟨[⟨1, 1, 100, ARRIVAL, 0, 0⟩, ⟨2, 2, 100, ARRIVAL, 0, 0⟩, ⟨3, 3, 100, ARRIVAL, 0, 0⟩,
          ⟨4, 4, 100, ARRIVAL, 0, 0⟩, ⟨5, 5, 100, ARRIVAL, 0, 0⟩, ⟨6, 6, 3, ARRIVAL, 0, 0⟩,
          ⟨0, 100, 100, DEPARTURE, 100, 0⟩],
        [], 0, 5, []⟩
        ⟨1, 1, 100, ARRIVAL, 0, 0⟩
      = Loop.next
        ⟨[⟨2, 2, 100, ARRIVAL, 0, 0⟩, ⟨3, 3, 100, ARRIVAL, 0, 0⟩, ⟨4, 4, 100, ARRIVAL, 0, 0⟩,
          ⟨5, 5, 100, ARRIVAL, 0, 0⟩, ⟨6, 6, 3, ARRIVAL, 0, 0⟩, ⟨0, 100, 100, DEPARTURE, 100, 0⟩,
          ⟨1, 101, 100, DEPARTURE, 100, 0⟩],
        [], 1, 4, []⟩ := by
    decide
  have t2 : ∀ tie, top tie
      [(⟨2, 2, 100, ARRIVAL, 0, 0⟩ : Event), ⟨3, 3, 100, ARRIVAL, 0, 0⟩, ⟨4, 4, 100, ARRIVAL, 0, 0⟩,
        ⟨5, 5, 100, ARRIVAL, 0, 0⟩, ⟨6, 6, 3, ARRIVAL, 0, 0⟩, ⟨0, 100, 100, DEPARTURE, 100, 0⟩,
        ⟨1, 101, 100, DEPARTURE, 100, 0⟩]
      = some ⟨2, 2, 100, ARRIVAL, 0, 0⟩ := fun tie =>
    top_of_candidates_singleton tie (by simp [topCandidates, compareEventTime])
  have h2 : BankSim.handle 43200
        ⟨[⟨2, 2, 100, ARRIVAL, 0, 0⟩, ⟨3, 3, 100, ARRIVAL, 0, 0⟩, ⟨4, 4, 100, ARRIVAL, 0, 0⟩,
          ⟨5, 5, 100, ARRIVAL, 0, 0⟩, ⟨6, 6, 3, ARRIVAL, 0, 0⟩, ⟨0, 100, 100, DEPARTURE, 100, 0⟩,
          ⟨1, 101, 100, DEPARTURE, 100, 0⟩],
        [], 1, 4, []⟩
        ⟨2, 2, 100, ARRIVAL, 0, 0⟩
      = Loop.next
        ⟨[⟨3, 3, 100, ARRIVAL, 0, 0⟩, ⟨4, 4, 100, ARRIVAL, 0, 0⟩, ⟨5, 5, 100, ARRIVAL, 0, 0⟩,
          ⟨6, 6, 3, ARRIVAL, 0, 0⟩, ⟨0, 100, 100, DEPARTURE, 100, 0⟩,
          ⟨1, 101, 100, DEPARTURE, 100, 0⟩, ⟨2, 102, 100, DEPARTURE, 100, 0⟩],
        [], 2, 3, []⟩ := by
    decide
  have t3 : ∀ tie, top tie
      [(⟨3, 3, 100, ARRIVAL, 0, 0⟩ : Event), ⟨4, 4, 100, ARRIVAL, 0, 0⟩, ⟨5, 5, 100, ARRIVAL, 0, 0⟩,
        ⟨6, 6, 3, ARRIVAL, 0, 0⟩, ⟨0, 100, 100, DEPARTURE, 100, 0⟩,
        ⟨1, 101, 100, DEPARTURE, 100, 0⟩, ⟨2, 102, 100, DEPARTURE, 100, 0⟩]
      = some ⟨3, 3, 100, ARRIVAL, 0, 0⟩ := fun tie =>
    top_of_candidates_singleton tie (by simp [topCandidates, compareEventTime])
  have h3 : BankSim.handle 43200
        ⟨[⟨3, 3, 100, ARRIVAL, 0, 0⟩, ⟨4, 4, 100, ARRIVAL, 0, 0⟩, ⟨5, 5, 100, ARRIVAL, 0, 0⟩,
          ⟨6, 6, 3, ARRIVAL, 0, 0⟩, ⟨0, 100, 100, DEPARTURE, 100, 0⟩,
          ⟨1, 101, 100, DEPARTURE, 100, 0⟩, ⟨2, 102, 100, DEPARTURE, 100, 0⟩],
        [], 2, 3, []⟩
        ⟨3, 3, 100, ARRIVAL, 0, 0⟩
      = Loop.next
        ⟨[⟨4, 4, 100, ARRIVAL, 0, 0⟩, ⟨5, 5, 100, ARRIVAL, 0, 0⟩, ⟨6, 6, 3, ARRIVAL, 0, 0⟩,
          ⟨0, 100, 100, DEPARTURE, 100, 0⟩, ⟨1, 101, 100, DEPARTURE, 100, 0⟩,
          ⟨2, 102, 100, DEPARTURE, 100, 0⟩, ⟨3, 103, 100, DEPARTURE, 100, 0⟩],
        [], 3, 2, []⟩ := by
    decide
  have t4 : ∀ tie, top tie
      [(⟨4, 4, 100, ARRIVAL, 0, 0⟩ : Event), ⟨5, 5, 100, ARRIVAL, 0, 0⟩, ⟨6, 6, 3, ARRIVAL, 0, 0⟩,
        ⟨0, 100, 100, DEPARTURE, 100, 0⟩, ⟨1, 101, 100, DEPARTURE, 100, 0⟩,
        ⟨2, 102, 100, DEPARTURE, 100, 0⟩, ⟨3, 103, 100, DEPARTURE, 100, 0⟩]
      = some ⟨4, 4, 100, ARRIVAL, 0, 0⟩ := fun tie =>
    top_of_candidates_singleton tie (by simp [topCandidates, compareEventTime])
  have h4 : BankSim.handle 43200
        ⟨[⟨4, 4, 100, ARRIVAL, 0, 0⟩, ⟨5, 5, 100, ARRIVAL, 0, 0⟩, ⟨6, 6, 3, ARRIVAL, 0, 0⟩,
          ⟨0, 100, 100, DEPARTURE, 100, 0⟩, ⟨1, 101, 100, DEPARTURE, 100, 0⟩,
          ⟨2, 102, 100, DEPARTURE, 100, 0⟩, ⟨3, 103, 100, DEPARTURE, 100, 0⟩],
        [], 3, 2, []⟩
        ⟨4, 4, 100, ARRIVAL, 0, 0⟩
      = Loop.next
        ⟨[⟨5, 5, 100, ARRIVAL, 0, 0⟩, ⟨6, 6, 3, ARRIVAL, 0, 0⟩, ⟨0, 100, 100, DEPARTURE, 100, 0⟩,
          ⟨1, 101, 100, DEPARTURE, 100, 0⟩, ⟨2, 102, 100, DEPARTURE, 100, 0⟩,
          ⟨3, 103, 100, DEPARTURE, 100, 0⟩, ⟨4, 104, 100, DEPARTURE, 100, 0⟩],
        [], 4, 1, []⟩ := by
    decide
  have t5 : ∀ tie, top tie
      [(⟨5, 5, 100, ARRIVAL, 0, 0⟩ : Event), ⟨6, 6, 3, ARRIVAL, 0, 0⟩,
        ⟨0, 100, 100, DEPARTURE, 100, 0⟩,
        ⟨1, 101, 100, DEPARTURE, 100, 0⟩, ⟨2, 102, 100, DEPARTURE, 100, 0⟩,
        ⟨3, 103, 100, DEPARTURE, 100, 0⟩, ⟨4, 104, 100, DEPARTURE, 100, 0⟩]
      = some ⟨5, 5, 100, ARRIVAL, 0, 0⟩ := fun tie =>
    top_of_candidates_singleton tie (by simp [topCandidates, compareEventTime])
  have h5 : BankSim.handle 43200
        ⟨[⟨5, 5, 100, ARRIVAL, 0, 0⟩, ⟨6, 6, 3, ARRIVAL, 0, 0⟩, ⟨0, 100, 100, DEPARTURE, 100, 0⟩,
          ⟨1, 101, 100, DEPARTURE, 100, 0⟩, ⟨2, 102, 100, DEPARTURE, 100, 0⟩,
          ⟨3, 103, 100, DEPARTURE, 100, 0⟩, ⟨4, 104, 100, DEPARTURE, 100, 0⟩],
        [], 4, 1, []⟩
        ⟨5, 5, 100, ARRIVAL, 0, 0⟩
      = Loop.next
        ⟨[⟨6, 6, 3, ARRIVAL, 0, 0⟩, ⟨0, 100, 100, DEPARTURE, 100, 0⟩,
          ⟨1, 101, 100, DEPARTURE, 100, 0⟩, ⟨2, 102, 100, DEPARTURE, 100, 0⟩,
          ⟨3, 103, 100, DEPARTURE, 100, 0⟩, ⟨4, 104, 100, DEPARTURE, 100, 0⟩,
          ⟨5, 105, 100, DEPARTURE, 100, 0⟩],
        [], 5, 0, []⟩ := by
    decide
  have t6 : ∀ tie, top tie
      [(⟨6, 6, 3, ARRIVAL, 0, 0⟩ : Event), ⟨0, 100, 100, DEPARTURE, 100, 0⟩,
        ⟨1, 101, 100, DEPARTURE, 100, 0⟩, ⟨2, 102, 100, DEPARTURE, 100, 0⟩,
        ⟨3, 103, 100, DEPARTURE, 100, 0⟩, ⟨4, 104, 100, DEPARTURE, 100, 0⟩,
        ⟨5, 105, 100, DEPARTURE, 100, 0⟩]
      = some ⟨6, 6, 3, ARRIVAL, 0, 0⟩ := fun tie =>
    top_of_candidates_singleton tie (by simp [topCandidates, compareEventTime])
  have h6 : BankSim.handle 43200
        ⟨[⟨6, 6, 3, ARRIVAL, 0, 0⟩, ⟨0, 100, 100, DEPARTURE, 100, 0⟩,
          ⟨1, 101, 100, DEPARTURE, 100, 0⟩, ⟨2, 102, 100, DEPARTURE, 100, 0⟩,
          ⟨3, 103, 100, DEPARTURE, 100, 0⟩, ⟨4, 104, 100, DEPARTURE, 100, 0⟩,
          ⟨5, 105, 100, DEPARTURE, 100, 0⟩],
        [], 5, 0, []⟩
        ⟨6, 6, 3, ARRIVAL, 0, 0⟩
      = Loop.next
        ⟨[⟨0, 100, 100, DEPARTURE, 100, 0⟩, ⟨1, 101, 100, DEPARTURE, 100, 0⟩,
          ⟨2, 102, 100, DEPARTURE, 100, 0⟩, ⟨3, 103, 100, DEPARTURE, 100, 0⟩,
          ⟨4, 104, 100, DEPARTURE, 100, 0⟩, ⟨5, 105, 100, DEPARTURE, 100, 0⟩],
        [⟨6, 6, 3, ARRIVAL, 0, 0⟩], 6, 0, []⟩ := by
    decide
  have t7 : ∀ tie, top tie
      [(⟨0, 100, 100, DEPARTURE, 100, 0⟩ : Event), ⟨1, 101, 100, DEPARTURE, 100, 0⟩,
        ⟨2, 102, 100, DEPARTURE, 100, 0⟩, ⟨3, 103, 100, DEPARTURE, 100, 0⟩,
        ⟨4, 104, 100, DEPARTURE, 100, 0⟩, ⟨5, 105, 100, DEPARTURE, 100, 0⟩]
      = some ⟨0, 100, 100, DEPARTURE, 100, 0⟩ := fun tie =>
    top_of_candidates_singleton tie (by simp [topCandidates, compareEventTime])
  have h7 : BankSim.handle 43200
        ⟨[⟨0, 100, 100, DEPARTURE, 100, 0⟩, ⟨1, 101, 100, DEPARTURE, 100, 0⟩,
          ⟨2, 102, 100, DEPARTURE, 100, 0⟩, ⟨3, 103, 100, DEPARTURE, 100, 0⟩,
          ⟨4, 104, 100, DEPARTURE, 100, 0⟩, ⟨5, 105, 100, DEPARTURE, 100, 0⟩],
        [⟨6, 6, 3, ARRIVAL, 0, 0⟩], 6, 0, []⟩
        ⟨0, 100, 100, DEPARTURE, 100, 0⟩
      = Loop.next
        ⟨[⟨1, 101, 100, DEPARTURE, 100, 0⟩, ⟨2, 102, 100, DEPARTURE, 100, 0⟩,
          ⟨3, 103, 100, DEPARTURE, 100, 0⟩, ⟨4, 104, 100, DEPARTURE, 100, 0⟩,
          ⟨5, 105, 100, DEPARTURE, 100, 0⟩, ⟨6, 200, 3, DEPARTURE, 97, 0⟩],
        [], 100, 0, [100]⟩ := by
    decide
  have t8 : ∀ tie, top tie
      [(⟨1, 101, 100, DEPARTURE, 100, 0⟩ : Event), ⟨2, 102, 100, DEPARTURE, 100, 0⟩,
        ⟨3, 103, 100, DEPARTURE, 100, 0⟩, ⟨4, 104, 100, DEPARTURE, 100, 0⟩,
        ⟨5, 105, 100, DEPARTURE, 100, 0⟩, ⟨6, 200, 3, DEPARTURE, 97, 0⟩]
      = some ⟨1, 101, 100, DEPARTURE, 100, 0⟩ := fun tie =>
    top_of_candidates_singleton tie (by simp [topCandidates, compareEventTime])
  have h8 : BankSim.handle 43200
        ⟨[⟨1, 101, 100, DEPARTURE, 100, 0⟩, ⟨2, 102, 100, DEPARTURE, 100, 0⟩,
          ⟨3, 103, 100, DEPARTURE, 100, 0⟩, ⟨4, 104, 100, DEPARTURE, 100, 0⟩,
          ⟨5, 105, 100, DEPARTURE, 100, 0⟩, ⟨6, 200, 3, DEPARTURE, 97, 0⟩],
        [], 100, 0, [100]⟩
        ⟨1, 101, 100, DEPARTURE, 100, 0⟩
      = Loop.next
        ⟨[⟨2, 102, 100, DEPARTURE, 100, 0⟩, ⟨3, 103, 100, DEPARTURE, 100, 0⟩,
          ⟨4, 104, 100, DEPARTURE, 100, 0⟩, ⟨5, 105, 100, DEPARTURE, 100, 0⟩,
          ⟨6, 200, 3, DEPARTURE, 97, 0⟩],
        [], 101, 1, [100, 100]⟩ := by
    decide
  have t9 : ∀ tie, top tie
      [(⟨2, 102, 100, DEPARTURE, 100, 0⟩ : Event), ⟨3, 103, 100, DEPARTURE, 100, 0⟩,
        ⟨4, 104, 100, DEPARTURE, 100, 0⟩, ⟨5, 105, 100, DEPARTURE, 100, 0⟩,
        ⟨6, 200, 3, DEPARTURE, 97, 0⟩]
      = some ⟨2, 102, 100, DEPARTURE, 100, 0⟩ := fun tie =>
    top_of_candidates_singleton tie (by simp [topCandidates, compareEventTime])
  have h9 : BankSim.handle 43200
        ⟨[⟨2, 102, 100, DEPARTURE, 100, 0⟩, ⟨3, 103, 100, DEPARTURE, 100, 0⟩,
          ⟨4, 104, 100, DEPARTURE, 100, 0⟩, ⟨5, 105, 100, DEPARTURE, 100, 0⟩,
          ⟨6, 200, 3, DEPARTURE, 97, 0⟩],
        [], 101, 1, [100, 100]⟩
        ⟨2, 102, 100, DEPARTURE, 100, 0⟩
      = Loop.next
        ⟨[⟨3, 103, 100, DEPARTURE, 100, 0⟩, ⟨4, 104, 100, DEPARTURE, 100, 0⟩,
          ⟨5, 105, 100, DEPARTURE, 100, 0⟩, ⟨6, 200, 3, DEPARTURE, 97, 0⟩],
        [], 102, 2, [100, 100, 100]⟩ := by
    decide
  have t10 : ∀ tie, top tie
      [(⟨3, 103, 100, DEPARTURE, 100, 0⟩ : Event), ⟨4, 104, 100, DEPARTURE, 100, 0⟩,
        ⟨5, 105, 100, DEPARTURE, 100, 0⟩, ⟨6, 200, 3, DEPARTURE, 97, 0⟩]
      = some ⟨3, 103, 100, DEPARTURE, 100, 0⟩ := fun tie =>
    top_of_candidates_singleton tie (by simp [topCandidates, compareEventTime])
  have h10 : BankSim.handle 43200
        ⟨[⟨3, 103, 100, DEPARTURE, 100, 0⟩, ⟨4, 104, 100, DEPARTURE, 100, 0⟩,
          ⟨5, 105, 100, DEPARTURE, 100, 0⟩, ⟨6, 200, 3, DEPARTURE, 97, 0⟩],
        [], 102, 2, [100, 100, 100]⟩
        ⟨3, 103, 100, DEPARTURE, 100, 0⟩
      = Loop.next
        ⟨[⟨4, 104, 100, DEPARTURE, 100, 0⟩, ⟨5, 105, 100, DEPARTURE, 100, 0⟩,
          ⟨6, 200, 3, DEPARTURE, 97, 0⟩],
        [], 103, 3, [100, 100, 100, 100]⟩ := by
    decide
  have t11 : ∀ tie, top tie
      [(⟨4, 104, 100, DEPARTURE, 100, 0⟩ : Event), ⟨5, 105, 100, DEPARTURE, 100, 0⟩,
        ⟨6, 200, 3, DEPARTURE, 97, 0⟩]
      = some ⟨4, 104, 100, DEPARTURE, 100, 0⟩ := fun tie =>
    top_of_candidates_singleton tie (by simp [topCandidates, compareEventTime])
  have h11 : BankSim.handle 43200
        ⟨[⟨4, 104, 100, DEPARTURE, 100, 0⟩, ⟨5, 105, 100, DEPARTURE, 100, 0⟩,
          ⟨6, 200, 3, DEPARTURE, 97, 0⟩],
        [], 103, 3, [100, 100, 100, 100]⟩
        ⟨4, 104, 100, DEPARTURE, 100, 0⟩
      = Loop.next
        ⟨[⟨5, 105, 100, DEPARTURE, 100, 0⟩, ⟨6, 200, 3, DEPARTURE, 97, 0⟩],
        [], 104, 4, [100, 100, 100, 100, 100]⟩ := by
    decide
  have t12 : ∀ tie, top tie
      [(⟨5, 105, 100, DEPARTURE, 100, 0⟩ : Event), ⟨6, 200, 3, DEPARTURE, 97, 0⟩]
      = some ⟨5, 105, 100, DEPARTURE, 100, 0⟩ := fun tie =>
    top_of_candidates_singleton tie (by simp [topCandidates, compareEventTime])
  have h12 : BankSim.handle 43200
        ⟨[⟨5, 105, 100, DEPARTURE, 100, 0⟩, ⟨6, 200, 3, DEPARTURE, 97, 0⟩],
        [], 104, 4, [100, 100, 100, 100, 100]⟩
        ⟨5, 105, 100, DEPARTURE, 100, 0⟩
      = Loop.next
        ⟨[⟨6, 200, 3, DEPARTURE, 97, 0⟩],
        [], 105, 5, [100, 100, 100, 100, 100, 100]⟩ := by
    decide
  have t13 : ∀ tie, top tie
      [(⟨6, 200, 3, DEPARTURE, 97, 0⟩ : Event)]
      = some ⟨6, 200, 3, DEPARTURE, 97, 0⟩ := fun tie =>
    top_of_candidates_singleton tie (by simp [topCandidates, compareEventTime])
  have h13 : BankSim.handle 43200
        ⟨[⟨6, 200, 3, DEPARTURE, 97, 0⟩],
        [], 105, 5, [100, 100, 100, 100, 100, 100]⟩
        ⟨6, 200, 3, DEPARTURE, 97, 0⟩
      = Loop.next
        ⟨[],
        [], 200, 6, [100, 100, 100, 100, 100, 100, 97]⟩ := by
    decide
  have hend : ∀ tie, BankSim.loopBody 43200 tie ⟨[], [], 200, 6, [100, 100, 100, 100, 100, 100, 97]⟩
      = Loop.stop ⟨[], [], 200, 6, [100, 100, 100, 100, 100, 100, 97]⟩ := fun tie =>
    BankSim.loopBody_of_nil 43200 tie rfl
  constructor
  · show iterate (BankSim.loopBody 43200) ties 15 _ = _
    rw [iterate_succ_next 14 ((BankSim.loopBody_of_top (t0 _)).trans h0),
      iterate_succ_next 13 ((BankSim.loopBody_of_top (t1 _)).trans h1),
      iterate_succ_next 12 ((BankSim.loopBody_of_top (t2 _)).trans h2),
      iterate_succ_next 11 ((BankSim.loopBody_of_top (t3 _)).trans h3),
      iterate_succ_next 10 ((BankSim.loopBody_of_top (t4 _)).trans h4),
      iterate_succ_next 9 ((BankSim.loopBody_of_top (t5 _)).trans h5),
      iterate_succ_next 8 ((BankSim.loopBody_of_top (t6 _)).trans h6),
      iterate_succ_next 7 ((BankSim.loopBody_of_top (t7 _)).trans h7),
      iterate_succ_next 6 ((BankSim.loopBody_of_top (t8 _)).trans h8),
      iterate_succ_next 5 ((BankSim.loopBody_of_top (t9 _)).trans h9),
      iterate_succ_next 4 ((BankSim.loopBody_of_top (t10 _)).trans h10),
      iterate_succ_next 3 ((BankSim.loopBody_of_top (t11 _)).trans h11),
      iterate_succ_next 2 ((BankSim.loopBody_of_top (t12 _)).trans h12),
      iterate_succ_next 1 ((BankSim.loopBody_of_top (t13 _)).trans h13),
      iterate_succ_stop 0 (hend _)]
  · rw [BankSim.processed_succ_next 14 (t0 _) h0,
      BankSim.processed_succ_next 13 (t1 _) h1,
      BankSim.processed_succ_next 12 (t2 _) h2,
      BankSim.processed_succ_next 11 (t3 _) h3,
      BankSim.processed_succ_next 10 (t4 _) h4,
      BankSim.processed_succ_next 9 (t5 _) h5,
      BankSim.processed_succ_next 8 (t6 _) h6,
      BankSim.processed_succ_next 7 (t7 _) h7,
      BankSim.processed_succ_next 6 (t8 _) h8,
      BankSim.processed_succ_next 5 (t9 _) h9,
      BankSim.processed_succ_next 4 (t10 _) h10,
      BankSim.processed_succ_next 3 (t11 _) h11,
      BankSim.processed_succ_next 2 (t12 _) h12,
      BankSim.processed_succ_next 1 (t13 _) h13,
      BankSim.processed_succ_stop 0 (hend _)]

/-! ## C6, C7, C8: routing an arrival in the grocery model -/

theorem chooseShortestLine_le (lines : Fin 6 → Int) (j : Fin 6) :
    lines (GrocerySim.chooseShortestLine lines) ≤ lines j := by
  simp only [GrocerySim.chooseShortestLine, List.foldl]
  fin_cases j <;> simp only [Fin.zero_eta, Fin.mk_one, Fin.reduceFinMk] <;> split_ifs <;> omega

theorem chooseShortestLine_lt (lines : Fin 6 → Int) (j : Fin 6)
    (h : j < GrocerySim.chooseShortestLine lines) :
    lines (GrocerySim.chooseShortestLine lines) < lines j := by
  revert h
  simp only [GrocerySim.chooseShortestLine, List.foldl]
  split_ifs <;> intro h <;> fin_cases j <;>
    simp only [Fin.zero_eta, Fin.mk_one, Fin.reduceFinMk] at h ⊢ <;> omega

/-- C7: for every array of six integers `chooseShortestLine` returns an index in `0..5` whose
entry is the minimum of the array, and every lower index holds a strictly larger value. -/
theorem chooseShortestLine_lowest_minimum (lines : Fin 6 → Int) :
    ((GrocerySim.chooseShortestLine lines : Fin 6) : Nat) < 6
    ∧ (∀ j, lines (GrocerySim.chooseShortestLine lines) ≤ lines j)
    ∧ (∀ j, j < GrocerySim.chooseShortestLine lines →
        lines j > lines (GrocerySim.chooseShortestLine lines)) :=
  ⟨(GrocerySim.chooseShortestLine lines).isLt, chooseShortestLine_le lines,
    chooseShortestLine_lt lines⟩

/-- The routing of an arrival in machine arithmetic, for every state and event: the sums of
lines 173-175 are the wrapped ones. -/
theorem GrocerySim.setArrivalEvent_eq (s : GrocerySim) (nextEvent : Event) (c : Fin 6) :
    s.setArrivalEvent nextEvent c
      = ({ customerID := nextEvent.customerID
           eventTime := wrapInt (s.currentTime + wrapInt (s.cashiers c + nextEvent.duration))
           duration := nextEvent.duration
           event := DEPARTURE
           totalServiceTime := wrapInt (s.cashiers c + nextEvent.duration)
           cashier := ((c : Nat) : Int) },
         { eventQueue := s.eventQueue
           cashiers := Function.update s.cashiers c (wrapInt (s.cashiers c + nextEvent.duration))
           currentTime := s.currentTime
           serviceTime := s.serviceTime }) := by
  simp [GrocerySim.setArrivalEvent]

/-- C6 as stated fails: with every backlog at 2147483647 (the largest `int`), current time 0
and an Arrival of duration 1, server 0 is selected, and the sum `cashiers[0] + duration`
computed at lines 173 and 174 is -2147483648, not 2147483648: the Departure carries
`totalServiceTime = -2147483648` and `eventTime = -2147483648`, and `cashiers[0]` drops to
-2147483648 instead of growing by 1. -/
theorem grocery_setArrivalEvent_wraps :
    GrocerySim.chooseShortestLine (fun _ => 2147483647) = 0
    ∧ (GrocerySim.setArrivalEvent ⟨[], fun _ => 2147483647, 0, []⟩ ⟨0, 0, 1, ARRIVAL, 0, 0⟩
        (GrocerySim.chooseShortestLine (fun _ => 2147483647))).1
      = ⟨0, -2147483648, 1, DEPARTURE, -2147483648, 0⟩
    ∧ (GrocerySim.setArrivalEvent ⟨[], fun _ => 2147483647, 0, []⟩ ⟨0, 0, 1, ARRIVAL, 0, 0⟩
        (GrocerySim.chooseShortestLine (fun _ => 2147483647))).2.cashiers 0 = -2147483648
    ∧ (GrocerySim.setArrivalEvent ⟨[], fun _ => 2147483647, 0, []⟩ ⟨0, 0, 1, ARRIVAL, 0, 0⟩
        (GrocerySim.chooseShortestLine (fun _ => 2147483647))).1.totalServiceTime
      ≠ (fun _ => 2147483647 : Fin 6 → Int) 0 + (⟨0, 0, 1, ARRIVAL, 0, 0⟩ : Event).duration
    ∧ (GrocerySim.setArrivalEvent ⟨[], fun _ => 2147483647, 0, []⟩ ⟨0, 0, 1, ARRIVAL, 0, 0⟩
        (GrocerySim.chooseShortestLine (fun _ => 2147483647))).2.cashiers 0
      ≠ (fun _ => 2147483647 : Fin 6 → Int) 0 + (⟨0, 0, 1, ARRIVAL, 0, 0⟩ : Event).duration := by
  decide

/-- C6, amended: routing an arrival when the two sums stay within `int`.  For every backlog
array, current time and event, with `c = chooseShortestLine cashiers` the selected index, if
`cashiers[c] + duration` and `currentTime + cashiers[c] + duration` (old value of
`cashiers[c]`) lie in `-2147483648 .. 2147483647`, then `setArrivalEvent` turns the event into
a Departure with `cashier = c`, `totalServiceTime = cashiers[c] + duration` and
`eventTime = currentTime + cashiers[c] + duration`; `cashiers[c]` grows by exactly `duration`,
every other entry is unchanged, `duration` and `customerID` of the event are unchanged, and
the scheduler, the clock and the results are untouched. -/
theorem grocery_setArrivalEvent_spec (s : GrocerySim) (nextEvent : Event)
    (hsum : -2147483648 ≤ s.cashiers (GrocerySim.chooseShortestLine s.cashiers)
          + nextEvent.duration
      ∧ s.cashiers (GrocerySim.chooseShortestLine s.cashiers) + nextEvent.duration
          ≤ 2147483647)
    (htime : -2147483648 ≤ s.currentTime
          + s.cashiers (GrocerySim.chooseShortestLine s.cashiers) + nextEvent.duration
      ∧ s.currentTime + s.cashiers (GrocerySim.chooseShortestLine s.cashiers)
          + nextEvent.duration ≤ 2147483647) :
    (s.setArrivalEvent nextEvent (GrocerySim.chooseShortestLine s.cashiers)).1
      = { customerID := nextEvent.customerID
          eventTime := s.currentTime
            + s.cashiers (GrocerySim.chooseShortestLine s.cashiers) + nextEvent.duration
          duration := nextEvent.duration
          event := DEPARTURE
          totalServiceTime :=
            s.cashiers (GrocerySim.chooseShortestLine s.cashiers) + nextEvent.duration
          cashier := ((GrocerySim.chooseShortestLine s.cashiers : Fin 6) : Nat) }
    ∧ (s.setArrivalEvent nextEvent (GrocerySim.chooseShortestLine s.cashiers)).2.cashiers
          (GrocerySim.chooseShortestLine s.cashiers)
        = s.cashiers (GrocerySim.chooseShortestLine s.cashiers) + nextEvent.duration
    ∧ (∀ j, j ≠ GrocerySim.chooseShortestLine s.cashiers →
        (s.setArrivalEvent nextEvent (GrocerySim.chooseShortestLine s.cashiers)).2.cashiers j
          = s.cashiers j)
    ∧ (s.setArrivalEvent nextEvent (GrocerySim.chooseShortestLine s.cashiers)).2.eventQueue
        = s.eventQueue
    ∧ (s.setArrivalEvent nextEvent (GrocerySim.chooseShortestLine s.cashiers)).2.currentTime
        = s.currentTime
    ∧ (s.setArrivalEvent nextEvent (GrocerySim.chooseShortestLine s.cashiers)).2.serviceTime
        = s.serviceTime := by
  have h1 := wrapInt_of_range hsum.1 hsum.2
  have h2 : wrapInt (s.currentTime
      + (s.cashiers (GrocerySim.chooseShortestLine s.cashiers) + nextEvent.duration))
      = s.currentTime
        + s.cashiers (GrocerySim.chooseShortestLine s.cashiers) + nextEvent.duration := by
    rw [wrapInt_of_range (by omega) (by omega)]
    omega
  rw [GrocerySim.setArrivalEvent_eq, h1, h2]
  refine ⟨rfl, ?_, ?_, rfl, rfl, rfl⟩
  · simp
  · intro j hj
    simp [Function.update_noteq hj]

theorem grocery_setArrivalEvent_spec_witness :
    (GrocerySim.setArrivalEvent ⟨[], fun _ => 7, 100, []⟩ ⟨3, 100, 5, ARRIVAL, 0, 0⟩
        (GrocerySim.chooseShortestLine (fun _ => 7))).1
      = ⟨3, 100 + 7 + 5, 5, DEPARTURE, 7 + 5, ((GrocerySim.chooseShortestLine (fun _ => 7) :
          Fin 6) : Nat)⟩
    ∧ (GrocerySim.setArrivalEvent ⟨[], fun _ => 7, 100, []⟩ ⟨3, 100, 5, ARRIVAL, 0, 0⟩
        (GrocerySim.chooseShortestLine (fun _ => 7))).2.cashiers
          (GrocerySim.chooseShortestLine (fun _ => 7)) = 7 + 5 :=
  have h := grocery_setArrivalEvent_spec ⟨[], fun _ => 7, 100, []⟩ ⟨3, 100, 5, ARRIVAL, 0, 0⟩
    (by decide) (by decide)
  ⟨h.1, h.2.1⟩

/-- C8 as stated fails: with all six backlogs at 0 and an arrival of duration 5 (which is
non-negative), server 0 is chosen and its backlog after the routing is 5, which is not at most
the backlog 0 that server 1 had before the routing. -/
theorem grocery_routing_post_value_exceeds :
    (0 : Int) ≤ (⟨0, 0, 5, ARRIVAL, 0, 0⟩ : Event).duration
    ∧ GrocerySim.chooseShortestLine (fun _ => 0) = 0
    ∧ ¬ ((GrocerySim.setArrivalEvent ⟨[], fun _ => 0, 0, []⟩ ⟨0, 0, 5, ARRIVAL, 0, 0⟩
            (GrocerySim.chooseShortestLine (fun _ => 0))).2.cashiers
          (GrocerySim.chooseShortestLine (fun _ => 0))
        ≤ (fun _ => 0 : Fin 6 → Int) 1) := by
  decide

/-- C8, amended: for every backlog array and every arrival, the server chosen by
`chooseShortestLine` has, before the routing, a backlog that is at most the backlog of every
server; and if the sum of that backlog and the duration of the arrival lies in
`-2147483648 .. 2147483647`, then immediately after the routing (`chooseShortestLine` followed
by `setArrivalEvent`) the chosen server's backlog exceeds its value before the routing by
exactly the duration of the arrival, so the new backlog minus the duration is at most the
backlog every server had before the routing. -/
theorem grocery_routing_chooses_least_loaded (s : GrocerySim) (nextEvent : Event) (j : Fin 6)
    (hsum : -2147483648 ≤ s.cashiers (GrocerySim.chooseShortestLine s.cashiers)
          + nextEvent.duration
      ∧ s.cashiers (GrocerySim.chooseShortestLine s.cashiers) + nextEvent.duration
          ≤ 2147483647) :
    s.cashiers (GrocerySim.chooseShortestLine s.cashiers) ≤ s.cashiers j
    ∧ (s.setArrivalEvent nextEvent (GrocerySim.chooseShortestLine s.cashiers)).2.cashiers
          (GrocerySim.chooseShortestLine s.cashiers)
        = s.cashiers (GrocerySim.chooseShortestLine s.cashiers) + nextEvent.duration
    ∧ (s.setArrivalEvent nextEvent (GrocerySim.chooseShortestLine s.cashiers)).2.cashiers
          (GrocerySim.chooseShortestLine s.cashiers) - nextEvent.duration
        ≤ s.cashiers j := by
  have h : (s.setArrivalEvent nextEvent (GrocerySim.chooseShortestLine s.cashiers)).2.cashiers
      (GrocerySim.chooseShortestLine s.cashiers)
      = s.cashiers (GrocerySim.chooseShortestLine s.cashiers) + nextEvent.duration := by
    rw [GrocerySim.setArrivalEvent_eq, wrapInt_of_range hsum.1 hsum.2]
    simp
  have hle := chooseShortestLine_le s.cashiers j
  exact ⟨hle, h, by omega⟩

theorem grocery_routing_chooses_least_loaded_witness :
    (fun _ => 0 : Fin 6 → Int) (GrocerySim.chooseShortestLine (fun _ => 0))
        ≤ (fun _ => 0 : Fin 6 → Int) 1
    ∧ (GrocerySim.setArrivalEvent ⟨[], fun _ => 0, 0, []⟩ ⟨0, 0, 5, ARRIVAL, 0, 0⟩
          (GrocerySim.chooseShortestLine (fun _ => 0))).2.cashiers
          (GrocerySim.chooseShortestLine (fun _ => 0))
        = (fun _ => 0 : Fin 6 → Int) (GrocerySim.chooseShortestLine (fun _ => 0)) + 5
    ∧ (GrocerySim.setArrivalEvent ⟨[], fun _ => 0, 0, []⟩ ⟨0, 0, 5, ARRIVAL, 0, 0⟩
          (GrocerySim.chooseShortestLine (fun _ => 0))).2.cashiers
          (GrocerySim.chooseShortestLine (fun _ => 0)) - 5
        ≤ (fun _ => 0 : Fin 6 → Int) 1 :=
  grocery_routing_chooses_least_loaded ⟨[], fun _ => 0, 0, []⟩ ⟨0, 0, 5, ARRIVAL, 0, 0⟩ 1
    (by decide)

/-! ## Invariants of the loops -/

theorem iterate_next_of_inv {σ : Type} {body : Nat → σ → Loop σ} (P : σ → Prop)
    (hstep : ∀ tie s s', P s → body tie s = Loop.next s' → P s') :
    ∀ (n : Nat) (ties : Nat → Nat) (s s' : σ), P s → iterate body ties n s = Loop.next s' →
      P s' := by
  intro n
  induction n with
  | zero =>
    intro ties s s' hP h
    simp only [iterate, Loop.next.injEq] at h
    exact h ▸ hP
  | succ n ih =>
    intro ties s s' hP h
    simp only [iterate] at h
    cases hb : body (ties 0) s with
    | stop r => rw [hb] at h; exact Loop.noConfusion h
    | thrown => rw [hb] at h; exact Loop.noConfusion h
    | next r =>
      rw [hb] at h
      exact ih _ r s' (hstep _ s r hP hb) h

theorem iterate_stop_of_inv {σ : Type} {body : Nat → σ → Loop σ} (P Q : σ → Prop)
    (hstep : ∀ tie s s', P s → body tie s = Loop.next s' → P s')
    (hstop : ∀ tie s s', P s → body tie s = Loop.stop s' → Q s') :
    ∀ (n : Nat) (ties : Nat → Nat) (s s' : σ), P s → iterate body ties n s = Loop.stop s' →
      Q s' := by
  intro n
  induction n with
  | zero =>
    intro ties s s' hP h
    exact Loop.noConfusion h
  | succ n ih =>
    intro ties s s' hP h
    simp only [iterate] at h
    cases hb : body (ties 0) s with
    | stop r =>
      rw [hb] at h
      simp only [Loop.stop.injEq] at h
      exact h ▸ hstop _ s r hP hb
    | thrown => rw [hb] at h; exact Loop.noConfusion h
    | next r =>
      rw [hb] at h
      exact ih _ r s' (hstep _ s r hP hb) h

theorem countP_pop (p : Event → Bool) {q : List Event} {e : Event} (h : e ∈ q) :
    (pop q e).countP p + (if p e then 1 else 0) = q.countP p := by
  have hperm : q.Perm (e :: q.erase e) := List.perm_cons_erase h
  rw [hperm.countP_eq, List.countP_cons]
  rfl

theorem length_pop {q : List Event} {e : Event} (h : e ∈ q) :
    (pop q e).length + 1 = q.length := by
  unfold pop
  rw [List.length_erase_of_mem h]
  have := List.length_pos_of_mem h
  omega

theorem mem_of_mem_pop {q : List Event} {e x : Event} (h : x ∈ pop q e) : x ∈ q :=
  List.mem_of_mem_erase h

/-- The cases of one pass of the bank loop, as equations on the state. -/
theorem BankSim.handle_cases (SIM_LENGTH : Int) (s : BankSim) (e : Event) :
    (SIM_LENGTH < e.eventTime ∧
      s.handle SIM_LENGTH e = Loop.stop { s with currentTime := e.eventTime })
    ∨ (e.eventTime ≤ SIM_LENGTH ∧ e.event = ARRIVAL ∧ s.tellersAvailable ≠ 0 ∧
      s.handle SIM_LENGTH e = Loop.next
        { eventQueue := pop s.eventQueue e ++
            [{ e with totalServiceTime := e.duration,
                      eventTime := wrapInt (e.eventTime + e.duration), event := DEPARTURE }]
          bankQueue := s.bankQueue
          currentTime := e.eventTime
          tellersAvailable := s.tellersAvailable - 1
          serviceTime := s.serviceTime })
    ∨ (e.eventTime ≤ SIM_LENGTH ∧ e.event = ARRIVAL ∧ s.tellersAvailable = 0 ∧
      s.handle SIM_LENGTH e = Loop.next
        { eventQueue := pop s.eventQueue e
          bankQueue := s.bankQueue ++ [e]
          currentTime := e.eventTime
          tellersAvailable := s.tellersAvailable
          serviceTime := s.serviceTime })
    ∨ (e.eventTime ≤ SIM_LENGTH ∧ e.event = DEPARTURE ∧
      ∃ head rest, s.bankQueue = head :: rest ∧
      s.handle SIM_LENGTH e = Loop.next
        { eventQueue := pop s.eventQueue e ++
            [{ head with
                totalServiceTime := wrapInt (wrapInt (e.eventTime - head.eventTime) + head.duration),
                eventTime := wrapInt (e.eventTime + e.duration), event := DEPARTURE }]
          bankQueue := rest
          currentTime := e.eventTime
          tellersAvailable := s.tellersAvailable
          serviceTime := s.serviceTime ++ [e.totalServiceTime] })
    ∨ (e.eventTime ≤ SIM_LENGTH ∧ e.event = DEPARTURE ∧ s.bankQueue = [] ∧
      s.handle SIM_LENGTH e = Loop.next
        { eventQueue := pop s.eventQueue e
          bankQueue := []
          currentTime := e.eventTime
          tellersAvailable := s.tellersAvailable + 1
          serviceTime := s.serviceTime ++ [e.totalServiceTime] })
    ∨ (e.eventTime ≤ SIM_LENGTH ∧ e.event ≠ ARRIVAL ∧ e.event ≠ DEPARTURE ∧
      s.handle SIM_LENGTH e = Loop.next
        { eventQueue := pop s.eventQueue e
          bankQueue := s.bankQueue
          currentTime := e.eventTime
          tellersAvailable := s.tellersAvailable
          serviceTime := s.serviceTime }) := by
  by_cases hH : SIM_LENGTH < e.eventTime
  · left
    exact ⟨hH, by simp [BankSim.handle, hH]⟩
  · right
    have hle : e.eventTime ≤ SIM_LENGTH := not_lt.mp hH
    by_cases ha : e.event = ARRIVAL
    · by_cases ht : s.tellersAvailable = 0
      · right; left
        exact ⟨hle, ha, ht, by
          simp [BankSim.handle, hH, ha, ht, BankSim.addBankQueueCustomer]⟩
      · left
        exact ⟨hle, ha, ht, by
          simp [BankSim.handle, hH, ha, ht, BankSim.addEvent, BankSim.setArrivalEvent, push]⟩
    · right; right
      by_cases hd : e.event = DEPARTURE
      · have hne : DEPARTURE ≠ ARRIVAL := by decide
        cases hq : s.bankQueue with
        | nil =>
          right; left
          exact ⟨hle, hd, rfl, by simp [BankSim.handle, hH, hd, hne, hq]⟩
        | cons head rest =>
          left
          exact ⟨hle, hd, head, rest, rfl, by
            simp [BankSim.handle, hH, hd, hne, hq, BankSim.addEvent,
              BankSim.setCustomerDeparture, push]⟩
      · right; right
        exact ⟨hle, ha, hd, by simp [BankSim.handle, hH, ha, hd]⟩

theorem BankSim.loopBody_next_top {SIM_LENGTH : Int} {tie : Nat} {s s' : BankSim}
    (h : s.loopBody SIM_LENGTH tie = Loop.next s') :
    ∃ e, top tie s.eventQueue = some e ∧ s.handle SIM_LENGTH e = Loop.next s' := by
  unfold BankSim.loopBody at h
  cases ht : top tie s.eventQueue with
  | none => rw [ht] at h; exact Loop.noConfusion h
  | some e => rw [ht] at h; exact ⟨e, rfl, h⟩

/-- What a completed pass of the bank loop does to the counts of the state. -/
theorem BankSim.loopBody_next_counts {SIM_LENGTH : Int} {tie : Nat} {s s' : BankSim}
    (h : s.loopBody SIM_LENGTH tie = Loop.next s') :
    ∃ e, top tie s.eventQueue = some e ∧ e.eventTime ≤ SIM_LENGTH ∧
      s'.currentTime = e.eventTime ∧
      ((e.event = ARRIVAL ∧ s.tellersAvailable ≠ 0 ∧
          s'.tellersAvailable = s.tellersAvailable - 1 ∧
          s'.eventQueue.countP isDeparture = s.eventQueue.countP isDeparture + 1 ∧
          s'.eventQueue.countP isArrival + 1 = s.eventQueue.countP isArrival ∧
          s'.eventQueue.length = s.eventQueue.length ∧
          s'.bankQueue = s.bankQueue ∧ s'.serviceTime = s.serviceTime)
      ∨ (e.event = ARRIVAL ∧ s.tellersAvailable = 0 ∧
          s'.tellersAvailable = s.tellersAvailable ∧
          s'.eventQueue.countP isDeparture = s.eventQueue.countP isDeparture ∧
          s'.eventQueue.countP isArrival + 1 = s.eventQueue.countP isArrival ∧
          s'.eventQueue.length + 1 = s.eventQueue.length ∧
          s'.bankQueue = s.bankQueue ++ [e] ∧ s'.serviceTime = s.serviceTime)
      ∨ (e.event = DEPARTURE ∧ (∃ head, s.bankQueue = head :: s'.bankQueue) ∧
          s'.tellersAvailable = s.tellersAvailable ∧
          s'.eventQueue.countP isDeparture = s.eventQueue.countP isDeparture ∧
          s'.eventQueue.countP isArrival = s.eventQueue.countP isArrival ∧
          s'.eventQueue.length = s.eventQueue.length ∧
          s'.serviceTime = s.serviceTime ++ [e.totalServiceTime])
      ∨ (e.event = DEPARTURE ∧ s.bankQueue = [] ∧ s'.bankQueue = [] ∧
          s'.tellersAvailable = s.tellersAvailable + 1 ∧
          s'.eventQueue.countP isDeparture + 1 = s.eventQueue.countP isDeparture ∧
          s'.eventQueue.countP isArrival = s.eventQueue.countP isArrival ∧
          s'.eventQueue.length + 1 = s.eventQueue.length ∧
          s'.serviceTime = s.serviceTime ++ [e.totalServiceTime])
      ∨ (e.event ≠ ARRIVAL ∧ e.event ≠ DEPARTURE ∧
          s'.tellersAvailable = s.tellersAvailable ∧
          s'.eventQueue.countP isDeparture = s.eventQueue.countP isDeparture ∧
          s'.eventQueue.countP isArrival = s.eventQueue.countP isArrival ∧
          s'.eventQueue.length + 1 = s.eventQueue.length ∧
          s'.bankQueue = s.bankQueue ∧ s'.serviceTime = s.serviceTime)) := by
  obtain ⟨e, ht, hh⟩ := BankSim.loopBody_next_top h
  have hmem : e ∈ s.eventQueue := top_mem ht
  have hD := countP_pop isDeparture hmem
  have hA := countP_pop isArrival hmem
  have hL := length_pop hmem
  have hne : DEPARTURE ≠ ARRIVAL := by decide
  refine ⟨e, ht, ?_⟩
  rcases BankSim.handle_cases SIM_LENGTH s e with
    ⟨_, hc⟩ | ⟨hle, ha, hT, hc⟩ | ⟨hle, ha, hT, hc⟩ | ⟨hle, hd, head, rest, hq, hc⟩ |
    ⟨hle, hd, hq, hc⟩ | ⟨hle, ha, hd, hc⟩
  · rw [hc] at hh; exact Loop.noConfusion hh
  · rw [hc] at hh
    simp only [Loop.next.injEq] at hh
    subst hh
    have hAe : isArrival e = true := by simp [isArrival, ha]
    have hDe : isDeparture e = false := by simp [isDeparture, ha, hne.symm]
    rw [hAe] at hA
    rw [hDe] at hD
    refine ⟨hle, rfl, Or.inl ⟨ha, hT, rfl, ?_, ?_, ?_, rfl, rfl⟩⟩
    · simp [isDeparture, List.countP_append] at hD ⊢
      omega
    · simp [isArrival, hne, List.countP_append] at hA ⊢
      omega
    · simp only [List.length_append, List.length_singleton]
      omega
  · rw [hc] at hh
    simp only [Loop.next.injEq] at hh
    subst hh
    have hAe : isArrival e = true := by simp [isArrival, ha]
    have hDe : isDeparture e = false := by simp [isDeparture, ha, hne.symm]
    rw [hAe] at hA
    rw [hDe] at hD
    refine ⟨hle, rfl, Or.inr (Or.inl ⟨ha, hT, rfl, ?_, ?_, ?_, rfl, rfl⟩)⟩
    · simpa using hD
    · simpa using hA
    · exact hL
  · rw [hc] at hh
    simp only [Loop.next.injEq] at hh
    subst hh
    have hAe : isArrival e = false := by simp [isArrival, hd, hne]
    have hDe : isDeparture e = true := by simp [isDeparture, hd]
    rw [hAe] at hA
    rw [hDe] at hD
    refine ⟨hle, rfl, Or.inr (Or.inr (Or.inl ⟨hd, ⟨head, hq⟩, rfl, ?_, ?_, ?_, rfl⟩))⟩
    · simp [isDeparture, List.countP_append] at hD ⊢
      omega
    · simp [isArrival, hne, List.countP_append] at hA ⊢
      omega
    · simp only [List.length_append, List.length_singleton]
      omega
  · rw [hc] at hh
    simp only [Loop.next.injEq] at hh
    subst hh
    have hAe : isArrival e = false := by simp [isArrival, hd, hne]
    have hDe : isDeparture e = true := by simp [isDeparture, hd]
    rw [hAe] at hA
    rw [hDe] at hD
    refine ⟨hle, rfl, Or.inr (Or.inr (Or.inr (Or.inl ⟨hd, hq, rfl, rfl, ?_, ?_, ?_, rfl⟩)))⟩
    · simpa using hD
    · simpa using hA
    · exact hL
  · rw [hc] at hh
    simp only [Loop.next.injEq] at hh
    subst hh
    have hAe : isArrival e = false := by simp [isArrival, ha]
    have hDe : isDeparture e = false := by simp [isDeparture, hd]
    rw [hAe] at hA
    rw [hDe] at hD
    refine ⟨hle, rfl, Or.inr (Or.inr (Or.inr (Or.inr ⟨ha, hd, rfl, ?_, ?_, ?_, rfl, rfl⟩)))⟩
    · simpa using hD
    · simpa using hA
    · exact hL

/-- A pass that leaves the bank loop changes nothing but the clock. -/
theorem BankSim.loopBody_stop {SIM_LENGTH : Int} {tie : Nat} {s s' : BankSim}
    (h : s.loopBody SIM_LENGTH tie = Loop.stop s') :
    s'.eventQueue = s.eventQueue ∧ s'.bankQueue = s.bankQueue ∧
      s'.tellersAvailable = s.tellersAvailable ∧ s'.serviceTime = s.serviceTime ∧
      (s.eventQueue = [] ∨
        ∃ e, top tie s.eventQueue = some e ∧ SIM_LENGTH < e.eventTime ∧
          s'.currentTime = e.eventTime) := by
  unfold BankSim.loopBody at h
  cases ht : top tie s.eventQueue with
  | none =>
    rw [ht] at h
    simp only [Loop.stop.injEq] at h
    subst h
    exact ⟨rfl, rfl, rfl, rfl, Or.inl ((top_eq_none_iff tie _).mp ht)⟩
  | some e =>
    rw [ht] at h
    replace h : s.handle SIM_LENGTH e = Loop.stop s' := h
    rcases BankSim.handle_cases SIM_LENGTH s e with
      ⟨hH, hc⟩ | ⟨_, _, _, hc⟩ | ⟨_, _, _, hc⟩ | ⟨_, _, _, _, _, hc⟩ | ⟨_, _, _, hc⟩ |
      ⟨_, _, _, hc⟩
    · rw [hc] at h
      simp only [Loop.stop.injEq] at h
      subst h
      exact ⟨rfl, rfl, rfl, rfl, Or.inr ⟨e, rfl, hH, rfl⟩⟩
    all_goals (rw [hc] at h; exact Loop.noConfusion h)

theorem BankSim.loopBody_ne_thrown (SIM_LENGTH : Int) (tie : Nat) (s : BankSim) :
    s.loopBody SIM_LENGTH tie ≠ Loop.thrown := by
  intro h
  unfold BankSim.loopBody at h
  cases ht : top tie s.eventQueue with
  | none => rw [ht] at h; exact Loop.noConfusion h
  | some e =>
    rw [ht] at h
    replace h : s.handle SIM_LENGTH e = Loop.thrown := h
    rcases BankSim.handle_cases SIM_LENGTH s e with
      ⟨_, hc⟩ | ⟨_, _, _, hc⟩ | ⟨_, _, _, hc⟩ | ⟨_, _, _, _, _, hc⟩ | ⟨_, _, _, hc⟩ |
      ⟨_, _, _, hc⟩
    all_goals (rw [hc] at h; exact Loop.noConfusion h)

theorem BankSim.processed_of_next {SIM_LENGTH : Int} {ties : Nat → Nat} {s s' : BankSim}
    {e : Event} (n : Nat) (ht : top (ties 0) s.eventQueue = some e)
    (hb : s.loopBody SIM_LENGTH (ties 0) = Loop.next s') :
    BankSim.processed SIM_LENGTH ties (n + 1) s
      = e :: BankSim.processed SIM_LENGTH (fun k => ties (k + 1)) n s' := by
  simp [BankSim.processed, ht, hb]

/-- The loop of `BankSim::runSim` is left within `n` passes as soon as `n` exceeds the number
of events in the scheduler, counting Arrival events twice, plus the length of the wait line. -/
theorem BankSim.iterate_stops (SIM_LENGTH : Int) :
    ∀ (n : Nat) (ties : Nat → Nat) (s : BankSim),
      s.eventQueue.length + s.eventQueue.countP isArrival + s.bankQueue.length < n →
      ∃ r, iterate (BankSim.loopBody SIM_LENGTH) ties n s = Loop.stop r := by
  intro n
  induction n with
  | zero => intro ties s h; omega
  | succ n ih =>
    intro ties s h
    cases hb : BankSim.loopBody SIM_LENGTH (ties 0) s with
    | stop r => exact ⟨r, iterate_succ_stop n hb⟩
    | thrown => exact absurd hb (BankSim.loopBody_ne_thrown _ _ _)
    | next s' =>
      rw [iterate_succ_next n hb]
      apply ih
      obtain ⟨e, _, _, _, hc⟩ := BankSim.loopBody_next_counts hb
      rcases hc with ⟨_, _, _, _, h2, h3, h4, _⟩ | ⟨_, _, _, _, h2, h3, h4, _⟩ |
        ⟨_, ⟨head, h4⟩, _, _, h2, h3, _⟩ | ⟨_, h4, h5, _, _, h2, h3, _⟩ |
        ⟨_, _, _, _, h2, h3, h4, _⟩
      · rw [h4]; omega
      · rw [h4, List.length_append, List.length_singleton]; omega
      · rw [h4, List.length_cons] at h; omega
      · rw [h5]; rw [h4] at h; omega
      · rw [h4]; omega

/-- `BankSim::runSim` returns: the loop is left within `fuel` passes. -/
theorem BankSim.runSim_returns (SIM_LENGTH : Int) (ties : Nat → Nat) (s : BankSim) :
    ∃ r, BankSim.runSim SIM_LENGTH ties s = Loop.stop r := by
  apply BankSim.iterate_stops
  have := List.countP_le_length isArrival (l := s.eventQueue)
  unfold BankSim.fuel
  omega

/-! ## C9: bounded occupancy in the bank model -/

/-- Tellers in use: `tellersAvailable` plus the number of scheduled Departures is constant,
`tellersAvailable` is not negative, and customers wait only when no teller is available. -/
theorem BankSim.tellers_inv_step (SIM_LENGTH N : Int) (tie : Nat) (s s' : BankSim)
    (hP : s.tellersAvailable + s.eventQueue.countP isDeparture = N ∧ 0 ≤ s.tellersAvailable ∧
      (s.bankQueue ≠ [] → s.tellersAvailable = 0))
    (h : s.loopBody SIM_LENGTH tie = Loop.next s') :
    s'.tellersAvailable + s'.eventQueue.countP isDeparture = N ∧ 0 ≤ s'.tellersAvailable ∧
      (s'.bankQueue ≠ [] → s'.tellersAvailable = 0) := by
  obtain ⟨h1, h2, h3⟩ := hP
  obtain ⟨e, _, _, _, hc⟩ := BankSim.loopBody_next_counts h
  rcases hc with ⟨_, hT, hT', hD, _, _, hW, _⟩ | ⟨_, hT, hT', hD, _, _, hW, _⟩ |
    ⟨_, ⟨head, hW⟩, hT', hD, _, _, _⟩ | ⟨_, hW, hW', hT', hD, _, _, _⟩ |
    ⟨_, _, hT', hD, _, _, hW, _⟩
  · refine ⟨by omega, by omega, ?_⟩
    intro hne
    rw [hW] at hne
    exact absurd (h3 hne) hT
  · exact ⟨by omega, by omega, fun _ => by omega⟩
  · have : s.tellersAvailable = 0 := h3 (by rw [hW]; exact List.cons_ne_nil _ _)
    exact ⟨by omega, by omega, fun _ => by omega⟩
  · exact ⟨by omega, by omega, fun hne => absurd hW' hne⟩
  · refine ⟨by omega, by omega, ?_⟩
    intro hne
    rw [hW] at hne
    rw [hT']
    exact h3 hne

theorem countP_isDeparture_of_arrivals {q : List Event} (hq : ∀ e ∈ q, e.event = ARRIVAL) :
    q.countP isDeparture = 0 := by
  rw [List.countP_eq_zero]
  intro e he
  have hne : ARRIVAL ≠ DEPARTURE := by decide
  simp [isDeparture, hq e he, hne]

/-- C9: for every server count `N ≥ 1`, every horizon and every way of breaking ties, a run of
`BankSim::runSim` that starts with `tellersAvailable = N` and a scheduler holding only Arrival
events has `0 ≤ tellersAvailable ≤ N` after every pass of the loop, and also in the state in
which the loop is left. -/
theorem bank_tellers_bounded (SIM_LENGTH N : Int) (hN : 1 ≤ N) (ties : Nat → Nat)
    (s : BankSim) (ht : s.tellersAvailable = N)
    (hq : ∀ e ∈ s.eventQueue, e.event = ARRIVAL) (n : Nat) (s' : BankSim)
    (h : iterate (BankSim.loopBody SIM_LENGTH) ties n s = Loop.next s'
      ∨ iterate (BankSim.loopBody SIM_LENGTH) ties n s = Loop.stop s') :
    0 ≤ s'.tellersAvailable ∧ s'.tellersAvailable ≤ N := by
  have h0 : s.tellersAvailable + s.eventQueue.countP isDeparture = N ∧ 0 ≤ s.tellersAvailable := by
    rw [countP_isDeparture_of_arrivals hq]
    omega
  have hstep : ∀ tie (a b : BankSim),
      (a.tellersAvailable + a.eventQueue.countP isDeparture = N ∧ 0 ≤ a.tellersAvailable) →
      BankSim.loopBody SIM_LENGTH tie a = Loop.next b →
      (b.tellersAvailable + b.eventQueue.countP isDeparture = N ∧ 0 ≤ b.tellersAvailable) := by
    intro tie a b ⟨h1, h2⟩ hb
    obtain ⟨e, _, _, _, hc⟩ := BankSim.loopBody_next_counts hb
    rcases hc with ⟨_, hT, hT', hD, _⟩ | ⟨_, hT, hT', hD, _⟩ | ⟨_, _, hT', hD, _⟩ |
      ⟨_, _, _, hT', hD, _⟩ | ⟨_, _, hT', hD, _⟩ <;> constructor <;> omega
  have key : s'.tellersAvailable + s'.eventQueue.countP isDeparture = N
      ∧ 0 ≤ s'.tellersAvailable := by
    rcases h with h | h
    · exact iterate_next_of_inv (fun a => a.tellersAvailable
        + a.eventQueue.countP isDeparture = N ∧ 0 ≤ a.tellersAvailable) hstep n ties s s' h0 h
    · refine iterate_stop_of_inv (fun a => a.tellersAvailable
        + a.eventQueue.countP isDeparture = N ∧ 0 ≤ a.tellersAvailable) (fun a => a.tellersAvailable
        + a.eventQueue.countP isDeparture = N ∧ 0 ≤ a.tellersAvailable) hstep ?_ n ties s s' h0 h
      intro tie a b ⟨h1, h2⟩ hb
      obtain ⟨hq', _, hT', _⟩ := BankSim.loopBody_stop hb
      rw [hq', hT']
      exact ⟨h1, h2⟩
  omega

/-- C9 at one teller and the three arrivals of the single-teller scenario: after two passes of
the loop no teller is available, and 0 lies between 0 and 1. -/
theorem bank_tellers_bounded_witness :
    iterate (BankSim.loopBody 100) (fun _ => 0) 2
        ⟨[⟨0, 0, 10, ARRIVAL, 0, 0⟩, ⟨1, 1, 10, ARRIVAL, 0, 0⟩, ⟨2, 2, 10, ARRIVAL, 0, 0⟩], [],
          0, 1, []⟩
      = Loop.next ⟨[⟨2, 2, 10, ARRIVAL, 0, 0⟩, ⟨0, 10, 10, DEPARTURE, 10, 0⟩],
          [⟨1, 1, 10, ARRIVAL, 0, 0⟩], 1, 0, []⟩
    ∧ (0 : Int) ≤ (⟨[⟨2, 2, 10, ARRIVAL, 0, 0⟩, ⟨0, 10, 10, DEPARTURE, 10, 0⟩],
          [⟨1, 1, 10, ARRIVAL, 0, 0⟩], 1, 0, []⟩ : BankSim).tellersAvailable
    ∧ (⟨[⟨2, 2, 10, ARRIVAL, 0, 0⟩, ⟨0, 10, 10, DEPARTURE, 10, 0⟩],
          [⟨1, 1, 10, ARRIVAL, 0, 0⟩], 1, 0, []⟩ : BankSim).tellersAvailable ≤ 1 :=
  ⟨by decide,
    bank_tellers_bounded 100 1 (by decide) (fun _ => 0)
      ⟨[⟨0, 0, 10, ARRIVAL, 0, 0⟩, ⟨1, 1, 10, ARRIVAL, 0, 0⟩, ⟨2, 2, 10, ARRIVAL, 0, 0⟩], [], 0,
        1, []⟩ rfl (by decide) 2
      ⟨[⟨2, 2, 10, ARRIVAL, 0, 0⟩, ⟨0, 10, 10, DEPARTURE, 10, 0⟩], [⟨1, 1, 10, ARRIVAL, 0, 0⟩],
        1, 0, []⟩ (Or.inl (by decide))⟩

/-! ## C10: conservation of customers in the bank model -/

/-- Bookkeeping of a run of the bank loop: the results vector gains the `totalServiceTime` of
the Departure events processed, in order, and every Arrival event processed is accounted for
by a processed Departure, a waiting customer or a scheduled Departure. -/
theorem BankSim.iterate_bookkeeping (SIM_LENGTH : Int) :
    ∀ (n : Nat) (ties : Nat → Nat) (s r : BankSim),
      (iterate (BankSim.loopBody SIM_LENGTH) ties n s = Loop.next r
        ∨ iterate (BankSim.loopBody SIM_LENGTH) ties n s = Loop.stop r) →
      r.serviceTime = s.serviceTime
          ++ ((BankSim.processed SIM_LENGTH ties n s).filter isDeparture).map
              (fun e => e.totalServiceTime)
      ∧ (BankSim.processed SIM_LENGTH ties n s).countP isDeparture + r.bankQueue.length
          + r.eventQueue.countP isDeparture
        = s.bankQueue.length + s.eventQueue.countP isDeparture
          + (BankSim.processed SIM_LENGTH ties n s).countP isArrival := by
  intro n
  induction n with
  | zero =>
    intro ties s r h
    rcases h with h | h
    · simp only [iterate, Loop.next.injEq] at h
      subst h
      simp [BankSim.processed]
    · exact Loop.noConfusion h
  | succ n ih =>
    intro ties s r h
    cases hb : BankSim.loopBody SIM_LENGTH (ties 0) s with
    | thrown => exact absurd hb (BankSim.loopBody_ne_thrown _ _ _)
    | stop s' =>
      rw [iterate_succ_stop n hb] at h
      rw [BankSim.processed_succ_stop n hb]
      rcases h with h | h
      · exact Loop.noConfusion h
      · simp only [Loop.stop.injEq] at h
        subst h
        obtain ⟨hq, hw, _, hr, _⟩ := BankSim.loopBody_stop hb
        simp [hq, hw, hr]
    | next s' =>
      rw [iterate_succ_next n hb] at h
      obtain ⟨e, ht, _, _, hc⟩ := BankSim.loopBody_next_counts hb
      rw [BankSim.processed_of_next n ht hb]
      obtain ⟨ih1, ih2⟩ := ih _ s' r h
      have hne : DEPARTURE ≠ ARRIVAL := by decide
      rcases hc with ⟨ha, _, _, hD, _, _, hW, hR⟩ | ⟨ha, _, _, hD, _, _, hW, hR⟩ |
        ⟨hd, ⟨head, hW⟩, _, hD, _, _, hR⟩ | ⟨hd, hW, hW', _, hD, _, _, hR⟩ |
        ⟨ha, hd, _, hD, _, _, hW, hR⟩
      · have hAe : isArrival e = true := by simp [isArrival, ha]
        have hDe : isDeparture e = false := by simp [isDeparture, ha, hne.symm]
        rw [hR] at ih1
        rw [hW] at ih2
        refine ⟨by simp [List.filter_cons, hDe, ih1], ?_⟩
        simp only [List.countP_cons, hAe, hDe]
        simp
        omega
      · have hAe : isArrival e = true := by simp [isArrival, ha]
        have hDe : isDeparture e = false := by simp [isDeparture, ha, hne.symm]
        rw [hR] at ih1
        rw [hW, List.length_append, List.length_singleton] at ih2
        refine ⟨by simp [List.filter_cons, hDe, ih1], ?_⟩
        simp only [List.countP_cons, hAe, hDe]
        simp
        omega
      · have hAe : isArrival e = false := by simp [isArrival, hd, hne]
        have hDe : isDeparture e = true := by simp [isDeparture, hd]
        rw [hR] at ih1
        refine ⟨by simp [List.filter_cons, hDe, ih1], ?_⟩
        rw [hW, List.length_cons]
        simp only [List.countP_cons, hAe, hDe]
        simp
        omega
      · have hAe : isArrival e = false := by simp [isArrival, hd, hne]
        have hDe : isDeparture e = true := by simp [isDeparture, hd]
        rw [hR] at ih1
        rw [hW'] at ih2
        refine ⟨by simp [List.filter_cons, hDe, ih1], ?_⟩
        rw [hW]
        simp only [List.countP_cons, hAe, hDe]
        simp at ih2 ⊢
        omega
      · have hAe : isArrival e = false := by simp [isArrival, ha]
        have hDe : isDeparture e = false := by simp [isDeparture, hd]
        rw [hR] at ih1
        rw [hW] at ih2
        refine ⟨by simp [List.filter_cons, hDe, ih1], ?_⟩
        simp only [List.countP_cons, hAe, hDe]
        simp
        omega

/-- C10 as stated fails: one teller, horizon 5, a single Arrival at time 0 with duration 10.
The Arrival is processed and given the teller, its Departure at time 10 lies beyond the
horizon, and `runSim` returns with one Arrival admitted and no value in the results. -/
theorem bank_conservation_fails_at_horizon :
    BankSim.runSim 5 (fun _ => 0) ⟨[⟨0, 0, 10, ARRIVAL, 0, 0⟩], [], 0, 1, []⟩
      = Loop.stop ⟨[⟨0, 10, 10, DEPARTURE, 10, 0⟩], [], 10, 0, []⟩
    ∧ (BankSim.processed 5 (fun _ => 0) 3
        ⟨[⟨0, 0, 10, ARRIVAL, 0, 0⟩], [], 0, 1, []⟩).countP isArrival = 1
    ∧ (⟨[⟨0, 10, 10, DEPARTURE, 10, 0⟩], [], 10, 0, []⟩ : BankSim).serviceTime.length = 0 := by
  decide

/-- C10, amended: for every server count `N ≥ 1`, every horizon, every way of breaking ties and
every initial scheduler holding only Arrival events (empty wait line), `BankSim::runSim`
returns; the values it appended to the results are the `totalServiceTime` of the Departure
events it processed, in order; their number plus the customers still in the wait line plus
the Departures still scheduled equals the number of Arrival events processed by the loop; and
when the scheduler is empty at return the number of values appended equals the number of
Arrival events processed. -/
theorem bank_conservation_with_in_flight (SIM_LENGTH N : Int) (hN : 1 ≤ N)
    (ties : Nat → Nat) (s : BankSim) (ht : s.tellersAvailable = N)
    (hq : ∀ e ∈ s.eventQueue, e.event = ARRIVAL) (hw : s.bankQueue = []) :
    ∃ r, BankSim.runSim SIM_LENGTH ties s = Loop.stop r
      ∧ r.serviceTime = s.serviceTime
          ++ ((BankSim.processed SIM_LENGTH ties s.fuel s).filter isDeparture).map
              (fun e => e.totalServiceTime)
      ∧ (BankSim.processed SIM_LENGTH ties s.fuel s).countP isDeparture
          + r.bankQueue.length + r.eventQueue.countP isDeparture
        = (BankSim.processed SIM_LENGTH ties s.fuel s).countP isArrival
      ∧ (r.eventQueue = [] →
          (BankSim.processed SIM_LENGTH ties s.fuel s).countP isDeparture
            = (BankSim.processed SIM_LENGTH ties s.fuel s).countP isArrival) := by
  obtain ⟨r, hr⟩ := BankSim.runSim_returns SIM_LENGTH ties s
  have hr' : iterate (BankSim.loopBody SIM_LENGTH) ties s.fuel s = Loop.stop r := hr
  obtain ⟨b1, b2⟩ := BankSim.iterate_bookkeeping SIM_LENGTH s.fuel ties s r (Or.inr hr')
  have hD0 := countP_isDeparture_of_arrivals hq
  rw [hw, hD0] at b2
  simp only [List.length_nil, Nat.add_zero, Nat.zero_add] at b2
  refine ⟨r, hr, b1, b2, ?_⟩
  intro hre
  have hinv : r.tellersAvailable + r.eventQueue.countP isDeparture = N ∧ 0 ≤ r.tellersAvailable
      ∧ (r.bankQueue ≠ [] → r.tellersAvailable = 0) := by
    refine iterate_stop_of_inv
      (fun a => a.tellersAvailable + a.eventQueue.countP isDeparture = N ∧ 0 ≤ a.tellersAvailable
        ∧ (a.bankQueue ≠ [] → a.tellersAvailable = 0))
      (fun a => a.tellersAvailable + a.eventQueue.countP isDeparture = N ∧ 0 ≤ a.tellersAvailable
        ∧ (a.bankQueue ≠ [] → a.tellersAvailable = 0))
      (fun tie a b hP hb => BankSim.tellers_inv_step SIM_LENGTH N tie a b hP hb) ?_
      s.fuel ties s r ?_ hr'
    · intro tie a b hP hb
      obtain ⟨hq', hw', hT', _⟩ := BankSim.loopBody_stop hb
      show b.tellersAvailable + b.eventQueue.countP isDeparture = N ∧ 0 ≤ b.tellersAvailable
        ∧ (b.bankQueue ≠ [] → b.tellersAvailable = 0)
      rw [hq', hw', hT']
      exact hP
    · show s.tellersAvailable + s.eventQueue.countP isDeparture = N ∧ 0 ≤ s.tellersAvailable
        ∧ (s.bankQueue ≠ [] → s.tellersAvailable = 0)
      rw [hD0]
      refine ⟨by omega, by omega, ?_⟩
      intro hne
      exact absurd hw hne
  obtain ⟨i1, _, i3⟩ := hinv
  have hbq : r.bankQueue = [] := by
    by_contra hne
    have := i3 hne
    rw [hre] at i1
    simp at i1
    omega
  rw [hbq, hre] at b2
  simpa using b2

/-- C10, amended, at the input that refutes the original statement: one teller, horizon 5 and
one Arrival of duration 10 at time 0. -/
theorem bank_conservation_with_in_flight_witness :
    ∃ r, BankSim.runSim 5 (fun _ => 0) ⟨[⟨0, 0, 10, ARRIVAL, 0, 0⟩], [], 0, 1, []⟩
        = Loop.stop r
      ∧ r.serviceTime = ([] : List Int)
          ++ ((BankSim.processed 5 (fun _ => 0)
                (BankSim.fuel ⟨[⟨0, 0, 10, ARRIVAL, 0, 0⟩], [], 0, 1, []⟩)
                ⟨[⟨0, 0, 10, ARRIVAL, 0, 0⟩], [], 0, 1, []⟩).filter isDeparture).map
              (fun e => e.totalServiceTime)
      ∧ (BankSim.processed 5 (fun _ => 0)
            (BankSim.fuel ⟨[⟨0, 0, 10, ARRIVAL, 0, 0⟩], [], 0, 1, []⟩)
            ⟨[⟨0, 0, 10, ARRIVAL, 0, 0⟩], [], 0, 1, []⟩).countP isDeparture
          + r.bankQueue.length + r.eventQueue.countP isDeparture
        = (BankSim.processed 5 (fun _ => 0)
            (BankSim.fuel ⟨[⟨0, 0, 10, ARRIVAL, 0, 0⟩], [], 0, 1, []⟩)
            ⟨[⟨0, 0, 10, ARRIVAL, 0, 0⟩], [], 0, 1, []⟩).countP isArrival
      ∧ (r.eventQueue = [] →
          (BankSim.processed 5 (fun _ => 0)
            (BankSim.fuel ⟨[⟨0, 0, 10, ARRIVAL, 0, 0⟩], [], 0, 1, []⟩)
            ⟨[⟨0, 0, 10, ARRIVAL, 0, 0⟩], [], 0, 1, []⟩).countP isDeparture
            = (BankSim.processed 5 (fun _ => 0)
                (BankSim.fuel ⟨[⟨0, 0, 10, ARRIVAL, 0, 0⟩], [], 0, 1, []⟩)
                ⟨[⟨0, 0, 10, ARRIVAL, 0, 0⟩], [], 0, 1, []⟩).countP isArrival) :=
  bank_conservation_with_in_flight 5 1 (by decide) (fun _ => 0)
    ⟨[⟨0, 0, 10, ARRIVAL, 0, 0⟩], [], 0, 1, []⟩ rfl (by decide) rfl

/-! ## The passes of the grocery loop -/

theorem GrocerySim.pass_of_top {SIM_LENGTH : Int} {tie : Nat} {s : GrocerySim} {e : Event}
    (h : top tie s.eventQueue = some e) :
    s.loopBody SIM_LENGTH tie = s.handle SIM_LENGTH e := by
  simp [GrocerySim.loopBody, h]

theorem GrocerySim.pass_of_nil (SIM_LENGTH : Int) (tie : Nat) {s : GrocerySim}
    (h : s.eventQueue = []) : s.loopBody SIM_LENGTH tie = Loop.stop s := by
  simp [GrocerySim.loopBody, h, top_nil]

theorem GrocerySim.processed_cons {SIM_LENGTH : Int} {ties : Nat → Nat} {s s' : GrocerySim}
    {e : Event} (n : Nat) (ht : top (ties 0) s.eventQueue = some e)
    (hb : s.loopBody SIM_LENGTH (ties 0) = Loop.next s') :
    GrocerySim.processed SIM_LENGTH ties (n + 1) s
      = e :: GrocerySim.processed SIM_LENGTH (fun k => ties (k + 1)) n s' := by
  simp [GrocerySim.processed, ht, hb]

theorem GrocerySim.processed_of_stop {SIM_LENGTH : Int} {ties : Nat → Nat} {s s' : GrocerySim}
    (n : Nat) (hb : s.loopBody SIM_LENGTH (ties 0) = Loop.stop s') :
    GrocerySim.processed SIM_LENGTH ties (n + 1) s = [] := by
  unfold GrocerySim.processed
  rw [hb]
  cases top (ties 0) s.eventQueue <;> rfl

theorem GrocerySim.processed_of_thrown {SIM_LENGTH : Int} {ties : Nat → Nat} {s : GrocerySim}
    (n : Nat) (hb : s.loopBody SIM_LENGTH (ties 0) = Loop.thrown) :
    GrocerySim.processed SIM_LENGTH ties (n + 1) s = [] := by
  unfold GrocerySim.processed
  rw [hb]
  cases top (ties 0) s.eventQueue <;> rfl

/-- An Arrival within the horizon: the event is routed and pushed back as a Departure. -/
theorem GrocerySim.handle_arrival {SIM_LENGTH : Int} (s : GrocerySim) {e : Event}
    (hle : e.eventTime ≤ SIM_LENGTH) (ha : e.event = ARRIVAL) :
    s.handle SIM_LENGTH e = Loop.next
      { eventQueue := pop s.eventQueue e ++
          [{ customerID := e.customerID
             eventTime := wrapInt (e.eventTime
               + wrapInt (s.cashiers (GrocerySim.chooseShortestLine s.cashiers) + e.duration))
             duration := e.duration
             event := DEPARTURE
             totalServiceTime :=
               wrapInt (s.cashiers (GrocerySim.chooseShortestLine s.cashiers) + e.duration)
             cashier := ((GrocerySim.chooseShortestLine s.cashiers : Fin 6) : Nat) }]
        cashiers := Function.update s.cashiers (GrocerySim.chooseShortestLine s.cashiers)
          (wrapInt (s.cashiers (GrocerySim.chooseShortestLine s.cashiers) + e.duration))
        currentTime := e.eventTime
        serviceTime := s.serviceTime } := by
  have hH : ¬ SIM_LENGTH < e.eventTime := not_lt.mpr hle
  simp [GrocerySim.handle, hH, ha, GrocerySim.setArrivalEvent, GrocerySim.addEvent, push]

/-- A Departure within the horizon whose `cashier` field is a valid index. -/
theorem GrocerySim.handle_departure {SIM_LENGTH : Int} (s : GrocerySim) {e : Event} {c : Fin 6}
    (hle : e.eventTime ≤ SIM_LENGTH) (hd : e.event = DEPARTURE)
    (hc : atIndex e.cashier = some c) :
    s.handle SIM_LENGTH e = Loop.next
      { eventQueue := pop s.eventQueue e
        cashiers := Function.update s.cashiers c (wrapInt (s.cashiers c - e.duration))
        currentTime := e.eventTime
        serviceTime := s.serviceTime ++ [e.totalServiceTime] } := by
  have hH : ¬ SIM_LENGTH < e.eventTime := not_lt.mpr hle
  have hne : DEPARTURE ≠ ARRIVAL := by decide
  simp [GrocerySim.handle, hH, hd, hne, hc]

/-- A Departure within the horizon whose `cashier` field is no valid index. -/
theorem GrocerySim.handle_departure_thrown {SIM_LENGTH : Int} (s : GrocerySim) {e : Event}
    (hle : e.eventTime ≤ SIM_LENGTH) (hd : e.event = DEPARTURE)
    (hc : atIndex e.cashier = none) :
    s.handle SIM_LENGTH e = Loop.thrown := by
  have hH : ¬ SIM_LENGTH < e.eventTime := not_lt.mpr hle
  have hne : DEPARTURE ≠ ARRIVAL := by decide
  simp [GrocerySim.handle, hH, hd, hne, hc]

/-- An event within the horizon that is neither Arrival nor Departure is dropped. -/
theorem GrocerySim.handle_other {SIM_LENGTH : Int} (s : GrocerySim) {e : Event}
    (hle : e.eventTime ≤ SIM_LENGTH) (ha : e.event ≠ ARRIVAL) (hd : e.event ≠ DEPARTURE) :
    s.handle SIM_LENGTH e = Loop.next
      { eventQueue := pop s.eventQueue e
        cashiers := s.cashiers
        currentTime := e.eventTime
        serviceTime := s.serviceTime } := by
  have hH : ¬ SIM_LENGTH < e.eventTime := not_lt.mpr hle
  simp [GrocerySim.handle, hH, ha, hd]

/-- An event beyond the horizon: the loop is left, only the clock has changed. -/
theorem GrocerySim.handle_beyond {SIM_LENGTH : Int} (s : GrocerySim) {e : Event}
    (hH : SIM_LENGTH < e.eventTime) :
    s.handle SIM_LENGTH e = Loop.stop { s with currentTime := e.eventTime } := by
  simp [GrocerySim.handle, hH]

theorem atIndex_natCast (c : Fin 6) : atIndex (((c : Nat) : Int)) = some c := by
  have h : (0 : Int) ≤ ((c : Nat) : Int) ∧ ((c : Nat) : Int) < 6 := by
    have := c.isLt
    omega
  simp [atIndex, h]

theorem atIndex_isSome {k : Int} (h0 : 0 ≤ k) (h6 : k < 6) : ∃ c, atIndex k = some c := by
  simp [atIndex, h0, h6]

/-! ## C2: six simultaneous arrivals in the grocery model -/

/-- Draining a scheduler that holds only Departure events of one event time within the horizon
and one `totalServiceTime`, all with valid `cashier` fields: the loop processes each of them
and is left with the scheduler empty. -/
theorem GrocerySim.drain_departures (SIM_LENGTH t v : Int) (ht : t ≤ SIM_LENGTH) :
    ∀ (m : Nat) (D : List Event) (cash : Fin 6 → Int) (now : Int) (rs : List Int)
      (ties : Nat → Nat) (n : Nat),
      D.length = m →
      (∀ e ∈ D, e.event = DEPARTURE ∧ e.eventTime = t ∧ e.totalServiceTime = v ∧
        ∃ c, atIndex e.cashier = some c) →
      m < n →
      ∃ r, iterate (GrocerySim.loopBody SIM_LENGTH) ties n ⟨D, cash, now, rs⟩ = Loop.stop r
        ∧ r.eventQueue = [] ∧ r.serviceTime = rs ++ List.replicate m v
        ∧ (GrocerySim.processed SIM_LENGTH ties n ⟨D, cash, now, rs⟩).Perm D := by
  intro m
  induction m with
  | zero =>
    intro D cash now rs ties n hlen _ hn
    have hD : D = [] := List.length_eq_zero.mp hlen
    subst hD
    obtain ⟨n', rfl⟩ : ∃ n', n = n' + 1 := ⟨n - 1, by omega⟩
    have hb : GrocerySim.loopBody SIM_LENGTH (ties 0) ⟨[], cash, now, rs⟩
        = Loop.stop ⟨[], cash, now, rs⟩ := GrocerySim.pass_of_nil _ _ rfl
    refine ⟨⟨[], cash, now, rs⟩, iterate_succ_stop n' hb, rfl, by simp, ?_⟩
    rw [GrocerySim.processed_of_stop n' hb]
  | succ m ih =>
    intro D cash now rs ties n hlen hD hn
    obtain ⟨n', rfl⟩ : ∃ n', n = n' + 1 := ⟨n - 1, by omega⟩
    have hne : D ≠ [] := by
      intro h
      rw [h] at hlen
      exact absurd hlen (by simp)
    obtain ⟨e, he⟩ := top_isSome (ties 0) hne
    have hmem : e ∈ D := top_mem he
    obtain ⟨hd, het, hev, c, hc⟩ := hD e hmem
    have hb : GrocerySim.loopBody SIM_LENGTH (ties 0) ⟨D, cash, now, rs⟩
        = Loop.next ⟨pop D e, Function.update cash c (wrapInt (cash c - e.duration)), e.eventTime,
            rs ++ [e.totalServiceTime]⟩ := by
      rw [GrocerySim.pass_of_top (s := ⟨D, cash, now, rs⟩) he]
      exact GrocerySim.handle_departure _ (by rw [het]; exact ht) hd hc
    have hlen' : (pop D e).length = m := by
      have := length_pop hmem
      omega
    obtain ⟨r, h1, h2, h3, h4⟩ := ih (pop D e) (Function.update cash c (wrapInt (cash c - e.duration)))
      e.eventTime (rs ++ [e.totalServiceTime]) (fun k => ties (k + 1)) n' hlen'
      (fun x hx => hD x (mem_of_mem_pop hx)) (by omega)
    refine ⟨r, ?_, h2, ?_, ?_⟩
    · rw [iterate_succ_next n' hb]
      exact h1
    · rw [h3, hev, List.replicate_succ]
      simp
    · rw [GrocerySim.processed_cons n' he hb]
      exact (List.Perm.cons e h4).trans (List.perm_cons_erase hmem).symm

theorem chooseShortestLine_filled (k : Nat) (hk : k < 6) :
    GrocerySim.chooseShortestLine (fun i : Fin 6 => if (i : Nat) < k then (5 : Int) else 0)
      = ⟨k, hk⟩ := by
  apply Fin.ext
  show ((GrocerySim.chooseShortestLine
    (fun i : Fin 6 => if (i : Nat) < k then (5 : Int) else 0) : Fin 6) : Nat) = k
  interval_cases k <;> decide

theorem update_filled (k : Nat) (hk : k < 6) :
    Function.update (fun i : Fin 6 => if (i : Nat) < k then (5 : Int) else 0) ⟨k, hk⟩ 5
      = fun i : Fin 6 => if (i : Nat) < k + 1 then (5 : Int) else 0 := by
  funext i
  by_cases h : i = ⟨k, hk⟩
  · subst h
    simp
  · rw [Function.update_noteq h]
    have hne : (i : Nat) ≠ k := fun hv => h (Fin.ext hv)
    by_cases hlt : (i : Nat) < k
    · have : (i : Nat) < k + 1 := by omega
      simp [hlt, this]
    · have : ¬ (i : Nat) < k + 1 := by omega
      simp [hlt, this]

/-- The routing phase of the six-arrival scenario, `k` customers already routed: `A` holds the
Arrivals still scheduled, `D` the Departures, servers `0..k-1` have backlog 5 and the others
backlog 0.  The remaining Arrivals are processed first, the one processed as number `j` going
to server `k + j`, then all Departures. -/
theorem GrocerySim.route_then_drain (SIM_LENGTH : Int) (hH : 5 ≤ SIM_LENGTH) :
    ∀ (m : Nat) (A D : List Event) (k : Nat) (now : Int) (rs : List Int) (ties : Nat → Nat)
      (n : Nat),
      A.length = m → k + m = 6 →
      (∀ e ∈ A, e.event = ARRIVAL ∧ e.eventTime = 0 ∧ e.duration = 5) →
      (∀ e ∈ D, e.event = DEPARTURE ∧ e.eventTime = 5 ∧ e.totalServiceTime = 5 ∧
        ∃ c, atIndex e.cashier = some c) →
      2 * m + D.length < n →
      ∃ r as ds,
        iterate (GrocerySim.loopBody SIM_LENGTH) ties n
            ⟨A ++ D, fun i : Fin 6 => if (i : Nat) < k then (5 : Int) else 0, now, rs⟩
          = Loop.stop r
        ∧ r.eventQueue = [] ∧ r.serviceTime = rs ++ List.replicate (m + D.length) 5
        ∧ GrocerySim.processed SIM_LENGTH ties n
            ⟨A ++ D, fun i : Fin 6 => if (i : Nat) < k then (5 : Int) else 0, now, rs⟩
          = as ++ ds
        ∧ as.Perm A
        ∧ ds.Perm (D ++ List.zipWith
            (fun (a : Event) (c : Nat) => (⟨a.customerID, 5, 5, DEPARTURE, 5, (c : Int)⟩ : Event))
            as (List.range' k m)) := by
  intro m
  induction m with
  | zero =>
    intro A D k now rs ties n hlen _ _ hD hn
    have hA : A = [] := List.length_eq_zero.mp hlen
    subst hA
    obtain ⟨r, h1, h2, h3, h4⟩ := GrocerySim.drain_departures SIM_LENGTH 5 5 hH D.length D
      (fun i : Fin 6 => if (i : Nat) < k then (5 : Int) else 0) now rs ties n rfl hD
      (by omega)
    refine ⟨r, [], GrocerySim.processed SIM_LENGTH ties n
      ⟨D, fun i : Fin 6 => if (i : Nat) < k then (5 : Int) else 0, now, rs⟩, ?_, h2, ?_, ?_,
      List.Perm.refl _, ?_⟩
    · simpa using h1
    · simpa using h3
    · simp
    · simpa using h4
  | succ m ih =>
    intro A D k now rs ties n hlen hk hA hD hn
    obtain ⟨n', rfl⟩ : ∃ n', n = n' + 1 := ⟨n - 1, by omega⟩
    have hk6 : k < 6 := by omega
    obtain ⟨x, hx⟩ : ∃ x, x ∈ A := by
      cases A with
      | nil => exact absurd hlen (by simp)
      | cons x _ => exact ⟨x, List.mem_cons_self _ _⟩
    have hne : A ++ D ≠ [] := by
      intro h
      have : x ∈ A ++ D := List.mem_append_left D hx
      rw [h] at this
      exact absurd this (List.not_mem_nil x)
    obtain ⟨a, ha⟩ := top_isSome (ties 0) hne
    have hmin := top_min ha x (List.mem_append_left D hx)
    have haA : a ∈ A := by
      rcases List.mem_append.mp (top_mem ha) with h | h
      · exact h
      · have h5 := (hD a h).2.1
        have h0 := (hA x hx).2.1
        omega
    obtain ⟨haev, hat, had⟩ := hA a haA
    have hb : GrocerySim.loopBody SIM_LENGTH (ties 0)
        ⟨A ++ D, fun i : Fin 6 => if (i : Nat) < k then (5 : Int) else 0, now, rs⟩
        = Loop.next ⟨A.erase a ++ (D ++ [⟨a.customerID, 5, 5, DEPARTURE, 5, (k : Int)⟩]),
            fun i : Fin 6 => if (i : Nat) < k + 1 then (5 : Int) else 0, 0, rs⟩ := by
      rw [GrocerySim.pass_of_top
        (s := ⟨A ++ D, fun i : Fin 6 => if (i : Nat) < k then (5 : Int) else 0, now, rs⟩) ha,
        GrocerySim.handle_arrival _ (by omega) haev]
      have h5 : wrapInt 5 = 5 := by decide
      simp only [chooseShortestLine_filled k hk6, hat, had, pop, List.erase_append_left D haA,
        lt_self_iff_false, if_false, zero_add, h5, update_filled k hk6, List.append_assoc]
    have hlen' : (A.erase a).length = m := by
      rw [List.length_erase_of_mem haA, hlen]
      rfl
    have hD' : ∀ e ∈ D ++ [(⟨a.customerID, 5, 5, DEPARTURE, 5, (k : Int)⟩ : Event)],
        e.event = DEPARTURE ∧ e.eventTime = 5 ∧ e.totalServiceTime = 5 ∧
          ∃ c, atIndex e.cashier = some c := by
      intro e he
      rcases List.mem_append.mp he with h | h
      · exact hD e h
      · rw [List.mem_singleton] at h
        subst h
        exact ⟨rfl, rfl, rfl, atIndex_isSome (k := (k : Int)) (by omega) (by omega)⟩
    obtain ⟨r, as, ds, h1, h2, h3, h4, h5, h6⟩ := ih (A.erase a)
      (D ++ [⟨a.customerID, 5, 5, DEPARTURE, 5, (k : Int)⟩]) (k + 1) 0 rs
      (fun j => ties (j + 1)) n' hlen' (by omega)
      (fun e he => hA e (List.mem_of_mem_erase he)) hD'
      (by rw [List.length_append, List.length_singleton]; omega)
    refine ⟨r, a :: as, ds, ?_, h2, ?_, ?_, ?_, ?_⟩
    · rw [iterate_succ_next n' hb]
      exact h1
    · rw [h3, List.length_append, List.length_singleton]
      congr 2
      omega
    · rw [GrocerySim.processed_cons n' ha hb, h4]
      rfl
    · exact (List.Perm.cons a h5).trans (List.perm_cons_erase haA).symm
    · rw [List.range'_succ, List.zipWith_cons_cons]
      simpa using h6

/-- C2: six servers with all backlogs 0 and exactly six Arrival events with `eventTime` 0 and
duration 5 (their other fields, the clock and the earlier content `rs` of the results vector
are arbitrary), under any horizon of at least 5 (such as `SIM_LENGTH = 43200`) and for every
way of breaking the ties.  `GrocerySim::runSim` returns with the scheduler empty and exactly
six values, each 5, appended to the results; the events it processed are the six Arrivals
`as` in some order followed by six Departures `ds`, which are the Departures of the customers
of `as` on the servers 0, 1, 2, 3, 4, 5 in the order in which they were routed, so that the
six customers were assigned six distinct server indices covering `0..5`. -/
theorem grocery_scenario_six_arrivals (SIM_LENGTH : Int) (hH : 5 ≤ SIM_LENGTH)
    (ties : Nat → Nat) (q : List Event) (hlen : q.length = 6)
    (hq : ∀ e ∈ q, e.event = ARRIVAL ∧ e.eventTime = 0 ∧ e.duration = 5)
    (now : Int) (rs : List Int) :
    ∃ r as ds,
      GrocerySim.runSim SIM_LENGTH ties ⟨q, fun _ => 0, now, rs⟩ = Loop.stop r
      ∧ r.eventQueue = [] ∧ r.serviceTime = rs ++ [5, 5, 5, 5, 5, 5]
      ∧ GrocerySim.processed SIM_LENGTH ties 13 ⟨q, fun _ => 0, now, rs⟩ = as ++ ds
      ∧ as.Perm q
      ∧ ds.Perm (List.zipWith
          (fun (a : Event) (c : Nat) => (⟨a.customerID, 5, 5, DEPARTURE, 5, (c : Int)⟩ : Event))
          as [0, 1, 2, 3, 4, 5])
      ∧ (ds.map (fun e => e.cashier)).Perm [0, 1, 2, 3, 4, 5] := by
  obtain ⟨r, as, ds, h1, h2, h3, h4, h5, h6⟩ := GrocerySim.route_then_drain SIM_LENGTH hH 6 q []
    0 now rs ties 13 hlen rfl hq (fun e he => absurd he (List.not_mem_nil e)) (by simp)
  have hcash : (fun i : Fin 6 => if (i : Nat) < 0 then (5 : Int) else 0) = fun _ => 0 := by
    funext i
    simp
  rw [hcash] at h1 h4
  simp only [List.append_nil] at h1 h4
  have h6' : ds.Perm (List.zipWith
      (fun (a : Event) (c : Nat) => (⟨a.customerID, 5, 5, DEPARTURE, 5, (c : Int)⟩ : Event))
      as [0, 1, 2, 3, 4, 5]) := by
    simpa using h6
  refine ⟨r, as, ds, ?_, h2, ?_, h4, h5, h6', ?_⟩
  · show iterate (GrocerySim.loopBody SIM_LENGTH) ties (2 * q.length + 1) _ = _
    rw [hlen]
    exact h1
  · simpa using h3
  · have hl : as.length = 6 := by rw [h5.length_eq, hlen]
    match as, hl with
    | [a0, a1, a2, a3, a4, a5], _ =>
      have := h6'.map (fun e => e.cashier)
      simpa using this

/-- C2 at horizon 43200, with customers 0..5, the ties always broken in favour of the first
candidate, the clock at 0 and empty results. -/
theorem grocery_scenario_six_arrivals_witness :
    ∃ r as ds,
      GrocerySim.runSim 43200 (fun _ => 0)
          ⟨[⟨0, 0, 5, ARRIVAL, 0, 0⟩, ⟨1, 0, 5, ARRIVAL, 0, 0⟩, ⟨2, 0, 5, ARRIVAL, 0, 0⟩,
            ⟨3, 0, 5, ARRIVAL, 0, 0⟩, ⟨4, 0, 5, ARRIVAL, 0, 0⟩, ⟨5, 0, 5, ARRIVAL, 0, 0⟩],
            fun _ => 0, 0, []⟩ = Loop.stop r
      ∧ r.eventQueue = [] ∧ r.serviceTime = [] ++ [5, 5, 5, 5, 5, 5]
      ∧ GrocerySim.processed 43200 (fun _ => 0) 13
          ⟨[⟨0, 0, 5, ARRIVAL, 0, 0⟩, ⟨1, 0, 5, ARRIVAL, 0, 0⟩, ⟨2, 0, 5, ARRIVAL, 0, 0⟩,
            ⟨3, 0, 5, ARRIVAL, 0, 0⟩, ⟨4, 0, 5, ARRIVAL, 0, 0⟩, ⟨5, 0, 5, ARRIVAL, 0, 0⟩],
            fun _ => 0, 0, []⟩ = as ++ ds
      ∧ as.Perm [⟨0, 0, 5, ARRIVAL, 0, 0⟩, ⟨1, 0, 5, ARRIVAL, 0, 0⟩, ⟨2, 0, 5, ARRIVAL, 0, 0⟩,
            ⟨3, 0, 5, ARRIVAL, 0, 0⟩, ⟨4, 0, 5, ARRIVAL, 0, 0⟩, ⟨5, 0, 5, ARRIVAL, 0, 0⟩]
      ∧ ds.Perm (List.zipWith
          (fun (a : Event) (c : Nat) => (⟨a.customerID, 5, 5, DEPARTURE, 5, (c : Int)⟩ : Event))
          as [0, 1, 2, 3, 4, 5])
      ∧ (ds.map (fun e => e.cashier)).Perm [0, 1, 2, 3, 4, 5] :=
  grocery_scenario_six_arrivals 43200 (by decide) (fun _ => 0)
    [⟨0, 0, 5, ARRIVAL, 0, 0⟩, ⟨1, 0, 5, ARRIVAL, 0, 0⟩, ⟨2, 0, 5, ARRIVAL, 0, 0⟩,
      ⟨3, 0, 5, ARRIVAL, 0, 0⟩, ⟨4, 0, 5, ARRIVAL, 0, 0⟩, ⟨5, 0, 5, ARRIVAL, 0, 0⟩]
    rfl (by decide) 0 []

/-! ## C5: the committed value in the grocery model -/

/-- What a completed pass of the grocery loop does to the state. -/
theorem GrocerySim.loopBody_next_cases {SIM_LENGTH : Int} {tie : Nat} {s s' : GrocerySim}
    (h : s.loopBody SIM_LENGTH tie = Loop.next s') :
    ∃ e, top tie s.eventQueue = some e ∧ e.eventTime ≤ SIM_LENGTH ∧
      s'.currentTime = e.eventTime ∧
      ((e.event = ARRIVAL ∧
          s'.eventQueue = pop s.eventQueue e ++
            [{ customerID := e.customerID
               eventTime := wrapInt (e.eventTime
                 + wrapInt (s.cashiers (GrocerySim.chooseShortestLine s.cashiers) + e.duration))
               duration := e.duration
               event := DEPARTURE
               totalServiceTime :=
                 wrapInt (s.cashiers (GrocerySim.chooseShortestLine s.cashiers) + e.duration)
               cashier := ((GrocerySim.chooseShortestLine s.cashiers : Fin 6) : Nat) }] ∧
          s'.cashiers = Function.update s.cashiers (GrocerySim.chooseShortestLine s.cashiers)
            (wrapInt (s.cashiers (GrocerySim.chooseShortestLine s.cashiers) + e.duration)) ∧
          s'.serviceTime = s.serviceTime)
      ∨ (e.event = DEPARTURE ∧ s'.eventQueue = pop s.eventQueue e ∧
          (∃ c, atIndex e.cashier = some c ∧
            s'.cashiers = Function.update s.cashiers c (wrapInt (s.cashiers c - e.duration))) ∧
          s'.serviceTime = s.serviceTime ++ [e.totalServiceTime])
      ∨ (e.event ≠ ARRIVAL ∧ e.event ≠ DEPARTURE ∧ s'.eventQueue = pop s.eventQueue e ∧
          s'.cashiers = s.cashiers ∧ s'.serviceTime = s.serviceTime)) := by
  unfold GrocerySim.loopBody at h
  cases ht : top tie s.eventQueue with
  | none => rw [ht] at h; exact Loop.noConfusion h
  | some e =>
    rw [ht] at h
    replace h : s.handle SIM_LENGTH e = Loop.next s' := h
    refine ⟨e, rfl, ?_⟩
    by_cases hH : SIM_LENGTH < e.eventTime
    · rw [GrocerySim.handle_beyond s hH] at h
      exact Loop.noConfusion h
    · have hle : e.eventTime ≤ SIM_LENGTH := not_lt.mp hH
      by_cases ha : e.event = ARRIVAL
      · rw [GrocerySim.handle_arrival s hle ha] at h
        simp only [Loop.next.injEq] at h
        subst h
        exact ⟨hle, rfl, Or.inl ⟨ha, rfl, rfl, rfl⟩⟩
      · by_cases hd : e.event = DEPARTURE
        · cases hc : atIndex e.cashier with
          | none =>
            rw [GrocerySim.handle_departure_thrown s hle hd hc] at h
            exact Loop.noConfusion h
          | some c =>
            rw [GrocerySim.handle_departure s hle hd hc] at h
            simp only [Loop.next.injEq] at h
            subst h
            exact ⟨hle, rfl, Or.inr (Or.inl ⟨hd, rfl, ⟨c, rfl, rfl⟩, rfl⟩)⟩
        · rw [GrocerySim.handle_other s hle ha hd] at h
          simp only [Loop.next.injEq] at h
          subst h
          exact ⟨hle, rfl, Or.inr (Or.inr ⟨ha, hd, rfl, rfl, rfl⟩)⟩

/-- A pass that leaves the grocery loop changes nothing but the clock. -/
theorem GrocerySim.pass_stop {SIM_LENGTH : Int} {tie : Nat} {s s' : GrocerySim}
    (h : s.loopBody SIM_LENGTH tie = Loop.stop s') :
    s'.eventQueue = s.eventQueue ∧ s'.cashiers = s.cashiers ∧
      s'.serviceTime = s.serviceTime ∧
      (s.eventQueue = [] ∨
        ∃ e, top tie s.eventQueue = some e ∧ SIM_LENGTH < e.eventTime ∧
          s'.currentTime = e.eventTime) := by
  unfold GrocerySim.loopBody at h
  cases ht : top tie s.eventQueue with
  | none =>
    rw [ht] at h
    simp only [Loop.stop.injEq] at h
    subst h
    exact ⟨rfl, rfl, rfl, Or.inl ((top_eq_none_iff tie _).mp ht)⟩
  | some e =>
    rw [ht] at h
    replace h : s.handle SIM_LENGTH e = Loop.stop s' := h
    by_cases hH : SIM_LENGTH < e.eventTime
    · rw [GrocerySim.handle_beyond s hH] at h
      simp only [Loop.stop.injEq] at h
      subst h
      exact ⟨rfl, rfl, rfl, Or.inr ⟨e, rfl, hH, rfl⟩⟩
    · have hle : e.eventTime ≤ SIM_LENGTH := not_lt.mp hH
      by_cases ha : e.event = ARRIVAL
      · rw [GrocerySim.handle_arrival s hle ha] at h
        exact Loop.noConfusion h
      · by_cases hd : e.event = DEPARTURE
        · cases hc : atIndex e.cashier with
          | none =>
            rw [GrocerySim.handle_departure_thrown s hle hd hc] at h
            exact Loop.noConfusion h
          | some c =>
            rw [GrocerySim.handle_departure s hle hd hc] at h
            exact Loop.noConfusion h
        · rw [GrocerySim.handle_other s hle ha hd] at h
          exact Loop.noConfusion h

/-- The results vector gains the `totalServiceTime` of the Departure events processed, in
order. -/
theorem GrocerySim.iterate_results (SIM_LENGTH : Int) :
    ∀ (n : Nat) (ties : Nat → Nat) (s r : GrocerySim),
      (iterate (GrocerySim.loopBody SIM_LENGTH) ties n s = Loop.next r
        ∨ iterate (GrocerySim.loopBody SIM_LENGTH) ties n s = Loop.stop r) →
      r.serviceTime = s.serviceTime
          ++ ((GrocerySim.processed SIM_LENGTH ties n s).filter isDeparture).map
              (fun e => e.totalServiceTime) := by
  intro n
  induction n with
  | zero =>
    intro ties s r h
    rcases h with h | h
    · simp only [iterate, Loop.next.injEq] at h
      subst h
      simp [GrocerySim.processed]
    · exact Loop.noConfusion h
  | succ n ih =>
    intro ties s r h
    cases hb : GrocerySim.loopBody SIM_LENGTH (ties 0) s with
    | thrown =>
      simp only [iterate, hb] at h
      rcases h with h | h <;> exact Loop.noConfusion h
    | stop s' =>
      rw [iterate_succ_stop n hb] at h
      rw [GrocerySim.processed_of_stop n hb]
      rcases h with h | h
      · exact Loop.noConfusion h
      · simp only [Loop.stop.injEq] at h
        subst h
        obtain ⟨_, _, hr, _⟩ := GrocerySim.pass_stop hb
        simp [hr]
    | next s' =>
      rw [iterate_succ_next n hb] at h
      obtain ⟨e, ht, _, _, hc⟩ := GrocerySim.loopBody_next_cases hb
      rw [GrocerySim.processed_cons n ht hb]
      have ih1 := ih _ s' r h
      have hne : DEPARTURE ≠ ARRIVAL := by decide
      rcases hc with ⟨ha, _, _, hR⟩ | ⟨hd, _, _, hR⟩ | ⟨ha, hd, _, _, hR⟩
      · have hDe : isDeparture e = false := by simp [isDeparture, ha, hne.symm]
        rw [hR] at ih1
        simp [List.filter_cons, hDe, ih1]
      · have hDe : isDeparture e = true := by simp [isDeparture, hd]
        rw [hR] at ih1
        simp [List.filter_cons, hDe, ih1]
      · have hDe : isDeparture e = false := by simp [isDeparture, hd]
        rw [hR] at ih1
        simp [List.filter_cons, hDe, ih1]

/-- Every Departure event that the grocery loop processes either was in the scheduler at the
start or was pushed by an earlier pass that processed the Arrival of the same customer, and
then its `eventTime` is the `int` sum of the `eventTime` of that Arrival and its
`totalServiceTime`. -/
theorem GrocerySim.processed_departure_origin (SIM_LENGTH : Int) :
    ∀ (n : Nat) (ties : Nat → Nat) (s : GrocerySim) (i : Nat) (d : Event),
      (GrocerySim.processed SIM_LENGTH ties n s)[i]? = some d → d.event = DEPARTURE →
      d ∈ s.eventQueue ∨
        ∃ j a, j < i ∧ (GrocerySim.processed SIM_LENGTH ties n s)[j]? = some a ∧
          a.event = ARRIVAL ∧ a.customerID = d.customerID ∧ a.duration = d.duration ∧
          d.eventTime = wrapInt (a.eventTime + d.totalServiceTime) := by
  intro n
  induction n with
  | zero =>
    intro ties s i d h _
    simp [GrocerySim.processed] at h
  | succ n ih =>
    intro ties s i d h hd
    cases hb : GrocerySim.loopBody SIM_LENGTH (ties 0) s with
    | thrown =>
      rw [GrocerySim.processed_of_thrown n hb] at h
      simp at h
    | stop s' =>
      rw [GrocerySim.processed_of_stop n hb] at h
      simp at h
    | next s' =>
      obtain ⟨e, ht, _, _, hc⟩ := GrocerySim.loopBody_next_cases hb
      rw [GrocerySim.processed_cons n ht hb] at h ⊢
      cases i with
      | zero =>
        simp only [List.getElem?_cons_zero, Option.some.injEq] at h
        subst h
        exact Or.inl (top_mem ht)
      | succ i =>
        simp only [List.getElem?_cons_succ] at h
        have lift : (∃ j a, j < i ∧
            (GrocerySim.processed SIM_LENGTH (fun k => ties (k + 1)) n s')[j]? = some a ∧
            a.event = ARRIVAL ∧ a.customerID = d.customerID ∧ a.duration = d.duration ∧
            d.eventTime = wrapInt (a.eventTime + d.totalServiceTime)) →
            ∃ j a, j < i + 1 ∧
            (e :: GrocerySim.processed SIM_LENGTH (fun k => ties (k + 1)) n s')[j]? = some a ∧
            a.event = ARRIVAL ∧ a.customerID = d.customerID ∧ a.duration = d.duration ∧
            d.eventTime = wrapInt (a.eventTime + d.totalServiceTime) := by
          rintro ⟨j, a, hj, hja, rest⟩
          exact ⟨j + 1, a, by omega, by simpa using hja, rest⟩
        rcases ih _ s' i d h hd with hmem | hex
        · rcases hc with ⟨ha, hq, _, _⟩ | ⟨_, hq, _, _⟩ | ⟨_, _, hq, _, _⟩
          · rw [hq] at hmem
            rcases List.mem_append.mp hmem with hm | hm
            · exact Or.inl (mem_of_mem_pop hm)
            · rw [List.mem_singleton] at hm
              subst hm
              exact Or.inr ⟨0, e, by omega, by simp, ha, rfl, rfl, rfl⟩
          · rw [hq] at hmem
            exact Or.inl (mem_of_mem_pop hmem)
          · rw [hq] at hmem
            exact Or.inl (mem_of_mem_pop hmem)
        · exact Or.inr (lift hex)

/-- C5 as stated fails: one Arrival of customer 0 at time 2 with duration 2147483646, all six
backlogs at 0, horizon 43200.  The first pass commits `totalServiceTime = 2147483646` to the
event and schedules its Departure at the `int` sum `2 + 2147483646 = -2147483648`; the second
pass processes that Departure (at time -2147483648, which is within the horizon) and appends
2147483646 to the results.  The eventTime of the Departure minus the eventTime of the Arrival
is -2147483650, not the committed 2147483646. -/
theorem grocery_departure_time_wraps :
    GrocerySim.processed 43200 (fun _ => 0) 2
        ⟨[⟨0, 2, 2147483646, ARRIVAL, 0, 0⟩], fun _ => 0, 0, []⟩
      = [⟨0, 2, 2147483646, ARRIVAL, 0, 0⟩, ⟨0, -2147483648, 2147483646, DEPARTURE, 2147483646, 0⟩]
    ∧ (∃ r, iterate (GrocerySim.loopBody 43200) (fun _ => 0) 2
          ⟨[⟨0, 2, 2147483646, ARRIVAL, 0, 0⟩], fun _ => 0, 0, []⟩ = Loop.next r
        ∧ r.serviceTime = [2147483646] ∧ r.currentTime = -2147483648)
    ∧ (⟨0, -2147483648, 2147483646, DEPARTURE, 2147483646, 0⟩ : Event).eventTime
        - (⟨0, 2, 2147483646, ARRIVAL, 0, 0⟩ : Event).eventTime
      ≠ (⟨0, -2147483648, 2147483646, DEPARTURE, 2147483646, 0⟩ : Event).totalServiceTime :=
  ⟨by decide, ⟨_, rfl, rfl, rfl⟩, by decide⟩

/-- C5, amended: in the grocery model, (1) a pass that processes an Arrival `a` within the
horizon, from any state `s` (any backlog array, any duration), pushes a Departure `d` of the
same customer whose `eventTime` is the `int` sum of `a.eventTime` and `d.totalServiceTime`, so
`d.eventTime - a.eventTime = d.totalServiceTime` whenever `a.eventTime + d.totalServiceTime`
lies in `-2147483648 .. 2147483647`; (2) in a run from a scheduler `s0` that holds only Arrival
events, the values appended to the results are the `totalServiceTime` of the Departure events
processed, in order; and (3) every Departure `d` processed in such a run follows a processed
Arrival `a'` of the same customer with `d.eventTime` the `int` sum of `a'.eventTime` and
`d.totalServiceTime`, so `d.totalServiceTime = d.eventTime - a'.eventTime`, the time from the
arrival to the processing time of the Departure, whenever `a'.eventTime + d.totalServiceTime`
lies in `-2147483648 .. 2147483647`. -/
theorem grocery_total_service_time (SIM_LENGTH : Int) (s : GrocerySim) (a : Event)
    (ha : a.event = ARRIVAL) (hle : a.eventTime ≤ SIM_LENGTH)
    (ties : Nat → Nat) (s0 : GrocerySim) (hq : ∀ e ∈ s0.eventQueue, e.event = ARRIVAL)
    (n : Nat) :
    (∃ d s', s.handle SIM_LENGTH a = Loop.next s'
        ∧ s'.eventQueue = pop s.eventQueue a ++ [d] ∧ s'.currentTime = a.eventTime
        ∧ d.event = DEPARTURE ∧ d.customerID = a.customerID ∧ d.duration = a.duration
        ∧ d.eventTime = wrapInt (a.eventTime + d.totalServiceTime)
        ∧ (-2147483648 ≤ a.eventTime + d.totalServiceTime
            ∧ a.eventTime + d.totalServiceTime ≤ 2147483647 →
          d.eventTime - a.eventTime = d.totalServiceTime))
    ∧ (∀ r, (iterate (GrocerySim.loopBody SIM_LENGTH) ties n s0 = Loop.next r
          ∨ iterate (GrocerySim.loopBody SIM_LENGTH) ties n s0 = Loop.stop r) →
        r.serviceTime = s0.serviceTime
          ++ ((GrocerySim.processed SIM_LENGTH ties n s0).filter isDeparture).map
              (fun e => e.totalServiceTime))
    ∧ (∀ (i : Nat) (d : Event), (GrocerySim.processed SIM_LENGTH ties n s0)[i]? = some d →
        d.event = DEPARTURE →
        ∃ (j : Nat) (a' : Event), j < i ∧
          (GrocerySim.processed SIM_LENGTH ties n s0)[j]? = some a' ∧
          a'.event = ARRIVAL ∧ a'.customerID = d.customerID ∧ a'.duration = d.duration ∧
          d.eventTime = wrapInt (a'.eventTime + d.totalServiceTime) ∧
          (-2147483648 ≤ a'.eventTime + d.totalServiceTime
              ∧ a'.eventTime + d.totalServiceTime ≤ 2147483647 →
            d.totalServiceTime = d.eventTime - a'.eventTime)) := by
  refine ⟨⟨_, _, GrocerySim.handle_arrival s hle ha, rfl, rfl, rfl, rfl, rfl, rfl, ?_⟩,
    fun r hr => GrocerySim.iterate_results SIM_LENGTH n ties s0 r hr, ?_⟩
  · intro hr
    have hr' : -2147483648 ≤ a.eventTime
          + wrapInt (s.cashiers (GrocerySim.chooseShortestLine s.cashiers) + a.duration)
        ∧ a.eventTime
          + wrapInt (s.cashiers (GrocerySim.chooseShortestLine s.cashiers) + a.duration)
            ≤ 2147483647 := hr
    show wrapInt (a.eventTime
        + wrapInt (s.cashiers (GrocerySim.chooseShortestLine s.cashiers) + a.duration))
      - a.eventTime
      = wrapInt (s.cashiers (GrocerySim.chooseShortestLine s.cashiers) + a.duration)
    rw [wrapInt_of_range hr'.1 hr'.2]
    omega
  · intro i d hi hd
    rcases GrocerySim.processed_departure_origin SIM_LENGTH n ties s0 i d hi hd with hmem | hex
    · have hne : ARRIVAL ≠ DEPARTURE := by decide
      exact absurd ((hq d hmem).symm.trans hd) hne
    · obtain ⟨j, a', hj, hja, h1, h2, h3, h4⟩ := hex
      refine ⟨j, a', hj, hja, h1, h2, h3, h4, ?_⟩
      intro hr
      rw [h4, wrapInt_of_range hr.1 hr.2]
      omega

/-- C5 at horizon 43200 with all six backlogs at 7 and one Arrival of duration 5 at time 0,
three passes of the loop: its Departure is scheduled and processed at time 12 with
`totalServiceTime` 12, and `0 + 12` is within `int`. -/
theorem grocery_total_service_time_witness :
    (∃ d s', GrocerySim.handle 43200 ⟨[⟨0, 0, 5, ARRIVAL, 0, 0⟩], fun _ => 7, 0, []⟩
          ⟨0, 0, 5, ARRIVAL, 0, 0⟩ = Loop.next s'
        ∧ s'.eventQueue = pop [⟨0, 0, 5, ARRIVAL, 0, 0⟩] ⟨0, 0, 5, ARRIVAL, 0, 0⟩ ++ [d]
        ∧ s'.currentTime = (⟨0, 0, 5, ARRIVAL, 0, 0⟩ : Event).eventTime
        ∧ d.event = DEPARTURE ∧ d.customerID = (⟨0, 0, 5, ARRIVAL, 0, 0⟩ : Event).customerID
        ∧ d.duration = (⟨0, 0, 5, ARRIVAL, 0, 0⟩ : Event).duration
        ∧ d.eventTime = wrapInt ((⟨0, 0, 5, ARRIVAL, 0, 0⟩ : Event).eventTime
            + d.totalServiceTime)
        ∧ (-2147483648 ≤ (⟨0, 0, 5, ARRIVAL, 0, 0⟩ : Event).eventTime + d.totalServiceTime
            ∧ (⟨0, 0, 5, ARRIVAL, 0, 0⟩ : Event).eventTime + d.totalServiceTime ≤ 2147483647 →
          d.eventTime - (⟨0, 0, 5, ARRIVAL, 0, 0⟩ : Event).eventTime = d.totalServiceTime))
    ∧ (∀ r, (iterate (GrocerySim.loopBody 43200) (fun _ => 0) 3
            ⟨[⟨0, 0, 5, ARRIVAL, 0, 0⟩], fun _ => 7, 0, []⟩ = Loop.next r
          ∨ iterate (GrocerySim.loopBody 43200) (fun _ => 0) 3
            ⟨[⟨0, 0, 5, ARRIVAL, 0, 0⟩], fun _ => 7, 0, []⟩ = Loop.stop r) →
        r.serviceTime = ([] : List Int)
          ++ ((GrocerySim.processed 43200 (fun _ => 0) 3
                ⟨[⟨0, 0, 5, ARRIVAL, 0, 0⟩], fun _ => 7, 0, []⟩).filter isDeparture).map
              (fun e => e.totalServiceTime))
    ∧ (∀ (i : Nat) (d : Event), (GrocerySim.processed 43200 (fun _ => 0) 3
            ⟨[⟨0, 0, 5, ARRIVAL, 0, 0⟩], fun _ => 7, 0, []⟩)[i]? = some d →
        d.event = DEPARTURE →
        ∃ (j : Nat) (a' : Event), j < i ∧ (GrocerySim.processed 43200 (fun _ => 0) 3
            ⟨[⟨0, 0, 5, ARRIVAL, 0, 0⟩], fun _ => 7, 0, []⟩)[j]? = some a' ∧
          a'.event = ARRIVAL ∧ a'.customerID = d.customerID ∧ a'.duration = d.duration ∧
          d.eventTime = wrapInt (a'.eventTime + d.totalServiceTime) ∧
          (-2147483648 ≤ a'.eventTime + d.totalServiceTime
              ∧ a'.eventTime + d.totalServiceTime ≤ 2147483647 →
            d.totalServiceTime = d.eventTime - a'.eventTime))
    ∧ GrocerySim.processed 43200 (fun _ => 0) 3
        ⟨[⟨0, 0, 5, ARRIVAL, 0, 0⟩], fun _ => 7, 0, []⟩
      = [⟨0, 0, 5, ARRIVAL, 0, 0⟩, ⟨0, 12, 5, DEPARTURE, 12, 0⟩]
    ∧ (-2147483648 : Int) ≤ 0 + 12 ∧ (0 : Int) + 12 ≤ 2147483647 :=
  have h := grocery_total_service_time 43200 ⟨[⟨0, 0, 5, ARRIVAL, 0, 0⟩], fun _ => 7, 0, []⟩
    ⟨0, 0, 5, ARRIVAL, 0, 0⟩ rfl (by decide) (fun _ => 0)
    ⟨[⟨0, 0, 5, ARRIVAL, 0, 0⟩], fun _ => 7, 0, []⟩ (by decide) 3
  ⟨h.1, h.2.1, h.2.2, by decide, by decide, by decide⟩

/-! ## C13, C14, C15: the percentile report -/

theorem sort_sorted (xs : List Int) : List.Sorted (fun a b => a ≤ b) (sort xs) :=
  List.sorted_insertionSort (fun a b : Int => a ≤ b) xs

theorem sort_perm (xs : List Int) : (sort xs).Perm xs :=
  List.perm_insertionSort (fun a b : Int => a ≤ b) xs

theorem sort_length (xs : List Int) : (sort xs).length = xs.length :=
  (sort_perm xs).length_eq

theorem sort_sort (xs : List Int) : sort (sort xs) = sort xs :=
  (sort_sorted xs).insertionSort_eq

/-- In a sorted vector the element at a lower index is at most the element at a higher one. -/
theorem sorted_getElem?_le {l : List Int} (hs : List.Sorted (fun a b => a ≤ b) l) {i j : Nat}
    {a b : Int} (hij : i ≤ j) (hi : l[i]? = some a) (hj : l[j]? = some b) : a ≤ b := by
  obtain ⟨hi', rfl⟩ := List.getElem?_eq_some.mp hi
  obtain ⟨hj', rfl⟩ := List.getElem?_eq_some.mp hj
  rcases Nat.eq_or_lt_of_le hij with h | h
  · subst h
    exact le_refl _
  · exact List.pairwise_iff_getElem.mp hs i j hi' hj' h

/-- The three lookups of `printPercentiles` on a non-empty vector succeed, and the report is
built from the elements found. -/
theorem printPercentiles_eq_some (xs : List Int) (h : xs ≠ []) :
    ∃ at10 at50 at90 : Int,
      (sort xs)[xs.length / 10]? = some at10 ∧ (sort xs)[xs.length / 2]? = some at50
      ∧ (sort xs)[9 * xs.length / 10]? = some at90
      ∧ printPercentiles xs
        = some ⟨sort xs, (at10 : ℚ) / 60, (at50 : ℚ) / 60, (at90 : ℚ) / 60⟩ := by
  have hpos : 0 < xs.length := List.length_pos.mpr h
  have hl := sort_length xs
  have h10 : xs.length / 10 < (sort xs).length := by omega
  have h50 : xs.length / 2 < (sort xs).length := by omega
  have h90 : 9 * xs.length / 10 < (sort xs).length := by omega
  refine ⟨(sort xs)[xs.length / 10], (sort xs)[xs.length / 2], (sort xs)[9 * xs.length / 10],
    List.getElem?_eq_getElem h10, List.getElem?_eq_getElem h50, List.getElem?_eq_getElem h90,
    ?_⟩
  simp only [printPercentiles, hl, List.getElem?_eq_getElem h10, List.getElem?_eq_getElem h50,
    List.getElem?_eq_getElem h90]

/-- C13: for every non-empty results sequence `printPercentiles` returns, and with `sort xs`
the ascending sort of the input (sorted, a permutation of the input) and `n` its length, the
seconds it selects satisfy `sorted[n / 10] ≤ sorted[n / 2] ≤ sorted[9 * n / 10]`; the three
values reported are these divided by 60 and are in the same order. -/
theorem percentiles_ordered (xs : List Int) (h : xs ≠ []) :
    List.Sorted (fun a b => a ≤ b) (sort xs) ∧ (sort xs).Perm xs
    ∧ ∃ (r : Percentiles) (at10 at50 at90 : Int),
      printPercentiles xs = some r
      ∧ (sort xs)[xs.length / 10]? = some at10 ∧ (sort xs)[xs.length / 2]? = some at50
      ∧ (sort xs)[9 * xs.length / 10]? = some at90
      ∧ at10 ≤ at50 ∧ at50 ≤ at90
      ∧ r.service10th = (at10 : ℚ) / 60 ∧ r.service50th = (at50 : ℚ) / 60
      ∧ r.service90th = (at90 : ℚ) / 60
      ∧ r.service10th ≤ r.service50th ∧ r.service50th ≤ r.service90th := by
  obtain ⟨a, b, c, ha, hb, hc, hr⟩ := printPercentiles_eq_some xs h
  have hab : a ≤ b := sorted_getElem?_le (sort_sorted xs) (by omega) ha hb
  have hbc : b ≤ c := sorted_getElem?_le (sort_sorted xs) (by omega) hb hc
  have hab' : (a : ℚ) / 60 ≤ (b : ℚ) / 60 :=
    div_le_div_of_nonneg_right (by exact_mod_cast hab) (by norm_num)
  have hbc' : (b : ℚ) / 60 ≤ (c : ℚ) / 60 :=
    div_le_div_of_nonneg_right (by exact_mod_cast hbc) (by norm_num)
  exact ⟨sort_sorted xs, sort_perm xs, _, a, b, c, hr, ha, hb, hc, hab, hbc, rfl, rfl, rfl,
    hab', hbc'⟩

/-- C13 on ten values: the report is 20, 60 and 100 seconds, in minutes. -/
theorem percentiles_ordered_witness :
    List.Sorted (fun a b => a ≤ b) (sort [30, 10, 20, 60, 50, 40, 70, 100, 90, 80])
    ∧ (sort [30, 10, 20, 60, 50, 40, 70, 100, 90, 80]).Perm
        [30, 10, 20, 60, 50, 40, 70, 100, 90, 80]
    ∧ ∃ (r : Percentiles) (at10 at50 at90 : Int),
      printPercentiles [30, 10, 20, 60, 50, 40, 70, 100, 90, 80] = some r
      ∧ (sort [30, 10, 20, 60, 50, 40, 70, 100, 90, 80])[
          [30, 10, 20, 60, 50, 40, 70, 100, 90, (80 : Int)].length / 10]? = some at10
      ∧ (sort [30, 10, 20, 60, 50, 40, 70, 100, 90, 80])[
          [30, 10, 20, 60, 50, 40, 70, 100, 90, (80 : Int)].length / 2]? = some at50
      ∧ (sort [30, 10, 20, 60, 50, 40, 70, 100, 90, 80])[
          9 * [30, 10, 20, 60, 50, 40, 70, 100, 90, (80 : Int)].length / 10]? = some at90
      ∧ at10 ≤ at50 ∧ at50 ≤ at90
      ∧ r.service10th = (at10 : ℚ) / 60 ∧ r.service50th = (at50 : ℚ) / 60
      ∧ r.service90th = (at90 : ℚ) / 60
      ∧ r.service10th ≤ r.service50th ∧ r.service50th ≤ r.service90th :=
  percentiles_ordered [30, 10, 20, 60, 50, 40, 70, 100, 90, 80] (by decide)

/-- C14: `printPercentiles` fails with `std::out_of_range` if and only if the results sequence
is empty; the vector in which the lookups are made, `sort xs`, is in ascending order and is a
permutation of the input; for every sequence of length `n ≥ 1` the three indices `n / 10`,
`n / 2` and `9 * n / 10` are below `n`, all three lookups succeed, and the value returned is
`sorted[9 * n / 10] / 60`. -/
theorem printPercentiles_fails_iff_empty (xs : List Int) :
    (printPercentiles xs = none ↔ xs = [])
    ∧ List.Sorted (fun a b => a ≤ b) (sort xs) ∧ (sort xs).Perm xs
    ∧ (1 ≤ xs.length →
        xs.length / 10 < xs.length ∧ xs.length / 2 < xs.length
        ∧ 9 * xs.length / 10 < xs.length
        ∧ ∃ (r : Percentiles) (at10 at50 at90 : Int),
          printPercentiles xs = some r ∧ r.serviceTimes = sort xs
          ∧ (sort xs)[xs.length / 10]? = some at10 ∧ (sort xs)[xs.length / 2]? = some at50
          ∧ (sort xs)[9 * xs.length / 10]? = some at90
          ∧ r.service90th = (at90 : ℚ) / 60) := by
  refine ⟨?_, sort_sorted xs, sort_perm xs, ?_⟩
  · constructor
    · intro hnone
      by_contra hne
      obtain ⟨a, b, c, _, _, _, hr⟩ := printPercentiles_eq_some xs hne
      rw [hr] at hnone
      exact Option.noConfusion hnone
    · rintro rfl
      decide
  · intro hlen
    have hne : xs ≠ [] := List.length_pos.mp hlen
    obtain ⟨a, b, c, ha, hb, hc, hr⟩ := printPercentiles_eq_some xs hne
    exact ⟨by omega, by omega, by omega, _, a, b, c, hr, rfl, ha, hb, hc, rfl⟩

/-- C14 on ten unsorted values: the call does not fail, the lookups are made in the vector
`[10, 20, ..., 100]` at the indices 1, 5 and 9, and the value returned is `100 / 60`. -/
theorem printPercentiles_fails_iff_empty_witness :
    printPercentiles [30, 10, 20, 60, 50, 40, 70, 100, 90, 80] ≠ none
    ∧ List.Sorted (fun a b => a ≤ b) (sort [30, 10, 20, 60, 50, 40, 70, 100, 90, 80])
    ∧ (sort [30, 10, 20, 60, 50, 40, 70, 100, 90, 80]).Perm
        [30, 10, 20, 60, 50, 40, 70, 100, 90, 80]
    ∧ sort [30, 10, 20, 60, 50, 40, 70, 100, 90, 80]
        = [10, 20, 30, 40, 50, 60, 70, 80, 90, 100]
    ∧ (sort [30, 10, 20, 60, 50, 40, 70, 100, 90, 80])[9]? = some 100
    ∧ [30, 10, 20, 60, 50, 40, 70, 100, 90, (80 : Int)].length / 10
        < [30, 10, 20, 60, 50, 40, 70, 100, 90, (80 : Int)].length
    ∧ [30, 10, 20, 60, 50, 40, 70, 100, 90, (80 : Int)].length / 2
        < [30, 10, 20, 60, 50, 40, 70, 100, 90, (80 : Int)].length
    ∧ 9 * [30, 10, 20, 60, 50, 40, 70, 100, 90, (80 : Int)].length / 10
        < [30, 10, 20, 60, 50, 40, 70, 100, 90, (80 : Int)].length
    ∧ ∃ (r : Percentiles) (at10 at50 at90 : Int),
      printPercentiles [30, 10, 20, 60, 50, 40, 70, 100, 90, 80] = some r
      ∧ r.serviceTimes = sort [30, 10, 20, 60, 50, 40, 70, 100, 90, 80]
      ∧ (sort [30, 10, 20, 60, 50, 40, 70, 100, 90, 80])[
          [30, 10, 20, 60, 50, 40, 70, 100, 90, (80 : Int)].length / 10]? = some at10
      ∧ (sort [30, 10, 20, 60, 50, 40, 70, 100, 90, 80])[
          [30, 10, 20, 60, 50, 40, 70, 100, 90, (80 : Int)].length / 2]? = some at50
      ∧ (sort [30, 10, 20, 60, 50, 40, 70, 100, 90, 80])[
          9 * [30, 10, 20, 60, 50, 40, 70, 100, 90, (80 : Int)].length / 10]? = some at90
      ∧ r.service90th = (at90 : ℚ) / 60 :=
  have h := printPercentiles_fails_iff_empty [30, 10, 20, 60, 50, 40, 70, 100, 90, 80]
  ⟨fun hn => absurd (h.1.mp hn) (by decide), h.2.1, h.2.2.1, by decide, by decide,
    h.2.2.2 (by decide)⟩

/-- C15: for every non-empty results sequence, a second call of `printPercentiles` on the
vector as the first call left it (sorted in place) gives the same report as the first: the
same three percentile values, the same returned 90th-percentile value, and the same vector. -/
theorem printPercentiles_idempotent (xs : List Int) (h : xs ≠ []) :
    ∃ r : Percentiles, printPercentiles xs = some r
      ∧ printPercentiles r.serviceTimes = some r := by
  obtain ⟨a, b, c, ha, hb, hc, hr⟩ := printPercentiles_eq_some xs h
  refine ⟨_, hr, ?_⟩
  have hl := sort_length xs
  show printPercentiles (sort xs) = _
  simp only [printPercentiles, sort_sort, hl, ha, hb, hc]

/-- C15 on ten values. -/
theorem printPercentiles_idempotent_witness :
    ∃ r : Percentiles, printPercentiles [30, 10, 20, 60, 50, 40, 70, 100, 90, 80] = some r
      ∧ printPercentiles r.serviceTimes = some r :=
  printPercentiles_idempotent [30, 10, 20, 60, 50, 40, 70, 100, 90, 80] (by decide)

/-! ## C17, C19: invariants of the bank loop -/

theorem countP_isArrival_of_arrivals {q : List Event} (hq : ∀ e ∈ q, e.event = ARRIVAL) :
    q.countP isArrival = q.length := by
  rw [List.countP_eq_length]
  intro e he
  simp [isArrival, hq e he]

/-- C17: in a run of `BankSim::runSim` started from `k` Arrival events (and nothing else in the
scheduler), an empty wait line and an empty results sequence, after every pass of the loop,
and in the state in which the loop is left, the Arrival events in the scheduler, the wait
line, the Departure events in the scheduler and the results together count `k`; the results
never hold more than `k` values, and their number is the number of Arrival events processed
minus the customers still in the wait line or still scheduled as Departures. -/
theorem bank_customer_conservation (SIM_LENGTH : Int) (ties : Nat → Nat) (s : BankSim)
    (hq : ∀ e ∈ s.eventQueue, e.event = ARRIVAL) (hw : s.bankQueue = [])
    (hr : s.serviceTime = []) (n : Nat) (s' : BankSim)
    (h : iterate (BankSim.loopBody SIM_LENGTH) ties n s = Loop.next s'
      ∨ iterate (BankSim.loopBody SIM_LENGTH) ties n s = Loop.stop s') :
    s'.eventQueue.countP isArrival + s'.bankQueue.length + s'.eventQueue.countP isDeparture
        + s'.serviceTime.length = s.eventQueue.length
    ∧ s'.serviceTime.length ≤ s.eventQueue.length
    ∧ s'.serviceTime.length
        = (BankSim.processed SIM_LENGTH ties n s).countP isArrival
          - (s'.bankQueue.length + s'.eventQueue.countP isDeparture) := by
  have h0 : s.eventQueue.countP isArrival + s.bankQueue.length
      + s.eventQueue.countP isDeparture + s.serviceTime.length = s.eventQueue.length := by
    rw [countP_isArrival_of_arrivals hq, countP_isDeparture_of_arrivals hq, hw, hr]
    simp
  have hstep : ∀ tie (a b : BankSim),
      a.eventQueue.countP isArrival + a.bankQueue.length + a.eventQueue.countP isDeparture
        + a.serviceTime.length = s.eventQueue.length →
      BankSim.loopBody SIM_LENGTH tie a = Loop.next b →
      b.eventQueue.countP isArrival + b.bankQueue.length + b.eventQueue.countP isDeparture
        + b.serviceTime.length = s.eventQueue.length := by
    intro tie a b hP hb
    obtain ⟨e, _, _, _, hc⟩ := BankSim.loopBody_next_counts hb
    rcases hc with ⟨_, _, _, hD, hA, _, hW, hR⟩ | ⟨_, _, _, hD, hA, _, hW, hR⟩ |
      ⟨_, ⟨head, hW⟩, _, hD, hA, _, hR⟩ | ⟨_, hW, hW', _, hD, hA, _, hR⟩ |
      ⟨_, _, _, hD, hA, _, hW, hR⟩
    · rw [hW, hR]; omega
    · rw [hW, hR, List.length_append, List.length_singleton]; omega
    · rw [hW, List.length_cons] at hP
      rw [hR, List.length_append, List.length_singleton]; omega
    · rw [hW] at hP
      rw [hW', hR, List.length_append, List.length_singleton]
      simp only [List.length_nil] at hP ⊢
      omega
    · rw [hW, hR]; omega
  have key : s'.eventQueue.countP isArrival + s'.bankQueue.length
      + s'.eventQueue.countP isDeparture + s'.serviceTime.length = s.eventQueue.length := by
    rcases h with h | h
    · exact iterate_next_of_inv (fun a => a.eventQueue.countP isArrival + a.bankQueue.length
        + a.eventQueue.countP isDeparture + a.serviceTime.length = s.eventQueue.length)
        hstep n ties s s' h0 h
    · refine iterate_stop_of_inv (fun a => a.eventQueue.countP isArrival + a.bankQueue.length
        + a.eventQueue.countP isDeparture + a.serviceTime.length = s.eventQueue.length)
        (fun a => a.eventQueue.countP isArrival + a.bankQueue.length
        + a.eventQueue.countP isDeparture + a.serviceTime.length = s.eventQueue.length)
        hstep ?_ n ties s s' h0 h
      intro tie a b hP hb
      obtain ⟨hq', hw', _, hr', _⟩ := BankSim.loopBody_stop hb
      show b.eventQueue.countP isArrival + b.bankQueue.length
        + b.eventQueue.countP isDeparture + b.serviceTime.length = s.eventQueue.length
      rw [hq', hw', hr']
      exact hP
  obtain ⟨b1, b2⟩ := BankSim.iterate_bookkeeping SIM_LENGTH n ties s s' h
  rw [hw, countP_isDeparture_of_arrivals hq] at b2
  have hlen : s'.serviceTime.length
      = (BankSim.processed SIM_LENGTH ties n s).countP isDeparture := by
    rw [b1, hr, List.nil_append, List.length_map, List.countP_eq_length_filter]
  simp only [List.length_nil, Nat.add_zero, Nat.zero_add] at b2
  refine ⟨key, by omega, by omega⟩

/-- C17 at one teller and the three arrivals of the single-teller scenario, after four
passes: one Departure is scheduled, one customer waits, one value has been committed. -/
theorem bank_customer_conservation_witness :
    iterate (BankSim.loopBody 100) (fun _ => 0) 4
        ⟨[⟨0, 0, 10, ARRIVAL, 0, 0⟩, ⟨1, 1, 10, ARRIVAL, 0, 0⟩, ⟨2, 2, 10, ARRIVAL, 0, 0⟩], [],
          0, 1, []⟩
      = Loop.next ⟨[⟨1, 20, 10, DEPARTURE, 19, 0⟩], [⟨2, 2, 10, ARRIVAL, 0, 0⟩], 10, 0, [10]⟩
    ∧ ([⟨1, 20, 10, DEPARTURE, 19, 0⟩] : List Event).countP isArrival
        + ([⟨2, 2, 10, ARRIVAL, 0, 0⟩] : List Event).length
        + ([⟨1, 20, 10, DEPARTURE, 19, 0⟩] : List Event).countP isDeparture
        + ([10] : List Int).length
      = ([⟨0, 0, 10, ARRIVAL, 0, 0⟩, ⟨1, 1, 10, ARRIVAL, 0, 0⟩, ⟨2, 2, 10, ARRIVAL, 0, 0⟩]
          : List Event).length
    ∧ ([10] : List Int).length
      ≤ ([⟨0, 0, 10, ARRIVAL, 0, 0⟩, ⟨1, 1, 10, ARRIVAL, 0, 0⟩, ⟨2, 2, 10, ARRIVAL, 0, 0⟩]
          : List Event).length
    ∧ ([10] : List Int).length
      = (BankSim.processed 100 (fun _ => 0) 4
          ⟨[⟨0, 0, 10, ARRIVAL, 0, 0⟩, ⟨1, 1, 10, ARRIVAL, 0, 0⟩, ⟨2, 2, 10, ARRIVAL, 0, 0⟩],
            [], 0, 1, []⟩).countP isArrival
        - (([⟨2, 2, 10, ARRIVAL, 0, 0⟩] : List Event).length
          + ([⟨1, 20, 10, DEPARTURE, 19, 0⟩] : List Event).countP isDeparture) :=
  ⟨by decide,
    bank_customer_conservation 100 (fun _ => 0)
      ⟨[⟨0, 0, 10, ARRIVAL, 0, 0⟩, ⟨1, 1, 10, ARRIVAL, 0, 0⟩, ⟨2, 2, 10, ARRIVAL, 0, 0⟩], [], 0,
        1, []⟩ (by decide) rfl rfl 4
      ⟨[⟨1, 20, 10, DEPARTURE, 19, 0⟩], [⟨2, 2, 10, ARRIVAL, 0, 0⟩], 10, 0, [10]⟩
      (Or.inl (by decide))⟩

/-- The wait line is used only when no teller is available, and the tellers not available are
those of the scheduled Departures; no bound on the server count is needed. -/
theorem BankSim.idle_inv_step (SIM_LENGTH N : Int) (tie : Nat) (s s' : BankSim)
    (hP : (s.bankQueue ≠ [] → s.tellersAvailable = 0)
      ∧ s.tellersAvailable + s.eventQueue.countP isDeparture = N)
    (h : s.loopBody SIM_LENGTH tie = Loop.next s') :
    (s'.bankQueue ≠ [] → s'.tellersAvailable = 0)
      ∧ s'.tellersAvailable + s'.eventQueue.countP isDeparture = N := by
  obtain ⟨h3, h1⟩ := hP
  obtain ⟨e, _, _, _, hc⟩ := BankSim.loopBody_next_counts h
  rcases hc with ⟨_, hT, hT', hD, _, _, hW, _⟩ | ⟨_, hT, hT', hD, _, _, hW, _⟩ |
    ⟨_, ⟨head, hW⟩, hT', hD, _, _, _⟩ | ⟨_, hW, hW', hT', hD, _, _, _⟩ |
    ⟨_, _, hT', hD, _, _, hW, _⟩
  · refine ⟨?_, by omega⟩
    intro hne
    rw [hW] at hne
    exact absurd (h3 hne) hT
  · exact ⟨fun _ => by omega, by omega⟩
  · have : s.tellersAvailable = 0 := h3 (by rw [hW]; exact List.cons_ne_nil _ _)
    exact ⟨fun _ => by omega, by omega⟩
  · exact ⟨fun hne => absurd hW' hne, by omega⟩
  · refine ⟨?_, by omega⟩
    intro hne
    rw [hW] at hne
    rw [hT']
    exact h3 hne

/-- C19: in a run of `BankSim::runSim` started with an empty wait line and a scheduler holding
only Arrival events, with `N` the server count (the initial `tellersAvailable`, of any value),
after every pass of the loop, and in the state in which the loop is left, a non-empty wait
line implies `tellersAvailable = 0`, and `tellersAvailable` plus the number of Departure
events in the scheduler equals `N`. -/
theorem bank_no_idle_teller_while_waiting (SIM_LENGTH N : Int) (ties : Nat → Nat)
    (s : BankSim) (ht : s.tellersAvailable = N)
    (hq : ∀ e ∈ s.eventQueue, e.event = ARRIVAL) (hw : s.bankQueue = []) (n : Nat)
    (s' : BankSim)
    (h : iterate (BankSim.loopBody SIM_LENGTH) ties n s = Loop.next s'
      ∨ iterate (BankSim.loopBody SIM_LENGTH) ties n s = Loop.stop s') :
    (s'.bankQueue ≠ [] → s'.tellersAvailable = 0)
    ∧ s'.tellersAvailable + s'.eventQueue.countP isDeparture = N := by
  have h0 : (s.bankQueue ≠ [] → s.tellersAvailable = 0)
      ∧ s.tellersAvailable + s.eventQueue.countP isDeparture = N := by
    rw [countP_isDeparture_of_arrivals hq]
    exact ⟨fun hne => absurd hw hne, by omega⟩
  rcases h with h | h
  · exact iterate_next_of_inv (fun a => (a.bankQueue ≠ [] → a.tellersAvailable = 0)
      ∧ a.tellersAvailable + a.eventQueue.countP isDeparture = N)
      (fun tie a b hP hb => BankSim.idle_inv_step SIM_LENGTH N tie a b hP hb) n ties s s' h0 h
  · refine iterate_stop_of_inv (fun a => (a.bankQueue ≠ [] → a.tellersAvailable = 0)
      ∧ a.tellersAvailable + a.eventQueue.countP isDeparture = N)
      (fun a => (a.bankQueue ≠ [] → a.tellersAvailable = 0)
      ∧ a.tellersAvailable + a.eventQueue.countP isDeparture = N)
      (fun tie a b hP hb => BankSim.idle_inv_step SIM_LENGTH N tie a b hP hb) ?_
      n ties s s' h0 h
    intro tie a b hP hb
    obtain ⟨hq', hw', hT', _⟩ := BankSim.loopBody_stop hb
    show (b.bankQueue ≠ [] → b.tellersAvailable = 0)
      ∧ b.tellersAvailable + b.eventQueue.countP isDeparture = N
    rw [hq', hw', hT']
    exact hP

/-- C19 at one teller and the three arrivals of the single-teller scenario, after two passes:
customer 1 waits, no teller is available and one Departure is scheduled. -/
theorem bank_no_idle_teller_while_waiting_witness :
    iterate (BankSim.loopBody 100) (fun _ => 0) 2
        ⟨[⟨0, 0, 10, ARRIVAL, 0, 0⟩, ⟨1, 1, 10, ARRIVAL, 0, 0⟩, ⟨2, 2, 10, ARRIVAL, 0, 0⟩], [],
          0, 1, []⟩
      = Loop.next ⟨[⟨2, 2, 10, ARRIVAL, 0, 0⟩, ⟨0, 10, 10, DEPARTURE, 10, 0⟩],
          [⟨1, 1, 10, ARRIVAL, 0, 0⟩], 1, 0, []⟩
    ∧ (([⟨1, 1, 10, ARRIVAL, 0, 0⟩] : List Event) ≠ [] → (0 : Int) = 0)
    ∧ (0 : Int) + ([⟨2, 2, 10, ARRIVAL, 0, 0⟩, ⟨0, 10, 10, DEPARTURE, 10, 0⟩]
        : List Event).countP isDeparture = 1 :=
  ⟨by decide,
    bank_no_idle_teller_while_waiting 100 1 (fun _ => 0)
      ⟨[⟨0, 0, 10, ARRIVAL, 0, 0⟩, ⟨1, 1, 10, ARRIVAL, 0, 0⟩, ⟨2, 2, 10, ARRIVAL, 0, 0⟩], [], 0,
        1, []⟩ rfl (by decide) rfl 2
      ⟨[⟨2, 2, 10, ARRIVAL, 0, 0⟩, ⟨0, 10, 10, DEPARTURE, 10, 0⟩], [⟨1, 1, 10, ARRIVAL, 0, 0⟩],
        1, 0, []⟩ (Or.inl (by decide))⟩

/-! ## C20: termination of the loops -/

/-- A loop that is left during the first `n` passes was left by pass number `m < n`, after `m`
passes that ran to their end. -/
theorem iterate_stop_split {σ : Type} {body : Nat → σ → Loop σ} :
    ∀ (n : Nat) (ties : Nat → Nat) (s r : σ), iterate body ties n s = Loop.stop r →
      ∃ m sm, m < n ∧ iterate body ties m s = Loop.next sm ∧ body (ties m) sm = Loop.stop r := by
  intro n
  induction n with
  | zero => intro ties s r h; exact Loop.noConfusion h
  | succ n ih =>
    intro ties s r h
    cases hb : body (ties 0) s with
    | stop r' =>
      rw [iterate_succ_stop n hb] at h
      simp only [Loop.stop.injEq] at h
      subst h
      exact ⟨0, s, by omega, rfl, hb⟩
    | thrown =>
      simp only [iterate, hb] at h
      exact Loop.noConfusion h
    | next s1 =>
      rw [iterate_succ_next n hb] at h
      obtain ⟨m, sm, hm, h1, h2⟩ := ih _ s1 r h
      exact ⟨m + 1, sm, by omega, by rw [iterate_succ_next m hb]; exact h1, h2⟩

theorem iterate_thrown_split {σ : Type} {body : Nat → σ → Loop σ} :
    ∀ (n : Nat) (ties : Nat → Nat) (s : σ), iterate body ties n s = Loop.thrown →
      ∃ m sm, m < n ∧ iterate body ties m s = Loop.next sm ∧ body (ties m) sm = Loop.thrown := by
  intro n
  induction n with
  | zero => intro ties s h; exact Loop.noConfusion h
  | succ n ih =>
    intro ties s h
    cases hb : body (ties 0) s with
    | stop r' =>
      rw [iterate_succ_stop n hb] at h
      exact Loop.noConfusion h
    | thrown => exact ⟨0, s, by omega, rfl, hb⟩
    | next s1 =>
      rw [iterate_succ_next n hb] at h
      obtain ⟨m, sm, hm, h1, h2⟩ := ih _ s1 h
      exact ⟨m + 1, sm, by omega, by rw [iterate_succ_next m hb]; exact h1, h2⟩

/-- Each pass of the bank loop that runs to its end lowers the number of events in the
scheduler, counting Arrival events twice, plus the length of the wait line. -/
theorem BankSim.measure_step {SIM_LENGTH : Int} {tie : Nat} {s s' : BankSim}
    (hb : s.loopBody SIM_LENGTH tie = Loop.next s') :
    s'.eventQueue.length + s'.eventQueue.countP isArrival + s'.bankQueue.length + 1
      ≤ s.eventQueue.length + s.eventQueue.countP isArrival + s.bankQueue.length := by
  obtain ⟨e, _, _, _, hc⟩ := BankSim.loopBody_next_counts hb
  rcases hc with ⟨_, _, _, _, h2, h3, h4, _⟩ | ⟨_, _, _, _, h2, h3, h4, _⟩ |
    ⟨_, ⟨head, h4⟩, _, _, h2, h3, _⟩ | ⟨_, h4, h5, _, _, h2, h3, _⟩ |
    ⟨_, _, _, _, h2, h3, h4, _⟩
  · rw [h4]; omega
  · rw [h4, List.length_append, List.length_singleton]; omega
  · rw [h4, List.length_cons]; omega
  · rw [h5, h4]; omega
  · rw [h4]; omega

theorem BankSim.measure_iterate (SIM_LENGTH : Int) :
    ∀ (m : Nat) (ties : Nat → Nat) (s sm : BankSim),
      iterate (BankSim.loopBody SIM_LENGTH) ties m s = Loop.next sm →
      sm.eventQueue.length + sm.eventQueue.countP isArrival + sm.bankQueue.length + m
        ≤ s.eventQueue.length + s.eventQueue.countP isArrival + s.bankQueue.length := by
  intro m
  induction m with
  | zero =>
    intro ties s sm h
    simp only [iterate, Loop.next.injEq] at h
    subst h
    omega
  | succ m ih =>
    intro ties s sm h
    cases hb : BankSim.loopBody SIM_LENGTH (ties 0) s with
    | stop r => rw [iterate_succ_stop m hb] at h; exact Loop.noConfusion h
    | thrown => exact absurd hb (BankSim.loopBody_ne_thrown _ _ _)
    | next s1 =>
      rw [iterate_succ_next m hb] at h
      have h1 := ih _ s1 sm h
      have h2 := BankSim.measure_step hb
      omega

/-- Each pass of the grocery loop that runs to its end lowers the number of events in the
scheduler, counting Arrival events twice. -/
theorem GrocerySim.size_step {SIM_LENGTH : Int} {tie : Nat} {s s' : GrocerySim}
    (hb : s.loopBody SIM_LENGTH tie = Loop.next s') :
    s'.eventQueue.length + s'.eventQueue.countP isArrival + 1
      ≤ s.eventQueue.length + s.eventQueue.countP isArrival := by
  obtain ⟨e, ht, _, _, hc⟩ := GrocerySim.loopBody_next_cases hb
  have hmem : e ∈ s.eventQueue := top_mem ht
  have hA := countP_pop isArrival hmem
  have hL := length_pop hmem
  have hne : DEPARTURE ≠ ARRIVAL := by decide
  rcases hc with ⟨ha, hq, _, _⟩ | ⟨hd, hq, _, _⟩ | ⟨ha, hd, hq, _, _⟩
  · have hAe : isArrival e = true := by simp [isArrival, ha]
    rw [hAe] at hA
    rw [hq]
    simp [isArrival, hne, List.countP_append] at hA ⊢
    omega
  · rw [hq]
    split at hA <;> omega
  · rw [hq]
    split at hA <;> omega

theorem GrocerySim.size_iterate (SIM_LENGTH : Int) :
    ∀ (m : Nat) (ties : Nat → Nat) (s sm : GrocerySim),
      iterate (GrocerySim.loopBody SIM_LENGTH) ties m s = Loop.next sm →
      sm.eventQueue.length + sm.eventQueue.countP isArrival + m
        ≤ s.eventQueue.length + s.eventQueue.countP isArrival := by
  intro m
  induction m with
  | zero =>
    intro ties s sm h
    simp only [iterate, Loop.next.injEq] at h
    subst h
    omega
  | succ m ih =>
    intro ties s sm h
    cases hb : GrocerySim.loopBody SIM_LENGTH (ties 0) s with
    | stop r => rw [iterate_succ_stop m hb] at h; exact Loop.noConfusion h
    | thrown =>
      simp only [iterate, hb] at h
      exact Loop.noConfusion h
    | next s1 =>
      rw [iterate_succ_next m hb] at h
      have h1 := ih _ s1 sm h
      have h2 := GrocerySim.size_step hb
      omega

/-- The number of events of a scheduler that holds only Arrival and Departure events. -/
theorem length_eq_arrivals_add_departures {q : List Event}
    (hq : ∀ e ∈ q, e.event = ARRIVAL ∨ e.event = DEPARTURE) :
    q.length = q.countP isArrival + q.countP isDeparture := by
  induction q with
  | nil => rfl
  | cons a t ih =>
    have hne : DEPARTURE ≠ ARRIVAL := by decide
    have iht := ih (fun e he => hq e (List.mem_cons_of_mem _ he))
    rcases hq a (List.mem_cons_self _ _) with ha | ha
    · have h1 : isArrival a = true := by simp [isArrival, ha]
      have h2 : isDeparture a = false := by simp [isDeparture, ha, hne.symm]
      simp only [List.length_cons, List.countP_cons, h1, h2]
      simp
      omega
    · have h1 : isArrival a = false := by simp [isArrival, ha, hne]
      have h2 : isDeparture a = true := by simp [isDeparture, ha]
      simp only [List.length_cons, List.countP_cons, h1, h2]
      simp
      omega

/-- C20: for every initial scheduler content of Arrival and Departure events (any event times
and durations), any horizon, any server count and every way of breaking ties, the loop of
`BankSim::runSim` is left after `m` passes that ran to their end, with `m` at most twice the
number of initial Arrival events plus the number of initial Departure events plus the number
of customers initially in the wait line (none for a new `BankSim`); the loop of
`GrocerySim::runSim` is left, or `std::out_of_range` escapes from it, after `m` such passes,
with `m` at most twice the number of initial Arrival events plus the number of initial
Departure events.  In both cases the pass that ends the loop is counted as well when it
finds the scheduler non-empty (a `break` at the horizon or a throw). -/
theorem runSim_terminates (SIM_LENGTH : Int) (ties : Nat → Nat) (b : BankSim)
    (g : GrocerySim)
    (hb : ∀ e ∈ b.eventQueue, e.event = ARRIVAL ∨ e.event = DEPARTURE)
    (hg : ∀ e ∈ g.eventQueue, e.event = ARRIVAL ∨ e.event = DEPARTURE) :
    (∃ m sm r, BankSim.runSim SIM_LENGTH ties b = Loop.stop r
      ∧ iterate (BankSim.loopBody SIM_LENGTH) ties m b = Loop.next sm
      ∧ BankSim.loopBody SIM_LENGTH (ties m) sm = Loop.stop r
      ∧ m ≤ 2 * b.eventQueue.countP isArrival + b.eventQueue.countP isDeparture
          + b.bankQueue.length
      ∧ (sm.eventQueue ≠ [] →
          m + 1 ≤ 2 * b.eventQueue.countP isArrival + b.eventQueue.countP isDeparture
            + b.bankQueue.length))
    ∧ (∃ m sm, iterate (GrocerySim.loopBody SIM_LENGTH) ties m g = Loop.next sm
      ∧ ((∃ r, GrocerySim.runSim SIM_LENGTH ties g = Loop.stop r
            ∧ GrocerySim.loopBody SIM_LENGTH (ties m) sm = Loop.stop r)
          ∨ (GrocerySim.runSim SIM_LENGTH ties g = Loop.thrown
            ∧ GrocerySim.loopBody SIM_LENGTH (ties m) sm = Loop.thrown))
      ∧ m ≤ 2 * g.eventQueue.countP isArrival + g.eventQueue.countP isDeparture
      ∧ (sm.eventQueue ≠ [] →
          m + 1 ≤ 2 * g.eventQueue.countP isArrival + g.eventQueue.countP isDeparture)) := by
  have hbl := length_eq_arrivals_add_departures hb
  have hgl := length_eq_arrivals_add_departures hg
  constructor
  · obtain ⟨r, hr⟩ := BankSim.runSim_returns SIM_LENGTH ties b
    obtain ⟨m, sm, _, h1, h2⟩ := iterate_stop_split b.fuel ties b r hr
    have hm := BankSim.measure_iterate SIM_LENGTH m ties b sm h1
    refine ⟨m, sm, r, hr, h1, h2, by omega, ?_⟩
    intro hne
    have : 0 < sm.eventQueue.length := List.length_pos.mpr hne
    omega
  · have hA := List.countP_le_length isArrival (l := g.eventQueue)
    have bound : ∀ m sm, iterate (GrocerySim.loopBody SIM_LENGTH) ties m g = Loop.next sm →
        m ≤ 2 * g.eventQueue.countP isArrival + g.eventQueue.countP isDeparture
        ∧ (sm.eventQueue ≠ [] →
          m + 1 ≤ 2 * g.eventQueue.countP isArrival + g.eventQueue.countP isDeparture) := by
      intro m sm h1
      have hm := GrocerySim.size_iterate SIM_LENGTH m ties g sm h1
      refine ⟨by omega, ?_⟩
      intro hne
      have : 0 < sm.eventQueue.length := List.length_pos.mpr hne
      omega
    cases hrun : GrocerySim.runSim SIM_LENGTH ties g with
    | next sm =>
      have hm := GrocerySim.size_iterate SIM_LENGTH g.fuel ties g sm hrun
      unfold GrocerySim.fuel at hm
      omega
    | stop r =>
      obtain ⟨m, sm, _, h1, h2⟩ := iterate_stop_split g.fuel ties g r hrun
      exact ⟨m, sm, h1, Or.inl ⟨r, rfl, h2⟩, bound m sm h1⟩
    | thrown =>
      obtain ⟨m, sm, _, h1, h2⟩ := iterate_thrown_split g.fuel ties g hrun
      exact ⟨m, sm, h1, Or.inr ⟨rfl, h2⟩, bound m sm h1⟩

/-- C20 for one Arrival of duration 10 at time 0 under horizon 5, with one teller and with all
backlogs at 0: at most two passes. -/
theorem runSim_terminates_witness :
    (∃ m sm r, BankSim.runSim 5 (fun _ => 0) ⟨[⟨0, 0, 10, ARRIVAL, 0, 0⟩], [], 0, 1, []⟩
        = Loop.stop r
      ∧ iterate (BankSim.loopBody 5) (fun _ => 0) m ⟨[⟨0, 0, 10, ARRIVAL, 0, 0⟩], [], 0, 1, []⟩
        = Loop.next sm
      ∧ BankSim.loopBody 5 ((fun _ => 0) m) sm = Loop.stop r
      ∧ m ≤ 2 * ([⟨0, 0, 10, ARRIVAL, 0, 0⟩] : List Event).countP isArrival
          + ([⟨0, 0, 10, ARRIVAL, 0, 0⟩] : List Event).countP isDeparture
          + ([] : List Event).length
      ∧ (sm.eventQueue ≠ [] →
          m + 1 ≤ 2 * ([⟨0, 0, 10, ARRIVAL, 0, 0⟩] : List Event).countP isArrival
            + ([⟨0, 0, 10, ARRIVAL, 0, 0⟩] : List Event).countP isDeparture
            + ([] : List Event).length))
    ∧ (∃ m sm, iterate (GrocerySim.loopBody 5) (fun _ => 0) m
          ⟨[⟨0, 0, 10, ARRIVAL, 0, 0⟩], fun _ => 0, 0, []⟩ = Loop.next sm
      ∧ ((∃ r, GrocerySim.runSim 5 (fun _ => 0)
              ⟨[⟨0, 0, 10, ARRIVAL, 0, 0⟩], fun _ => 0, 0, []⟩ = Loop.stop r
            ∧ GrocerySim.loopBody 5 ((fun _ => 0) m) sm = Loop.stop r)
          ∨ (GrocerySim.runSim 5 (fun _ => 0)
              ⟨[⟨0, 0, 10, ARRIVAL, 0, 0⟩], fun _ => 0, 0, []⟩ = Loop.thrown
            ∧ GrocerySim.loopBody 5 ((fun _ => 0) m) sm = Loop.thrown))
      ∧ m ≤ 2 * ([⟨0, 0, 10, ARRIVAL, 0, 0⟩] : List Event).countP isArrival
          + ([⟨0, 0, 10, ARRIVAL, 0, 0⟩] : List Event).countP isDeparture
      ∧ (sm.eventQueue ≠ [] →
          m + 1 ≤ 2 * ([⟨0, 0, 10, ARRIVAL, 0, 0⟩] : List Event).countP isArrival
            + ([⟨0, 0, 10, ARRIVAL, 0, 0⟩] : List Event).countP isDeparture)) :=
  runSim_terminates 5 (fun _ => 0) ⟨[⟨0, 0, 10, ARRIVAL, 0, 0⟩], [], 0, 1, []⟩
    ⟨[⟨0, 0, 10, ARRIVAL, 0, 0⟩], fun _ => 0, 0, []⟩ (by decide) (by decide)

/-! ## C16: the wait line is first in, first out -/

theorem BankSim.appended_of_next {SIM_LENGTH : Int} {ties : Nat → Nat} {s s' : BankSim}
    {e : Event} (n : Nat) (ht : top (ties 0) s.eventQueue = some e)
    (hb : s.loopBody SIM_LENGTH (ties 0) = Loop.next s') :
    BankSim.appended SIM_LENGTH ties (n + 1) s
      = s.joining e ++ BankSim.appended SIM_LENGTH (fun k => ties (k + 1)) n s' := by
  simp [BankSim.appended, ht, hb]

theorem BankSim.removed_of_next {SIM_LENGTH : Int} {ties : Nat → Nat} {s s' : BankSim}
    {e : Event} (n : Nat) (ht : top (ties 0) s.eventQueue = some e)
    (hb : s.loopBody SIM_LENGTH (ties 0) = Loop.next s') :
    BankSim.removed SIM_LENGTH ties (n + 1) s
      = s.leaving e ++ BankSim.removed SIM_LENGTH (fun k => ties (k + 1)) n s' := by
  simp [BankSim.removed, ht, hb]

theorem BankSim.appended_of_stop {SIM_LENGTH : Int} {ties : Nat → Nat} {s s' : BankSim}
    (n : Nat) (hb : s.loopBody SIM_LENGTH (ties 0) = Loop.stop s') :
    BankSim.appended SIM_LENGTH ties (n + 1) s = [] := by
  unfold BankSim.appended
  rw [hb]
  cases top (ties 0) s.eventQueue <;> rfl

theorem BankSim.removed_of_stop {SIM_LENGTH : Int} {ties : Nat → Nat} {s s' : BankSim}
    (n : Nat) (hb : s.loopBody SIM_LENGTH (ties 0) = Loop.stop s') :
    BankSim.removed SIM_LENGTH ties (n + 1) s = [] := by
  unfold BankSim.removed
  rw [hb]
  cases top (ties 0) s.eventQueue <;> rfl

/-- One pass of the bank loop and the wait line: what the pass appends goes to the tail, what
it removes comes from the front; what it appends is the event it took from the scheduler, an
Arrival; and every Arrival in the scheduler after the pass was there before. -/
theorem BankSim.pass_wait_line {SIM_LENGTH : Int} {tie : Nat} {s s' : BankSim}
    (h : s.loopBody SIM_LENGTH tie = Loop.next s') :
    ∃ e, top tie s.eventQueue = some e
      ∧ s.bankQueue ++ s.joining e = s.leaving e ++ s'.bankQueue
      ∧ (∀ a ∈ s.joining e, a = e ∧ e.event = ARRIVAL)
      ∧ (∀ x ∈ s'.eventQueue, x.event = ARRIVAL → x ∈ s.eventQueue) := by
  obtain ⟨e, ht, hh⟩ := BankSim.loopBody_next_top h
  have hne : DEPARTURE ≠ ARRIVAL := by decide
  refine ⟨e, ht, ?_⟩
  rcases BankSim.handle_cases SIM_LENGTH s e with
    ⟨_, hc⟩ | ⟨_, ha, hT, hc⟩ | ⟨_, ha, hT, hc⟩ | ⟨_, hd, head, rest, hq, hc⟩ |
    ⟨_, hd, hq, hc⟩ | ⟨_, ha, hd, hc⟩
  · rw [hc] at hh; exact Loop.noConfusion hh
  · rw [hc] at hh
    simp only [Loop.next.injEq] at hh
    subst hh
    refine ⟨by simp [BankSim.joining, BankSim.leaving, ha, hT],
      by simp [BankSim.joining, ha, hT], ?_⟩
    intro x hx hxa
    rcases List.mem_append.mp hx with hm | hm
    · exact mem_of_mem_pop hm
    · rw [List.mem_singleton] at hm
      subst hm
      exact absurd hxa hne
  · rw [hc] at hh
    simp only [Loop.next.injEq] at hh
    subst hh
    refine ⟨by simp [BankSim.joining, BankSim.leaving, ha, hT],
      by simp [BankSim.joining, ha, hT], ?_⟩
    intro x hx _
    exact mem_of_mem_pop hx
  · rw [hc] at hh
    simp only [Loop.next.injEq] at hh
    subst hh
    refine ⟨by simp [BankSim.joining, BankSim.leaving, hd, hne, hq],
      by simp [BankSim.joining, hd, hne], ?_⟩
    intro x hx hxa
    rcases List.mem_append.mp hx with hm | hm
    · exact mem_of_mem_pop hm
    · rw [List.mem_singleton] at hm
      subst hm
      exact absurd hxa hne
  · rw [hc] at hh
    simp only [Loop.next.injEq] at hh
    subst hh
    refine ⟨by simp [BankSim.joining, BankSim.leaving, hd, hne, hq],
      by simp [BankSim.joining, hd, hne], ?_⟩
    intro x hx _
    exact mem_of_mem_pop hx
  · rw [hc] at hh
    simp only [Loop.next.injEq] at hh
    subst hh
    refine ⟨by simp [BankSim.joining, BankSim.leaving, ha, hd],
      by simp [BankSim.joining, ha], ?_⟩
    intro x hx _
    exact mem_of_mem_pop hx

/-- The wait line over a run: the customers removed so far followed by those still waiting
are the customers waiting at the start followed by those appended so far. -/
theorem BankSim.wait_line_fifo (SIM_LENGTH : Int) :
    ∀ (n : Nat) (ties : Nat → Nat) (s r : BankSim),
      (iterate (BankSim.loopBody SIM_LENGTH) ties n s = Loop.next r
        ∨ iterate (BankSim.loopBody SIM_LENGTH) ties n s = Loop.stop r) →
      BankSim.removed SIM_LENGTH ties n s ++ r.bankQueue
        = s.bankQueue ++ BankSim.appended SIM_LENGTH ties n s := by
  intro n
  induction n with
  | zero =>
    intro ties s r h
    rcases h with h | h
    · simp only [iterate, Loop.next.injEq] at h
      subst h
      simp [BankSim.removed, BankSim.appended]
    · exact Loop.noConfusion h
  | succ n ih =>
    intro ties s r h
    cases hb : BankSim.loopBody SIM_LENGTH (ties 0) s with
    | thrown => exact absurd hb (BankSim.loopBody_ne_thrown _ _ _)
    | stop s' =>
      rw [iterate_succ_stop n hb] at h
      rw [BankSim.removed_of_stop n hb, BankSim.appended_of_stop n hb]
      rcases h with h | h
      · exact Loop.noConfusion h
      · simp only [Loop.stop.injEq] at h
        subst h
        obtain ⟨_, hw, _⟩ := BankSim.loopBody_stop hb
        simp [hw]
    | next s' =>
      rw [iterate_succ_next n hb] at h
      obtain ⟨e, ht, hfifo, _, _⟩ := BankSim.pass_wait_line hb
      rw [BankSim.removed_of_next n ht hb, BankSim.appended_of_next n ht hb,
        List.append_assoc, ih _ s' r h, ← List.append_assoc, ← hfifo, List.append_assoc]

/-- Every customer appended to the wait line is an Arrival event of the scheduler at the start
of the run, as a whole record. -/
theorem BankSim.appended_mem (SIM_LENGTH : Int) :
    ∀ (n : Nat) (ties : Nat → Nat) (s : BankSim),
      ∀ a ∈ BankSim.appended SIM_LENGTH ties n s, a ∈ s.eventQueue ∧ a.event = ARRIVAL := by
  intro n
  induction n with
  | zero =>
    intro ties s a ha
    simp [BankSim.appended] at ha
  | succ n ih =>
    intro ties s a ha
    cases hb : BankSim.loopBody SIM_LENGTH (ties 0) s with
    | thrown => exact absurd hb (BankSim.loopBody_ne_thrown _ _ _)
    | stop s' =>
      rw [BankSim.appended_of_stop n hb] at ha
      exact absurd ha (List.not_mem_nil a)
    | next s' =>
      obtain ⟨e, ht, _, hj, hold⟩ := BankSim.pass_wait_line hb
      rw [BankSim.appended_of_next n ht hb] at ha
      rcases List.mem_append.mp ha with hm | hm
      · obtain ⟨rfl, hae⟩ := hj a hm
        exact ⟨top_mem ht, hae⟩
      · obtain ⟨h1, h2⟩ := ih _ s' a hm
        exact ⟨hold a h1 h2, h2⟩

/-- The customers appended to the wait line are among the events processed, in order. -/
theorem BankSim.appended_sublist (SIM_LENGTH : Int) :
    ∀ (n : Nat) (ties : Nat → Nat) (s : BankSim),
      (BankSim.appended SIM_LENGTH ties n s).Sublist (BankSim.processed SIM_LENGTH ties n s) := by
  intro n
  induction n with
  | zero =>
    intro ties s
    simp [BankSim.appended, BankSim.processed]
  | succ n ih =>
    intro ties s
    cases hb : BankSim.loopBody SIM_LENGTH (ties 0) s with
    | thrown => exact absurd hb (BankSim.loopBody_ne_thrown _ _ _)
    | stop s' =>
      rw [BankSim.appended_of_stop n hb]
      exact List.nil_sublist _
    | next s' =>
      obtain ⟨e, ht, _, _, _⟩ := BankSim.pass_wait_line hb
      rw [BankSim.appended_of_next n ht hb, BankSim.processed_of_next n ht hb]
      unfold BankSim.joining
      split_ifs
      · exact (ih _ s').cons e
      · exact (ih _ s').cons₂ e
      · exact (ih _ s').cons e

/-- C16: in every run of `BankSim::runSim`, after any number of passes (`r` is the state
reached, or the state in which the loop was left), the customers removed from the wait line,
in removal order, followed by the customers still waiting are the customers that waited at
the start followed by those appended, in append order; so the removed customers are a prefix
of that sequence, and of the appended customers alone when the wait line is empty at the
start.  Every appended customer is the event that the pass took from the scheduler, unmodified
(the appended customers are a subsequence of the events processed), and is an Arrival event
of the scheduler at the start of the run. -/
theorem bank_wait_line_first_in_first_out (SIM_LENGTH : Int) (ties : Nat → Nat)
    (s : BankSim) (n : Nat) (r : BankSim)
    (h : iterate (BankSim.loopBody SIM_LENGTH) ties n s = Loop.next r
      ∨ iterate (BankSim.loopBody SIM_LENGTH) ties n s = Loop.stop r) :
    BankSim.removed SIM_LENGTH ties n s ++ r.bankQueue
        = s.bankQueue ++ BankSim.appended SIM_LENGTH ties n s
    ∧ List.IsPrefix (BankSim.removed SIM_LENGTH ties n s)
        (s.bankQueue ++ BankSim.appended SIM_LENGTH ties n s)
    ∧ (s.bankQueue = [] →
        List.IsPrefix (BankSim.removed SIM_LENGTH ties n s)
          (BankSim.appended SIM_LENGTH ties n s))
    ∧ (BankSim.appended SIM_LENGTH ties n s).Sublist (BankSim.processed SIM_LENGTH ties n s)
    ∧ (∀ a ∈ BankSim.appended SIM_LENGTH ties n s, a ∈ s.eventQueue ∧ a.event = ARRIVAL) := by
  have hf := BankSim.wait_line_fifo SIM_LENGTH n ties s r h
  refine ⟨hf, ⟨r.bankQueue, hf⟩, ?_, BankSim.appended_sublist SIM_LENGTH n ties s,
    BankSim.appended_mem SIM_LENGTH n ties s⟩
  intro hw
  rw [hw, List.nil_append] at hf
  exact ⟨r.bankQueue, hf⟩

/-- C16 at one teller and the three arrivals of the single-teller scenario, after four passes:
customers 1 and 2 were appended, customer 1 was removed, customer 2 still waits. -/
theorem bank_wait_line_first_in_first_out_witness :
    iterate (BankSim.loopBody 100) (fun _ => 0) 4
        ⟨[⟨0, 0, 10, ARRIVAL, 0, 0⟩, ⟨1, 1, 10, ARRIVAL, 0, 0⟩, ⟨2, 2, 10, ARRIVAL, 0, 0⟩], [],
          0, 1, []⟩
      = Loop.next ⟨[⟨1, 20, 10, DEPARTURE, 19, 0⟩], [⟨2, 2, 10, ARRIVAL, 0, 0⟩], 10, 0, [10]⟩
    ∧ BankSim.removed 100 (fun _ => 0) 4
        ⟨[⟨0, 0, 10, ARRIVAL, 0, 0⟩, ⟨1, 1, 10, ARRIVAL, 0, 0⟩, ⟨2, 2, 10, ARRIVAL, 0, 0⟩], [],
          0, 1, []⟩ = [⟨1, 1, 10, ARRIVAL, 0, 0⟩]
    ∧ BankSim.appended 100 (fun _ => 0) 4
        ⟨[⟨0, 0, 10, ARRIVAL, 0, 0⟩, ⟨1, 1, 10, ARRIVAL, 0, 0⟩, ⟨2, 2, 10, ARRIVAL, 0, 0⟩], [],
          0, 1, []⟩ = [⟨1, 1, 10, ARRIVAL, 0, 0⟩, ⟨2, 2, 10, ARRIVAL, 0, 0⟩]
    ∧ List.IsPrefix
        (BankSim.removed 100 (fun _ => 0) 4
          ⟨[⟨0, 0, 10, ARRIVAL, 0, 0⟩, ⟨1, 1, 10, ARRIVAL, 0, 0⟩, ⟨2, 2, 10, ARRIVAL, 0, 0⟩],
            [], 0, 1, []⟩)
        (BankSim.appended 100 (fun _ => 0) 4
          ⟨[⟨0, 0, 10, ARRIVAL, 0, 0⟩, ⟨1, 1, 10, ARRIVAL, 0, 0⟩, ⟨2, 2, 10, ARRIVAL, 0, 0⟩],
            [], 0, 1, []⟩) :=
  ⟨by decide, by decide, by decide,
    (bank_wait_line_first_in_first_out 100 (fun _ => 0)
      ⟨[⟨0, 0, 10, ARRIVAL, 0, 0⟩, ⟨1, 1, 10, ARRIVAL, 0, 0⟩, ⟨2, 2, 10, ARRIVAL, 0, 0⟩], [], 0,
        1, []⟩ 4
      ⟨[⟨1, 20, 10, DEPARTURE, 19, 0⟩], [⟨2, 2, 10, ARRIVAL, 0, 0⟩], 10, 0, [10]⟩
      (Or.inl (by decide))).2.2.1 rfl⟩

/-! ## C18: the backlog of each cashier -/

theorem iterate_ne_thrown_of_inv {σ : Type} {body : Nat → σ → Loop σ} (P : σ → Prop)
    (hstep : ∀ tie s s', P s → body tie s = Loop.next s' → P s')
    (hsafe : ∀ tie s, P s → body tie s ≠ Loop.thrown) :
    ∀ (n : Nat) (ties : Nat → Nat) (s : σ), P s → iterate body ties n s ≠ Loop.thrown := by
  intro n
  induction n with
  | zero =>
    intro ties s _ h
    exact Loop.noConfusion h
  | succ n ih =>
    intro ties s hP h
    cases hb : body (ties 0) s with
    | stop r => rw [iterate_succ_stop n hb] at h; exact Loop.noConfusion h
    | thrown => exact hsafe _ s hP hb
    | next r =>
      rw [iterate_succ_next n hb] at h
      exact ih _ r (hstep _ s r hP hb) h

theorem backlog_pop {q : List Event} {e : Event} (h : e ∈ q) (c : Fin 6) :
    backlog (pop q e) c
        + (if isDeparture e && decide (e.cashier = ((c : Nat) : Int)) then e.duration else 0)
      = backlog q c := by
  have hperm : q.Perm (e :: q.erase e) := List.perm_cons_erase h
  have hsum := ((hperm.filter
    (fun e => isDeparture e && decide (e.cashier = ((c : Nat) : Int)))).map
      (fun e => e.duration)).sum_eq
  unfold backlog pop
  rw [hsum, List.filter_cons]
  split
  · simp
    omega
  · simp

theorem backlog_push (q : List Event) (d : Event) (c : Fin 6) :
    backlog (q ++ [d]) c
      = backlog q c
        + (if isDeparture d && decide (d.cashier = ((c : Nat) : Int)) then d.duration else 0) := by
  unfold backlog
  rw [List.filter_append, List.map_append, List.sum_append, List.filter_cons]
  split <;> simp

theorem atIndex_eq_some {k : Int} {c : Fin 6} (h : atIndex k = some c) :
    k = ((c : Nat) : Int) := by
  unfold atIndex at h
  split at h
  · rename_i hk
    simp only [Option.some.injEq] at h
    subst h
    show k = ((k.toNat : Nat) : Int)
    omega
  · exact Option.noConfusion h

theorem natCast_fin_inj {a b : Fin 6} : (((a : Nat) : Int) = ((b : Nat) : Int)) ↔ a = b := by
  constructor
  · intro h
    apply Fin.ext
    omega
  · rintro rfl
    rfl

theorem absDurations_nonneg (q : List Event) : 0 ≤ absDurations q := by
  unfold absDurations
  apply List.sum_nonneg
  intro x hx
  obtain ⟨e, _, rfl⟩ := List.mem_map.mp hx
  exact abs_nonneg _

theorem absDurations_pop {q : List Event} {e : Event} (h : e ∈ q) :
    absDurations (pop q e) + |e.duration| = absDurations q := by
  have hperm : q.Perm (e :: q.erase e) := List.perm_cons_erase h
  have hsum := (hperm.map (fun e => |e.duration|)).sum_eq
  unfold absDurations pop
  rw [hsum, List.map_cons, List.sum_cons]
  omega

theorem absDurations_push (q : List Event) (d : Event) :
    absDurations (q ++ [d]) = absDurations q + |d.duration| := by
  unfold absDurations
  simp

/-- No backlog exceeds, in absolute value, the sum of the absolute durations of the
scheduler. -/
theorem abs_backlog_le (q : List Event) (c : Fin 6) : |backlog q c| ≤ absDurations q := by
  induction q with
  | nil => simp [backlog, absDurations]
  | cons e q ih =>
    have h1 : backlog (e :: q) c
        = (if isDeparture e && decide (e.cashier = ((c : Nat) : Int)) then e.duration else 0)
          + backlog q c := by
      unfold backlog
      rw [List.filter_cons]
      split <;> simp
    have h2 : absDurations (e :: q) = |e.duration| + absDurations q := by
      simp [absDurations]
    have hi := abs_le.mp ih
    have hd1 := le_abs_self e.duration
    have hd2 := neg_abs_le e.duration
    have hd3 := abs_nonneg e.duration
    rw [h1, h2]
    apply abs_le.mpr
    split <;> constructor <;> omega

theorem wrapInt_wrapInt_sub (a b : Int) : wrapInt (wrapInt a - b) = wrapInt (a - b) := by
  unfold wrapInt
  omega

/-- The backlog invariant is kept by every pass of the grocery loop that runs to its end:
each cashier's entry is the `int` value of the sum of the durations of the scheduled
Departures on that cashier, and every scheduled Departure names a cashier in `0..5`. -/
theorem GrocerySim.backlog_inv_step (SIM_LENGTH : Int) (tie : Nat) (s s' : GrocerySim)
    (hP : (∀ c, s.cashiers c = wrapInt (backlog s.eventQueue c))
      ∧ (∀ e ∈ s.eventQueue, e.event = DEPARTURE → ∃ c, atIndex e.cashier = some c))
    (h : s.loopBody SIM_LENGTH tie = Loop.next s') :
    (∀ c, s'.cashiers c = wrapInt (backlog s'.eventQueue c))
      ∧ (∀ e ∈ s'.eventQueue, e.event = DEPARTURE → ∃ c, atIndex e.cashier = some c) := by
  obtain ⟨hB, hV⟩ := hP
  obtain ⟨e, ht, _, _, hc⟩ := GrocerySim.loopBody_next_cases h
  have hmem : e ∈ s.eventQueue := top_mem ht
  have hne : DEPARTURE ≠ ARRIVAL := by decide
  rcases hc with ⟨ha, hq, hcash, _⟩ | ⟨hd, hq, ⟨c0, hc0, hcash⟩, _⟩ | ⟨ha, hd, hq, hcash, _⟩
  · have hDe : isDeparture e = false := by simp [isDeparture, ha, hne.symm]
    constructor
    · intro c
      have hp := backlog_pop hmem c
      rw [hDe] at hp
      simp only [Bool.false_and, Bool.false_eq_true, if_false, add_zero] at hp
      rw [hq, hcash, backlog_push, hp]
      by_cases hck : c = GrocerySim.chooseShortestLine s.cashiers
      · subst hck
        simp [isDeparture, hB, wrapInt_wrapInt_add]
      · rw [Function.update_noteq hck]
        have : ¬ (((GrocerySim.chooseShortestLine s.cashiers : Fin 6) : Nat) : Int)
            = ((c : Nat) : Int) := fun hh => hck (natCast_fin_inj.mp hh).symm
        simp [isDeparture, this, hB]
    · intro x hx hxd
      rw [hq] at hx
      rcases List.mem_append.mp hx with hm | hm
      · exact hV x (mem_of_mem_pop hm) hxd
      · rw [List.mem_singleton] at hm
        subst hm
        exact ⟨_, atIndex_natCast _⟩
  · have hDe : isDeparture e = true := by simp [isDeparture, hd]
    have hk := atIndex_eq_some hc0
    constructor
    · intro c
      have hp := backlog_pop hmem c
      rw [hDe, hk] at hp
      rw [hq, hcash]
      by_cases hck : c = c0
      · subst hck
        simp only [Function.update_same]
        simp at hp
        rw [hB, wrapInt_wrapInt_sub]
        congr 1
        omega
      · rw [Function.update_noteq hck]
        have : ¬ (((c0 : Nat) : Int) = ((c : Nat) : Int)) :=
          fun hh => hck (natCast_fin_inj.mp hh).symm
        simp [this] at hp
        rw [hB, hp]
    · intro x hx hxd
      rw [hq] at hx
      exact hV x (mem_of_mem_pop hx) hxd
  · have hDe : isDeparture e = false := by simp [isDeparture, hd]
    constructor
    · intro c
      have hp := backlog_pop hmem c
      rw [hDe] at hp
      simp only [Bool.false_and, Bool.false_eq_true, if_false, add_zero] at hp
      rw [hq, hcash, hp]
      exact hB c
    · intro x hx hxd
      rw [hq] at hx
      exact hV x (mem_of_mem_pop hx) hxd

/-- No pass of the grocery loop that runs to its end increases the sum of the absolute
durations of the scheduler. -/
theorem GrocerySim.absDurations_step (SIM_LENGTH : Int) (tie : Nat) (s s' : GrocerySim)
    (h : s.loopBody SIM_LENGTH tie = Loop.next s') :
    absDurations s'.eventQueue ≤ absDurations s.eventQueue := by
  obtain ⟨e, ht, _, _, hc⟩ := GrocerySim.loopBody_next_cases h
  have hp := absDurations_pop (top_mem ht)
  have hn := abs_nonneg e.duration
  rcases hc with ⟨_, hq, _, _⟩ | ⟨_, hq, _, _⟩ | ⟨_, _, hq, _, _⟩
  · rw [hq, absDurations_push]
    show absDurations (pop s.eventQueue e) + |e.duration| ≤ absDurations s.eventQueue
    omega
  · rw [hq]
    omega
  · rw [hq]
    omega

/-- Under the backlog invariant no pass of the grocery loop throws. -/
theorem GrocerySim.pass_ne_thrown (SIM_LENGTH : Int) (tie : Nat) (s : GrocerySim)
    (hV : ∀ e ∈ s.eventQueue, e.event = DEPARTURE → ∃ c, atIndex e.cashier = some c) :
    s.loopBody SIM_LENGTH tie ≠ Loop.thrown := by
  intro h
  unfold GrocerySim.loopBody at h
  cases ht : top tie s.eventQueue with
  | none => rw [ht] at h; exact Loop.noConfusion h
  | some e =>
    rw [ht] at h
    replace h : s.handle SIM_LENGTH e = Loop.thrown := h
    by_cases hH : SIM_LENGTH < e.eventTime
    · rw [GrocerySim.handle_beyond s hH] at h
      exact Loop.noConfusion h
    · have hle : e.eventTime ≤ SIM_LENGTH := not_lt.mp hH
      by_cases ha : e.event = ARRIVAL
      · rw [GrocerySim.handle_arrival s hle ha] at h
        exact Loop.noConfusion h
      · by_cases hd : e.event = DEPARTURE
        · obtain ⟨c, hc⟩ := hV e (top_mem ht) hd
          rw [GrocerySim.handle_departure s hle hd hc] at h
          exact Loop.noConfusion h
        · rw [GrocerySim.handle_other s hle ha hd] at h
          exact Loop.noConfusion h

/-- The durations of the scheduled events stay non-negative. -/
theorem GrocerySim.duration_inv_step (SIM_LENGTH : Int) (tie : Nat) (s s' : GrocerySim)
    (hP : ∀ e ∈ s.eventQueue, 0 ≤ e.duration)
    (h : s.loopBody SIM_LENGTH tie = Loop.next s') :
    ∀ e ∈ s'.eventQueue, 0 ≤ e.duration := by
  obtain ⟨e, ht, _, _, hc⟩ := GrocerySim.loopBody_next_cases h
  have hmem : e ∈ s.eventQueue := top_mem ht
  intro x hx
  rcases hc with ⟨_, hq, _, _⟩ | ⟨_, hq, _, _⟩ | ⟨_, _, hq, _, _⟩
  · rw [hq] at hx
    rcases List.mem_append.mp hx with hm | hm
    · exact hP x (mem_of_mem_pop hm)
    · rw [List.mem_singleton] at hm
      subst hm
      exact hP e hmem
  · rw [hq] at hx
    exact hP x (mem_of_mem_pop hx)
  · rw [hq] at hx
    exact hP x (mem_of_mem_pop hx)

theorem backlog_nonneg {q : List Event} (hq : ∀ e ∈ q, 0 ≤ e.duration) (c : Fin 6) :
    0 ≤ backlog q c := by
  unfold backlog
  apply List.sum_nonneg
  intro x hx
  obtain ⟨e, he, rfl⟩ := List.mem_map.mp hx
  exact hq e (List.mem_of_mem_filter he)

theorem backlog_of_arrivals {q : List Event} (hq : ∀ e ∈ q, e.event = ARRIVAL) (c : Fin 6) :
    backlog q c = 0 := by
  have hne : ARRIVAL ≠ DEPARTURE := by decide
  have : q.filter (fun e => isDeparture e && decide (e.cashier = ((c : Nat) : Int))) = [] := by
    rw [List.filter_eq_nil_iff]
    intro e he
    simp [isDeparture, hq e he, hne]
  unfold backlog
  rw [this]
  rfl

/-- C18 as stated fails: seven Arrivals of duration 1073741824 at times 0..6, all cashiers at
0, horizon 43200 (all durations are non-negative).  The first six Arrivals go to the cashiers
0..5 and their Departures lie beyond the horizon; the seventh goes to cashier 0, whose entry
becomes the `int` sum `1073741824 + 1073741824 = -2147483648`, while the durations of the two
scheduled Departures of cashier 0 add up to 2147483648: after the seventh pass `cashiers[0]`
differs from that sum and is negative. -/
theorem grocery_backlog_wraps :
    (∀ e ∈ ([⟨0, 0, 1073741824, ARRIVAL, 0, 0⟩, ⟨1, 1, 1073741824, ARRIVAL, 0, 0⟩,
        ⟨2, 2, 1073741824, ARRIVAL, 0, 0⟩, ⟨3, 3, 1073741824, ARRIVAL, 0, 0⟩,
        ⟨4, 4, 1073741824, ARRIVAL, 0, 0⟩, ⟨5, 5, 1073741824, ARRIVAL, 0, 0⟩,
        ⟨6, 6, 1073741824, ARRIVAL, 0, 0⟩] : List Event), e.event = ARRIVAL ∧ 0 ≤ e.duration)
    ∧ ∃ s', iterate (GrocerySim.loopBody 43200) (fun _ => 0) 7
        ⟨[⟨0, 0, 1073741824, ARRIVAL, 0, 0⟩, ⟨1, 1, 1073741824, ARRIVAL, 0, 0⟩,
          ⟨2, 2, 1073741824, ARRIVAL, 0, 0⟩, ⟨3, 3, 1073741824, ARRIVAL, 0, 0⟩,
          ⟨4, 4, 1073741824, ARRIVAL, 0, 0⟩, ⟨5, 5, 1073741824, ARRIVAL, 0, 0⟩,
          ⟨6, 6, 1073741824, ARRIVAL, 0, 0⟩], fun _ => 0, 0, []⟩ = Loop.next s'
      ∧ s'.cashiers 0 = -2147483648
      ∧ backlog s'.eventQueue 0 = 2147483648
      ∧ s'.cashiers 0 ≠ backlog s'.eventQueue 0
      ∧ ¬ (0 ≤ s'.cashiers 0) :=
  ⟨by decide, _, rfl, rfl, rfl, (by decide : (-2147483648 : Int) ≠ 2147483648),
    (by decide : ¬ ((0 : Int) ≤ -2147483648))⟩

/-- C18, amended: in a run of `GrocerySim::runSim` started with all cashiers at 0 and a
scheduler holding only Arrival events, no pass throws (the Departure case never indexes
`cashiers` outside `0..5`), and after every pass of the loop, and in the state in which the
loop is left, for every server index `c` the entry `cashiers[c]` is the `int` value
(`wrapInt`) of the sum of the durations of the Departure events in the scheduler whose
`cashier` field is `c`, and every such Departure has its `cashier` field in `0..5`.  If the
absolute values of the durations of the initial events add up to at most 2147483647, then
`cashiers[c]` equals that sum, and `cashiers[c] ≥ 0` when all durations are non-negative. -/
theorem grocery_backlog_invariant (SIM_LENGTH : Int) (ties : Nat → Nat) (s : GrocerySim)
    (hc : ∀ c, s.cashiers c = 0) (hq : ∀ e ∈ s.eventQueue, e.event = ARRIVAL) (n : Nat) :
    iterate (GrocerySim.loopBody SIM_LENGTH) ties n s ≠ Loop.thrown
    ∧ ∀ s', (iterate (GrocerySim.loopBody SIM_LENGTH) ties n s = Loop.next s'
        ∨ iterate (GrocerySim.loopBody SIM_LENGTH) ties n s = Loop.stop s') →
      (∀ c, s'.cashiers c = wrapInt (backlog s'.eventQueue c))
      ∧ (∀ e ∈ s'.eventQueue, e.event = DEPARTURE → 0 ≤ e.cashier ∧ e.cashier < 6)
      ∧ (absDurations s.eventQueue ≤ 2147483647 →
          (∀ c, s'.cashiers c = backlog s'.eventQueue c)
          ∧ ((∀ e ∈ s.eventQueue, 0 ≤ e.duration) → ∀ c, 0 ≤ s'.cashiers c)) := by
  have hne : ARRIVAL ≠ DEPARTURE := by decide
  have h0 : (∀ c, s.cashiers c = wrapInt (backlog s.eventQueue c))
      ∧ (∀ e ∈ s.eventQueue, e.event = DEPARTURE → ∃ c, atIndex e.cashier = some c) :=
    ⟨fun c => by rw [hc c, backlog_of_arrivals hq c]; rfl,
      fun e he hd => absurd ((hq e he).symm.trans hd) hne⟩
  constructor
  · exact iterate_ne_thrown_of_inv
      (fun a : GrocerySim => (∀ c, a.cashiers c = wrapInt (backlog a.eventQueue c))
        ∧ (∀ e ∈ a.eventQueue, e.event = DEPARTURE → ∃ c, atIndex e.cashier = some c))
      (fun tie a b hP hb => GrocerySim.backlog_inv_step SIM_LENGTH tie a b hP hb)
      (fun tie a hP => GrocerySim.pass_ne_thrown SIM_LENGTH tie a hP.2) n ties s h0
  · intro s' h
    have hinv : (∀ c, s'.cashiers c = wrapInt (backlog s'.eventQueue c))
        ∧ (∀ e ∈ s'.eventQueue, e.event = DEPARTURE → ∃ c, atIndex e.cashier = some c) := by
      rcases h with h | h
      · exact iterate_next_of_inv
          (fun a : GrocerySim => (∀ c, a.cashiers c = wrapInt (backlog a.eventQueue c))
            ∧ (∀ e ∈ a.eventQueue, e.event = DEPARTURE → ∃ c, atIndex e.cashier = some c))
          (fun tie a b hP hb => GrocerySim.backlog_inv_step SIM_LENGTH tie a b hP hb)
          n ties s s' h0 h
      · refine iterate_stop_of_inv
          (fun a : GrocerySim => (∀ c, a.cashiers c = wrapInt (backlog a.eventQueue c))
            ∧ (∀ e ∈ a.eventQueue, e.event = DEPARTURE → ∃ c, atIndex e.cashier = some c))
          (fun a : GrocerySim => (∀ c, a.cashiers c = wrapInt (backlog a.eventQueue c))
            ∧ (∀ e ∈ a.eventQueue, e.event = DEPARTURE → ∃ c, atIndex e.cashier = some c))
          (fun tie a b hP hb => GrocerySim.backlog_inv_step SIM_LENGTH tie a b hP hb) ?_
          n ties s s' h0 h
        intro tie a b hP hb
        obtain ⟨hq', hc', _⟩ := GrocerySim.pass_stop hb
        show (∀ c, b.cashiers c = wrapInt (backlog b.eventQueue c))
          ∧ (∀ e ∈ b.eventQueue, e.event = DEPARTURE → ∃ c, atIndex e.cashier = some c)
        rw [hq', hc']
        exact hP
    have hsize : absDurations s'.eventQueue ≤ absDurations s.eventQueue := by
      rcases h with h | h
      · exact iterate_next_of_inv
          (fun a : GrocerySim => absDurations a.eventQueue ≤ absDurations s.eventQueue)
          (fun tie a b hP hb =>
            le_trans (GrocerySim.absDurations_step SIM_LENGTH tie a b hb) hP)
          n ties s s' (le_refl _) h
      · refine iterate_stop_of_inv
          (fun a : GrocerySim => absDurations a.eventQueue ≤ absDurations s.eventQueue)
          (fun a : GrocerySim => absDurations a.eventQueue ≤ absDurations s.eventQueue)
          (fun tie a b hP hb =>
            le_trans (GrocerySim.absDurations_step SIM_LENGTH tie a b hb) hP) ?_
          n ties s s' (le_refl _) h
        intro tie a b hP hb
        obtain ⟨hq', _⟩ := GrocerySim.pass_stop hb
        show absDurations b.eventQueue ≤ absDurations s.eventQueue
        rw [hq']
        exact hP
    refine ⟨hinv.1, ?_, ?_⟩
    · intro e he hd
      obtain ⟨c, hcv⟩ := hinv.2 e he hd
      have hk := atIndex_eq_some hcv
      have := c.isLt
      omega
    · intro hbound
      have heq : ∀ c, s'.cashiers c = backlog s'.eventQueue c := by
        intro c
        have hb := abs_le.mp (abs_backlog_le s'.eventQueue c)
        rw [hinv.1 c]
        exact wrapInt_of_range (by omega) (by omega)
      refine ⟨heq, ?_⟩
      intro hdur c
      have hd' : ∀ e ∈ s'.eventQueue, 0 ≤ e.duration := by
        rcases h with h | h
        · exact iterate_next_of_inv (fun a : GrocerySim => ∀ e ∈ a.eventQueue, 0 ≤ e.duration)
            (fun tie a b hP hb => GrocerySim.duration_inv_step SIM_LENGTH tie a b hP hb)
            n ties s s' hdur h
        · refine iterate_stop_of_inv
            (fun a : GrocerySim => ∀ e ∈ a.eventQueue, 0 ≤ e.duration)
            (fun a : GrocerySim => ∀ e ∈ a.eventQueue, 0 ≤ e.duration)
            (fun tie a b hP hb => GrocerySim.duration_inv_step SIM_LENGTH tie a b hP hb) ?_
            n ties s s' hdur h
          intro tie a b hP hb
          obtain ⟨hq', _⟩ := GrocerySim.pass_stop hb
          show ∀ e ∈ b.eventQueue, 0 ≤ e.duration
          rw [hq']
          exact hP
      rw [heq c]
      exact backlog_nonneg hd' c

/-- C18 for two Arrivals at time 0 with durations 5 and 7 under horizon 43200, after two
passes (cashier 0 carries 5, cashier 1 carries 7): the durations add up to 12, so every
`cashiers[c]` equals the sum of the scheduled Departures of cashier `c` and is not
negative. -/
theorem grocery_backlog_invariant_witness :
    iterate (GrocerySim.loopBody 43200) (fun _ => 0) 2
        ⟨[⟨0, 0, 5, ARRIVAL, 0, 0⟩, ⟨1, 0, 7, ARRIVAL, 0, 0⟩], fun _ => 0, 0, []⟩
      ≠ Loop.thrown
    ∧ absDurations [⟨0, 0, 5, ARRIVAL, 0, 0⟩, ⟨1, 0, 7, ARRIVAL, 0, 0⟩] ≤ 2147483647
    ∧ ∀ s', (iterate (GrocerySim.loopBody 43200) (fun _ => 0) 2
          ⟨[⟨0, 0, 5, ARRIVAL, 0, 0⟩, ⟨1, 0, 7, ARRIVAL, 0, 0⟩], fun _ => 0, 0, []⟩
          = Loop.next s'
        ∨ iterate (GrocerySim.loopBody 43200) (fun _ => 0) 2
          ⟨[⟨0, 0, 5, ARRIVAL, 0, 0⟩, ⟨1, 0, 7, ARRIVAL, 0, 0⟩], fun _ => 0, 0, []⟩
          = Loop.stop s') →
      (∀ c, s'.cashiers c = wrapInt (backlog s'.eventQueue c))
      ∧ (∀ e ∈ s'.eventQueue, e.event = DEPARTURE → 0 ≤ e.cashier ∧ e.cashier < 6)
      ∧ (∀ c, s'.cashiers c = backlog s'.eventQueue c)
      ∧ (∀ c, 0 ≤ s'.cashiers c) :=
  have hb : absDurations [⟨0, 0, 5, ARRIVAL, 0, 0⟩, ⟨1, 0, 7, ARRIVAL, 0, 0⟩] ≤ 2147483647 := by
    simp [absDurations]
  have h := grocery_backlog_invariant 43200 (fun _ => 0)
    ⟨[⟨0, 0, 5, ARRIVAL, 0, 0⟩, ⟨1, 0, 7, ARRIVAL, 0, 0⟩], fun _ => 0, 0, []⟩
    (fun _ => rfl) (by decide) 2
  ⟨h.1, hb, fun s' hs => ⟨(h.2 s' hs).1, (h.2 s' hs).2.1, ((h.2 s' hs).2.2 hb).1,
    ((h.2 s' hs).2.2 hb).2 (by decide)⟩⟩

/-! ## C11: the clock does not run backwards -/

/-- One pass of the bank loop from a state in which no event, scheduled or waiting, has a
negative duration or a duration that carries a time within the horizon beyond the largest
`int`, and no scheduled event a negative event time: the same holds afterwards, and no event
in the scheduler after the pass, in particular no event pushed back by it, lies before the
clock, which is the event time of the event processed. -/
theorem BankSim.pass_times {SIM_LENGTH : Int} {tie : Nat} {s s' : BankSim}
    (hD : (∀ e ∈ s.eventQueue, 0 ≤ e.duration ∧ SIM_LENGTH + e.duration ≤ 2147483647)
      ∧ (∀ e ∈ s.bankQueue, 0 ≤ e.duration ∧ SIM_LENGTH + e.duration ≤ 2147483647))
    (hT : ∀ e ∈ s.eventQueue, 0 ≤ e.eventTime)
    (h : s.loopBody SIM_LENGTH tie = Loop.next s') :
    ((∀ e ∈ s'.eventQueue, 0 ≤ e.duration ∧ SIM_LENGTH + e.duration ≤ 2147483647)
      ∧ (∀ e ∈ s'.bankQueue, 0 ≤ e.duration ∧ SIM_LENGTH + e.duration ≤ 2147483647))
    ∧ (∀ e ∈ s'.eventQueue, 0 ≤ e.eventTime)
    ∧ ∃ e, top tie s.eventQueue = some e ∧ s'.currentTime = e.eventTime
      ∧ ∀ x ∈ s'.eventQueue, s'.currentTime ≤ x.eventTime := by
  obtain ⟨hDq, hDw⟩ := hD
  obtain ⟨e, ht, hh⟩ := BankSim.loopBody_next_top h
  have hmem : e ∈ s.eventQueue := top_mem ht
  have hmin := top_min ht
  have hde := hDq e hmem
  have hte := hT e hmem
  have hpopD : ∀ x ∈ pop s.eventQueue e,
      0 ≤ x.duration ∧ SIM_LENGTH + x.duration ≤ 2147483647 :=
    fun x hx => hDq x (mem_of_mem_pop hx)
  have hpopT : ∀ x ∈ pop s.eventQueue e, e.eventTime ≤ x.eventTime :=
    fun x hx => hmin x (mem_of_mem_pop hx)
  have hpush : e.eventTime ≤ SIM_LENGTH → e.eventTime ≤ wrapInt (e.eventTime + e.duration) := by
    intro hle
    rw [wrapInt_of_range (by omega) (by omega)]
    omega
  have key : ∀ r : BankSim, r.currentTime = e.eventTime →
      (∀ x ∈ r.eventQueue, r.currentTime ≤ x.eventTime) →
      (∀ x ∈ r.eventQueue, 0 ≤ x.eventTime)
        ∧ ∃ e', top tie s.eventQueue = some e' ∧ r.currentTime = e'.eventTime
          ∧ ∀ x ∈ r.eventQueue, r.currentTime ≤ x.eventTime := by
    intro r hr hx
    refine ⟨fun x hxm => ?_, e, ht, hr, hx⟩
    have := hx x hxm
    omega
  rcases BankSim.handle_cases SIM_LENGTH s e with
    ⟨_, hc⟩ | ⟨hle, _, _, hc⟩ | ⟨hle, _, _, hc⟩ | ⟨hle, _, head, rest, hq, hc⟩ |
    ⟨hle, _, hq, hc⟩ | ⟨hle, _, _, hc⟩
  · rw [hc] at hh; exact Loop.noConfusion hh
  · rw [hc] at hh
    simp only [Loop.next.injEq] at hh
    subst hh
    refine ⟨⟨?_, hDw⟩, key _ rfl ?_⟩
    · intro x hx
      rcases List.mem_append.mp hx with hm | hm
      · exact hpopD x hm
      · rw [List.mem_singleton] at hm
        subst hm
        exact hde
    · intro x hx
      rcases List.mem_append.mp hx with hm | hm
      · exact hpopT x hm
      · rw [List.mem_singleton] at hm
        subst hm
        exact hpush hle
  · rw [hc] at hh
    simp only [Loop.next.injEq] at hh
    subst hh
    refine ⟨⟨hpopD, ?_⟩, key _ rfl hpopT⟩
    intro x hx
    rcases List.mem_append.mp hx with hm | hm
    · exact hDw x hm
    · rw [List.mem_singleton] at hm
      subst hm
      exact hde
  · rw [hc] at hh
    simp only [Loop.next.injEq] at hh
    subst hh
    have hhead := hDw head (by rw [hq]; exact List.mem_cons_self _ _)
    refine ⟨⟨?_, ?_⟩, key _ rfl ?_⟩
    · intro x hx
      rcases List.mem_append.mp hx with hm | hm
      · exact hpopD x hm
      · rw [List.mem_singleton] at hm
        subst hm
        exact hhead
    · intro x hx
      exact hDw x (by rw [hq]; exact List.mem_cons_of_mem _ hx)
    · intro x hx
      rcases List.mem_append.mp hx with hm | hm
      · exact hpopT x hm
      · rw [List.mem_singleton] at hm
        subst hm
        exact hpush hle
  · rw [hc] at hh
    simp only [Loop.next.injEq] at hh
    subst hh
    exact ⟨⟨hpopD, fun x hx => absurd hx (List.not_mem_nil x)⟩, key _ rfl hpopT⟩
  · rw [hc] at hh
    simp only [Loop.next.injEq] at hh
    subst hh
    exact ⟨⟨hpopD, hDw⟩, key _ rfl hpopT⟩

/-- The event times of the events that the bank loop processes are in non-decreasing order,
starting from any lower bound of the event times in the scheduler. -/
theorem BankSim.processed_chain (SIM_LENGTH : Int) :
    ∀ (n : Nat) (ties : Nat → Nat) (s : BankSim) (t : Int),
      ((∀ e ∈ s.eventQueue, 0 ≤ e.duration ∧ SIM_LENGTH + e.duration ≤ 2147483647)
        ∧ (∀ e ∈ s.bankQueue, 0 ≤ e.duration ∧ SIM_LENGTH + e.duration ≤ 2147483647)) →
      (∀ e ∈ s.eventQueue, 0 ≤ e.eventTime) →
      (∀ e ∈ s.eventQueue, t ≤ e.eventTime) →
      List.Chain (fun a b : Int => a ≤ b) t
        ((BankSim.processed SIM_LENGTH ties n s).map (fun e => e.eventTime)) := by
  intro n
  induction n with
  | zero =>
    intro ties s t _ _ _
    simp [BankSim.processed]
  | succ n ih =>
    intro ties s t hD hT ht
    cases hb : BankSim.loopBody SIM_LENGTH (ties 0) s with
    | thrown => exact absurd hb (BankSim.loopBody_ne_thrown _ _ _)
    | stop s' =>
      rw [BankSim.processed_succ_stop n hb]
      exact List.Chain.nil
    | next s' =>
      obtain ⟨hD', hT', e, hte, hclock, hq'⟩ := BankSim.pass_times hD hT hb
      rw [BankSim.processed_of_next n hte hb, List.map_cons]
      refine List.Chain.cons (ht e (top_mem hte)) (ih _ s' e.eventTime hD' hT' ?_)
      intro x hx
      rw [← hclock]
      exact hq' x hx

/-- After at least one pass of the bank loop no event in the scheduler lies before the
clock. -/
theorem BankSim.scheduler_after_clock (SIM_LENGTH : Int) :
    ∀ (n : Nat) (ties : Nat → Nat) (s s' : BankSim),
      ((∀ e ∈ s.eventQueue, 0 ≤ e.duration ∧ SIM_LENGTH + e.duration ≤ 2147483647)
        ∧ (∀ e ∈ s.bankQueue, 0 ≤ e.duration ∧ SIM_LENGTH + e.duration ≤ 2147483647)) →
      (∀ e ∈ s.eventQueue, 0 ≤ e.eventTime) →
      iterate (BankSim.loopBody SIM_LENGTH) ties (n + 1) s = Loop.next s' →
      ∀ x ∈ s'.eventQueue, s'.currentTime ≤ x.eventTime := by
  intro n
  induction n with
  | zero =>
    intro ties s s' hD hT h
    cases hb : BankSim.loopBody SIM_LENGTH (ties 0) s with
    | thrown => exact absurd hb (BankSim.loopBody_ne_thrown _ _ _)
    | stop r => rw [iterate_succ_stop 0 hb] at h; exact Loop.noConfusion h
    | next s1 =>
      rw [iterate_succ_next 0 hb] at h
      simp only [iterate, Loop.next.injEq] at h
      subst h
      obtain ⟨_, _, e, _, _, hq'⟩ := BankSim.pass_times hD hT hb
      exact hq'
  | succ n ih =>
    intro ties s s' hD hT h
    cases hb : BankSim.loopBody SIM_LENGTH (ties 0) s with
    | thrown => exact absurd hb (BankSim.loopBody_ne_thrown _ _ _)
    | stop r => rw [iterate_succ_stop (n + 1) hb] at h; exact Loop.noConfusion h
    | next s1 =>
      rw [iterate_succ_next (n + 1) hb] at h
      obtain ⟨hD', hT', _⟩ := BankSim.pass_times hD hT hb
      exact ih _ s1 s' hD' hT' h

/-- One pass of the grocery loop from a state with the backlog invariant, without negative
durations or event times, and in which the horizon and the durations of the scheduler
together do not exceed the largest `int`: all of this is kept, and no event in the scheduler
after the pass lies before the clock. -/
theorem GrocerySim.pass_clock {SIM_LENGTH : Int} {tie : Nat} {s s' : GrocerySim}
    (hI : (∀ c, s.cashiers c = wrapInt (backlog s.eventQueue c))
      ∧ (∀ e ∈ s.eventQueue, e.event = DEPARTURE → ∃ c, atIndex e.cashier = some c))
    (hD : ∀ e ∈ s.eventQueue, 0 ≤ e.duration)
    (hT : ∀ e ∈ s.eventQueue, 0 ≤ e.eventTime)
    (hA : SIM_LENGTH + absDurations s.eventQueue ≤ 2147483647)
    (h : s.loopBody SIM_LENGTH tie = Loop.next s') :
    ((∀ c, s'.cashiers c = wrapInt (backlog s'.eventQueue c))
      ∧ (∀ e ∈ s'.eventQueue, e.event = DEPARTURE → ∃ c, atIndex e.cashier = some c))
    ∧ (∀ e ∈ s'.eventQueue, 0 ≤ e.duration)
    ∧ (∀ e ∈ s'.eventQueue, 0 ≤ e.eventTime)
    ∧ SIM_LENGTH + absDurations s'.eventQueue ≤ 2147483647
    ∧ ∃ e, top tie s.eventQueue = some e ∧ s'.currentTime = e.eventTime
      ∧ ∀ x ∈ s'.eventQueue, s'.currentTime ≤ x.eventTime := by
  have hstepA := GrocerySim.absDurations_step SIM_LENGTH tie s s' h
  obtain ⟨e, ht, hle, hclock, hc⟩ := GrocerySim.loopBody_next_cases h
  have hmem : e ∈ s.eventQueue := top_mem ht
  have hmin := top_min ht
  have hte := hT e hmem
  have hclk : ∀ x ∈ s'.eventQueue, s'.currentTime ≤ x.eventTime := by
    intro x hx
    rw [hclock]
    rcases hc with ⟨ha, hq, _, _⟩ | ⟨_, hq, _, _⟩ | ⟨_, _, hq, _, _⟩
    · rw [hq] at hx
      rcases List.mem_append.mp hx with hm | hm
      · exact hmin x (mem_of_mem_pop hm)
      · rw [List.mem_singleton] at hm
        subst hm
        have hne : ARRIVAL ≠ DEPARTURE := by decide
        have hDe : isDeparture e = false := by simp [isDeparture, ha, hne]
        have hp := backlog_pop hmem (GrocerySim.chooseShortestLine s.cashiers)
        rw [hDe] at hp
        simp only [Bool.false_and, Bool.false_eq_true, if_false, add_zero] at hp
        have h1 := backlog_nonneg hD (GrocerySim.chooseShortestLine s.cashiers)
        have h2 := hD e hmem
        have h3 := abs_le.mp
          (abs_backlog_le (pop s.eventQueue e) (GrocerySim.chooseShortestLine s.cashiers))
        have h4 := absDurations_pop hmem
        have h5 := le_abs_self e.duration
        have h6 : s.cashiers (GrocerySim.chooseShortestLine s.cashiers)
            = backlog s.eventQueue (GrocerySim.chooseShortestLine s.cashiers) := by
          rw [hI.1]
          exact wrapInt_of_range (by omega) (by omega)
        show e.eventTime ≤ wrapInt (e.eventTime
          + wrapInt (s.cashiers (GrocerySim.chooseShortestLine s.cashiers) + e.duration))
        have h7 : wrapInt (backlog s.eventQueue (GrocerySim.chooseShortestLine s.cashiers)
            + e.duration)
            = backlog s.eventQueue (GrocerySim.chooseShortestLine s.cashiers) + e.duration :=
          wrapInt_of_range (by omega) (by omega)
        rw [h6, h7, wrapInt_of_range (by omega) (by omega)]
        omega
    · rw [hq] at hx
      exact hmin x (mem_of_mem_pop hx)
    · rw [hq] at hx
      exact hmin x (mem_of_mem_pop hx)
  refine ⟨GrocerySim.backlog_inv_step SIM_LENGTH tie s s' hI h,
    GrocerySim.duration_inv_step SIM_LENGTH tie s s' hD h, ?_, by omega, e, ht, hclock, hclk⟩
  intro x hx
  have := hclk x hx
  omega

theorem GrocerySim.processed_times_chain (SIM_LENGTH : Int) :
    ∀ (n : Nat) (ties : Nat → Nat) (s : GrocerySim) (t : Int),
      ((∀ c, s.cashiers c = wrapInt (backlog s.eventQueue c))
        ∧ (∀ e ∈ s.eventQueue, e.event = DEPARTURE → ∃ c, atIndex e.cashier = some c)) →
      (∀ e ∈ s.eventQueue, 0 ≤ e.duration) →
      (∀ e ∈ s.eventQueue, 0 ≤ e.eventTime) →
      SIM_LENGTH + absDurations s.eventQueue ≤ 2147483647 →
      (∀ e ∈ s.eventQueue, t ≤ e.eventTime) →
      List.Chain (fun a b : Int => a ≤ b) t
        ((GrocerySim.processed SIM_LENGTH ties n s).map (fun e => e.eventTime)) := by
  intro n
  induction n with
  | zero =>
    intro ties s t _ _ _ _ _
    simp [GrocerySim.processed]
  | succ n ih =>
    intro ties s t hI hD hT hA ht
    cases hb : GrocerySim.loopBody SIM_LENGTH (ties 0) s with
    | thrown =>
      rw [GrocerySim.processed_of_thrown n hb]
      exact List.Chain.nil
    | stop s' =>
      rw [GrocerySim.processed_of_stop n hb]
      exact List.Chain.nil
    | next s' =>
      obtain ⟨hI', hD', hT', hA', e, hte, hclock, hq'⟩ := GrocerySim.pass_clock hI hD hT hA hb
      rw [GrocerySim.processed_cons n hte hb, List.map_cons]
      refine List.Chain.cons (ht e (top_mem hte)) (ih _ s' e.eventTime hI' hD' hT' hA' ?_)
      intro x hx
      rw [← hclock]
      exact hq' x hx

theorem GrocerySim.queue_after_clock (SIM_LENGTH : Int) :
    ∀ (n : Nat) (ties : Nat → Nat) (s s' : GrocerySim),
      ((∀ c, s.cashiers c = wrapInt (backlog s.eventQueue c))
        ∧ (∀ e ∈ s.eventQueue, e.event = DEPARTURE → ∃ c, atIndex e.cashier = some c)) →
      (∀ e ∈ s.eventQueue, 0 ≤ e.duration) →
      (∀ e ∈ s.eventQueue, 0 ≤ e.eventTime) →
      SIM_LENGTH + absDurations s.eventQueue ≤ 2147483647 →
      iterate (GrocerySim.loopBody SIM_LENGTH) ties (n + 1) s = Loop.next s' →
      ∀ x ∈ s'.eventQueue, s'.currentTime ≤ x.eventTime := by
  intro n
  induction n with
  | zero =>
    intro ties s s' hI hD hT hA h
    cases hb : GrocerySim.loopBody SIM_LENGTH (ties 0) s with
    | thrown =>
      simp only [iterate, hb] at h
      exact Loop.noConfusion h
    | stop r => rw [iterate_succ_stop 0 hb] at h; exact Loop.noConfusion h
    | next s1 =>
      rw [iterate_succ_next 0 hb] at h
      simp only [iterate, Loop.next.injEq] at h
      subst h
      obtain ⟨_, _, _, _, e, _, _, hq'⟩ := GrocerySim.pass_clock hI hD hT hA hb
      exact hq'
  | succ n ih =>
    intro ties s s' hI hD hT hA h
    cases hb : GrocerySim.loopBody SIM_LENGTH (ties 0) s with
    | thrown =>
      simp only [iterate, hb] at h
      exact Loop.noConfusion h
    | stop r => rw [iterate_succ_stop (n + 1) hb] at h; exact Loop.noConfusion h
    | next s1 =>
      rw [iterate_succ_next (n + 1) hb] at h
      obtain ⟨hI', hD', hT', hA', _⟩ := GrocerySim.pass_clock hI hD hT hA hb
      exact ih _ s1 s' hI' hD' hT' hA' h

/-- C11 as stated fails, in both engines, at the horizon 43200 of `main.cpp`: one Arrival at
time 43200 with duration 2147483647 (event time and duration are non-negative).  The first
pass processes the Arrival at time 43200 and pushes its Departure back with the `int` sum
`43200 + 2147483647 = -2147440449` as event time, which lies before the clock; the second
pass processes that Departure, so the clock runs from 43200 back to -2147440449. -/
theorem clock_runs_backwards :
    (∀ e ∈ ([⟨0, 43200, 2147483647, ARRIVAL, 0, 0⟩] : List Event),
      e.event = ARRIVAL ∧ 0 ≤ e.eventTime ∧ 0 ≤ e.duration)
    ∧ iterate (BankSim.loopBody 43200) (fun _ => 0) 1
        ⟨[⟨0, 43200, 2147483647, ARRIVAL, 0, 0⟩], [], 0, 6, []⟩
      = Loop.next ⟨[⟨0, -2147440449, 2147483647, DEPARTURE, 2147483647, 0⟩], [], 43200, 5, []⟩
    ∧ iterate (BankSim.loopBody 43200) (fun _ => 0) 2
        ⟨[⟨0, 43200, 2147483647, ARRIVAL, 0, 0⟩], [], 0, 6, []⟩
      = Loop.next ⟨[], [], -2147440449, 6, [2147483647]⟩
    ∧ (BankSim.processed 43200 (fun _ => 0) 2
        ⟨[⟨0, 43200, 2147483647, ARRIVAL, 0, 0⟩], [], 0, 6, []⟩).map (fun e => e.eventTime)
      = [43200, -2147440449]
    ∧ (GrocerySim.processed 43200 (fun _ => 0) 2
        ⟨[⟨0, 43200, 2147483647, ARRIVAL, 0, 0⟩], fun _ => 0, 0, []⟩).map
          (fun e => e.eventTime)
      = [43200, -2147440449]
    ∧ ¬ List.Chain (fun t u : Int => t ≤ u) 0 [43200, -2147440449] := by
  refine ⟨by decide, by decide, by decide, by decide, by decide, ?_⟩
  intro h
  cases h with
  | cons _ h2 =>
    cases h2 with
    | cons h3 _ => exact absurd h3 (by decide)

/-- C11, amended: in both engines the clock does not run backwards as long as no event time
computed by the run exceeds the largest `int`.  For the bank: an initial scheduler of Arrival
events with non-negative event times and durations (and no customer of negative duration in
the wait line, which is empty for a new `BankSim`), where for every event, scheduled or
waiting, `SIM_LENGTH + duration` is at most 2147483647; for the grocery: Arrival events with
non-negative event times and durations, all cashiers at 0, and `SIM_LENGTH` plus the sum of
all durations at most 2147483647.  For every way of breaking ties the event times of the
events processed, in the order of the passes, form a non-decreasing sequence starting at or
above 0; after every pass no event in the scheduler, in particular no event pushed back by
the pass, has an `eventTime` below `currentTime`; and a pass that leaves the loop does not set
the clock back. -/
theorem clock_monotone (SIM_LENGTH : Int) (ties : Nat → Nat) (b : BankSim) (g : GrocerySim)
    (hb : ∀ e ∈ b.eventQueue, e.event = ARRIVAL ∧ 0 ≤ e.eventTime ∧ 0 ≤ e.duration)
    (hw : ∀ e ∈ b.bankQueue, 0 ≤ e.duration)
    (hbmax : ∀ e ∈ b.eventQueue ++ b.bankQueue, SIM_LENGTH + e.duration ≤ 2147483647)
    (hg : ∀ e ∈ g.eventQueue, e.event = ARRIVAL ∧ 0 ≤ e.eventTime ∧ 0 ≤ e.duration)
    (hc : ∀ c, g.cashiers c = 0)
    (hgmax : SIM_LENGTH + absDurations g.eventQueue ≤ 2147483647) (n : Nat) :
    (List.Chain (fun t u : Int => t ≤ u) 0
        ((BankSim.processed SIM_LENGTH ties n b).map (fun e => e.eventTime))
      ∧ (∀ s', iterate (BankSim.loopBody SIM_LENGTH) ties (n + 1) b = Loop.next s' →
          (∀ x ∈ s'.eventQueue, s'.currentTime ≤ x.eventTime)
          ∧ ∀ tie r, BankSim.loopBody SIM_LENGTH tie s' = Loop.stop r →
              s'.currentTime ≤ r.currentTime))
    ∧ (List.Chain (fun t u : Int => t ≤ u) 0
        ((GrocerySim.processed SIM_LENGTH ties n g).map (fun e => e.eventTime))
      ∧ (∀ s', iterate (GrocerySim.loopBody SIM_LENGTH) ties (n + 1) g = Loop.next s' →
          (∀ x ∈ s'.eventQueue, s'.currentTime ≤ x.eventTime)
          ∧ ∀ tie r, GrocerySim.loopBody SIM_LENGTH tie s' = Loop.stop r →
              s'.currentTime ≤ r.currentTime)) := by
  have hne : ARRIVAL ≠ DEPARTURE := by decide
  have hbD : (∀ e ∈ b.eventQueue, 0 ≤ e.duration ∧ SIM_LENGTH + e.duration ≤ 2147483647)
      ∧ (∀ e ∈ b.bankQueue, 0 ≤ e.duration ∧ SIM_LENGTH + e.duration ≤ 2147483647) :=
    ⟨fun e he => ⟨(hb e he).2.2, hbmax e (List.mem_append_left _ he)⟩,
      fun e he => ⟨hw e he, hbmax e (List.mem_append_right _ he)⟩⟩
  have hbT : ∀ e ∈ b.eventQueue, 0 ≤ e.eventTime := fun e he => (hb e he).2.1
  have hgI : (∀ c, g.cashiers c = wrapInt (backlog g.eventQueue c))
      ∧ (∀ e ∈ g.eventQueue, e.event = DEPARTURE → ∃ c, atIndex e.cashier = some c) :=
    ⟨fun c => by rw [hc c, backlog_of_arrivals (fun e he => (hg e he).1) c]; rfl,
      fun e he hd => absurd ((hg e he).1.symm.trans hd) hne⟩
  have hgD : ∀ e ∈ g.eventQueue, 0 ≤ e.duration := fun e he => (hg e he).2.2
  have hgT : ∀ e ∈ g.eventQueue, 0 ≤ e.eventTime := fun e he => (hg e he).2.1
  refine ⟨⟨BankSim.processed_chain SIM_LENGTH n ties b 0 hbD hbT hbT, ?_⟩,
    ⟨GrocerySim.processed_times_chain SIM_LENGTH n ties g 0 hgI hgD hgT hgmax hgT, ?_⟩⟩
  · intro s' h
    have hq := BankSim.scheduler_after_clock SIM_LENGTH n ties b s' hbD hbT h
    refine ⟨hq, ?_⟩
    intro tie r hr
    by_cases hnil : s'.eventQueue = []
    · rw [BankSim.loopBody_of_nil SIM_LENGTH tie hnil] at hr
      simp only [Loop.stop.injEq] at hr
      subst hr
      exact le_refl _
    · obtain ⟨_, _, _, _, hcase⟩ := BankSim.loopBody_stop hr
      rcases hcase with h0 | ⟨e, hte, _, hclock⟩
      · exact absurd h0 hnil
      · rw [hclock]
        exact hq e (top_mem hte)
  · intro s' h
    have hq := GrocerySim.queue_after_clock SIM_LENGTH n ties g s' hgI hgD hgT hgmax h
    refine ⟨hq, ?_⟩
    intro tie r hr
    by_cases hnil : s'.eventQueue = []
    · rw [GrocerySim.pass_of_nil SIM_LENGTH tie hnil] at hr
      simp only [Loop.stop.injEq] at hr
      subst hr
      exact le_refl _
    · obtain ⟨_, _, _, hcase⟩ := GrocerySim.pass_stop hr
      rcases hcase with h0 | ⟨e, hte, _, hclock⟩
      · exact absurd h0 hnil
      · rw [hclock]
        exact hq e (top_mem hte)

/-- C11 for the three arrivals of the single-teller scenario (one teller) and for
two arrivals in the grocery model, horizon 100 in both, over three and four passes. -/
theorem clock_monotone_witness :
    (List.Chain (fun t u : Int => t ≤ u) 0
        ((BankSim.processed 100 (fun _ => 0) 3
          ⟨[⟨0, 0, 10, ARRIVAL, 0, 0⟩, ⟨1, 1, 10, ARRIVAL, 0, 0⟩, ⟨2, 2, 10, ARRIVAL, 0, 0⟩],
            [], 0, 1, []⟩).map (fun e => e.eventTime))
      ∧ (∀ s', iterate (BankSim.loopBody 100) (fun _ => 0) (3 + 1)
            ⟨[⟨0, 0, 10, ARRIVAL, 0, 0⟩, ⟨1, 1, 10, ARRIVAL, 0, 0⟩, ⟨2, 2, 10, ARRIVAL, 0, 0⟩],
              [], 0, 1, []⟩ = Loop.next s' →
          (∀ x ∈ s'.eventQueue, s'.currentTime ≤ x.eventTime)
          ∧ ∀ tie r, BankSim.loopBody 100 tie s' = Loop.stop r →
              s'.currentTime ≤ r.currentTime))
    ∧ (List.Chain (fun t u : Int => t ≤ u) 0
        ((GrocerySim.processed 100 (fun _ => 0) 3
          ⟨[⟨0, 0, 5, ARRIVAL, 0, 0⟩, ⟨1, 3, 7, ARRIVAL, 0, 0⟩], fun _ => 0, 0, []⟩).map
            (fun e => e.eventTime))
      ∧ (∀ s', iterate (GrocerySim.loopBody 100) (fun _ => 0) (3 + 1)
            ⟨[⟨0, 0, 5, ARRIVAL, 0, 0⟩, ⟨1, 3, 7, ARRIVAL, 0, 0⟩], fun _ => 0, 0, []⟩
            = Loop.next s' →
          (∀ x ∈ s'.eventQueue, s'.currentTime ≤ x.eventTime)
          ∧ ∀ tie r, GrocerySim.loopBody 100 tie s' = Loop.stop r →
              s'.currentTime ≤ r.currentTime)) :=
  clock_monotone 100 (fun _ => 0)
    ⟨[⟨0, 0, 10, ARRIVAL, 0, 0⟩, ⟨1, 1, 10, ARRIVAL, 0, 0⟩, ⟨2, 2, 10, ARRIVAL, 0, 0⟩], [], 0,
      1, []⟩
    ⟨[⟨0, 0, 5, ARRIVAL, 0, 0⟩, ⟨1, 3, 7, ARRIVAL, 0, 0⟩], fun _ => 0, 0, []⟩
    (by decide) (by decide) (by decide) (by decide) (fun _ => rfl) (by simp [absDurations]) 3

/-! ## C12: the horizon -/

theorem BankSim.processed_within (SIM_LENGTH : Int) :
    ∀ (n : Nat) (ties : Nat → Nat) (s : BankSim),
      ∀ e ∈ BankSim.processed SIM_LENGTH ties n s, e.eventTime ≤ SIM_LENGTH := by
  intro n
  induction n with
  | zero =>
    intro ties s e he
    simp [BankSim.processed] at he
  | succ n ih =>
    intro ties s e he
    cases hb : BankSim.loopBody SIM_LENGTH (ties 0) s with
    | thrown => exact absurd hb (BankSim.loopBody_ne_thrown _ _ _)
    | stop s' =>
      rw [BankSim.processed_succ_stop n hb] at he
      exact absurd he (List.not_mem_nil e)
    | next s' =>
      obtain ⟨x, htx, hle, _, _⟩ := BankSim.loopBody_next_counts hb
      rw [BankSim.processed_of_next n htx hb] at he
      rcases List.mem_cons.mp he with rfl | hm
      · exact hle
      · exact ih _ s' e hm

theorem GrocerySim.processed_in_horizon (SIM_LENGTH : Int) :
    ∀ (n : Nat) (ties : Nat → Nat) (s : GrocerySim),
      ∀ e ∈ GrocerySim.processed SIM_LENGTH ties n s, e.eventTime ≤ SIM_LENGTH := by
  intro n
  induction n with
  | zero =>
    intro ties s e he
    simp [GrocerySim.processed] at he
  | succ n ih =>
    intro ties s e he
    cases hb : GrocerySim.loopBody SIM_LENGTH (ties 0) s with
    | thrown =>
      rw [GrocerySim.processed_of_thrown n hb] at he
      exact absurd he (List.not_mem_nil e)
    | stop s' =>
      rw [GrocerySim.processed_of_stop n hb] at he
      exact absurd he (List.not_mem_nil e)
    | next s' =>
      obtain ⟨x, htx, hle, _, _⟩ := GrocerySim.loopBody_next_cases hb
      rw [GrocerySim.processed_cons n htx hb] at he
      rcases List.mem_cons.mp he with rfl | hm
      · exact hle
      · exact ih _ s' e hm

/-- An event within the horizon is processed by the bank loop: the pass runs to its end. -/
theorem BankSim.pass_within {SIM_LENGTH : Int} {tie : Nat} {s : BankSim} {e : Event}
    (ht : top tie s.eventQueue = some e) (hle : e.eventTime ≤ SIM_LENGTH) :
    ∃ s', s.loopBody SIM_LENGTH tie = Loop.next s' ∧ s'.currentTime = e.eventTime := by
  rw [BankSim.loopBody_of_top ht]
  rcases BankSim.handle_cases SIM_LENGTH s e with
    ⟨hH, _⟩ | ⟨_, _, _, hc⟩ | ⟨_, _, _, hc⟩ | ⟨_, _, _, _, _, hc⟩ | ⟨_, _, _, hc⟩ |
    ⟨_, _, _, hc⟩
  · omega
  all_goals exact ⟨_, hc, rfl⟩

/-- An event beyond the horizon ends the bank loop; only the clock changes. -/
theorem BankSim.pass_beyond {SIM_LENGTH : Int} {tie : Nat} {s : BankSim} {e : Event}
    (ht : top tie s.eventQueue = some e) (hH : SIM_LENGTH < e.eventTime) :
    s.loopBody SIM_LENGTH tie = Loop.stop { s with currentTime := e.eventTime } := by
  rw [BankSim.loopBody_of_top ht]
  simp [BankSim.handle, hH]

/-- When the bank loop is left the scheduler is empty or holds only events beyond the
horizon. -/
theorem BankSim.stop_scheduler {SIM_LENGTH : Int} {tie : Nat} {s r : BankSim}
    (h : s.loopBody SIM_LENGTH tie = Loop.stop r) :
    r.eventQueue = [] ∨ ∀ x ∈ r.eventQueue, SIM_LENGTH < x.eventTime := by
  obtain ⟨hq, _, _, _, hcase⟩ := BankSim.loopBody_stop h
  rw [hq]
  rcases hcase with h0 | ⟨e, hte, hH, _⟩
  · exact Or.inl h0
  · refine Or.inr ?_
    intro x hx
    have := top_min hte x hx
    omega

theorem GrocerySim.stop_queue {SIM_LENGTH : Int} {tie : Nat} {s r : GrocerySim}
    (h : s.loopBody SIM_LENGTH tie = Loop.stop r) :
    r.eventQueue = [] ∨ ∀ x ∈ r.eventQueue, SIM_LENGTH < x.eventTime := by
  obtain ⟨hq, _, _, hcase⟩ := GrocerySim.pass_stop h
  rw [hq]
  rcases hcase with h0 | ⟨e, hte, hH, _⟩
  · exact Or.inl h0
  · refine Or.inr ?_
    intro x hx
    have := top_min hte x hx
    omega

/-- An event within the horizon is not cut off by the grocery loop: the pass runs to its end,
unless the event is a Departure whose `cashier` field is no index of `cashiers`, where
`array::at` throws. -/
theorem GrocerySim.pass_in_horizon {SIM_LENGTH : Int} {tie : Nat} {s : GrocerySim} {e : Event}
    (ht : top tie s.eventQueue = some e) (hle : e.eventTime ≤ SIM_LENGTH) :
    (∃ s', s.loopBody SIM_LENGTH tie = Loop.next s' ∧ s'.currentTime = e.eventTime)
    ∨ (s.loopBody SIM_LENGTH tie = Loop.thrown ∧ e.event = DEPARTURE
        ∧ atIndex e.cashier = none) := by
  rw [GrocerySim.pass_of_top ht]
  by_cases ha : e.event = ARRIVAL
  · exact Or.inl ⟨_, GrocerySim.handle_arrival s hle ha, rfl⟩
  · by_cases hd : e.event = DEPARTURE
    · cases hc : atIndex e.cashier with
      | none => exact Or.inr ⟨GrocerySim.handle_departure_thrown s hle hd hc, hd, rfl⟩
      | some c => exact Or.inl ⟨_, GrocerySim.handle_departure s hle hd hc, rfl⟩
    · exact Or.inl ⟨_, GrocerySim.handle_other s hle ha hd, rfl⟩

theorem GrocerySim.pass_out_of_horizon {SIM_LENGTH : Int} {tie : Nat} {s : GrocerySim}
    {e : Event} (ht : top tie s.eventQueue = some e) (hH : SIM_LENGTH < e.eventTime) :
    s.loopBody SIM_LENGTH tie = Loop.stop { s with currentTime := e.eventTime } := by
  rw [GrocerySim.pass_of_top ht]
  exact GrocerySim.handle_beyond s hH

/-- C12: for every initial state, horizon `SIM_LENGTH` and way of breaking ties, in the bank
and in the grocery model: (1) every event processed has `eventTime ≤ SIM_LENGTH`; (2) a pass
that finds an earliest event with `eventTime ≤ SIM_LENGTH`, in particular `= SIM_LENGTH`,
takes it from the scheduler and handles it (in the grocery model the handling of a Departure
whose `cashier` field is outside `0..5` ends in `std::out_of_range`); (3) a pass that finds an
earliest event beyond the horizon leaves the loop and changes only the clock; (4) when
`runSim` returns, the scheduler is empty or every event in it has `eventTime > SIM_LENGTH`;
(5) the results have gained exactly the `totalServiceTime` of the Departure events processed,
none of which lies beyond the horizon. -/
theorem horizon_cutoff (SIM_LENGTH : Int) (ties : Nat → Nat) (b : BankSim) (g : GrocerySim) :
    ((∀ n, ∀ e ∈ BankSim.processed SIM_LENGTH ties n b, e.eventTime ≤ SIM_LENGTH)
      ∧ (∀ (s : BankSim) (tie : Nat) (e : Event), top tie s.eventQueue = some e →
          e.eventTime ≤ SIM_LENGTH →
          ∃ s', s.loopBody SIM_LENGTH tie = Loop.next s' ∧ s'.currentTime = e.eventTime)
      ∧ (∀ (s : BankSim) (tie : Nat) (e : Event), top tie s.eventQueue = some e →
          SIM_LENGTH < e.eventTime →
          s.loopBody SIM_LENGTH tie = Loop.stop { s with currentTime := e.eventTime })
      ∧ ∃ r, BankSim.runSim SIM_LENGTH ties b = Loop.stop r
          ∧ (r.eventQueue = [] ∨ ∀ x ∈ r.eventQueue, SIM_LENGTH < x.eventTime)
          ∧ r.serviceTime = b.serviceTime
              ++ ((BankSim.processed SIM_LENGTH ties b.fuel b).filter isDeparture).map
                  (fun e => e.totalServiceTime))
    ∧ ((∀ n, ∀ e ∈ GrocerySim.processed SIM_LENGTH ties n g, e.eventTime ≤ SIM_LENGTH)
      ∧ (∀ (s : GrocerySim) (tie : Nat) (e : Event), top tie s.eventQueue = some e →
          e.eventTime ≤ SIM_LENGTH →
          (∃ s', s.loopBody SIM_LENGTH tie = Loop.next s' ∧ s'.currentTime = e.eventTime)
          ∨ (s.loopBody SIM_LENGTH tie = Loop.thrown ∧ e.event = DEPARTURE
              ∧ atIndex e.cashier = none))
      ∧ (∀ (s : GrocerySim) (tie : Nat) (e : Event), top tie s.eventQueue = some e →
          SIM_LENGTH < e.eventTime →
          s.loopBody SIM_LENGTH tie = Loop.stop { s with currentTime := e.eventTime })
      ∧ ∀ r, GrocerySim.runSim SIM_LENGTH ties g = Loop.stop r →
          (r.eventQueue = [] ∨ ∀ x ∈ r.eventQueue, SIM_LENGTH < x.eventTime)
          ∧ r.serviceTime = g.serviceTime
              ++ ((GrocerySim.processed SIM_LENGTH ties g.fuel g).filter isDeparture).map
                  (fun e => e.totalServiceTime)) := by
  refine ⟨⟨fun n => BankSim.processed_within SIM_LENGTH n ties b,
      fun s tie e ht hle => BankSim.pass_within ht hle,
      fun s tie e ht hH => BankSim.pass_beyond ht hH, ?_⟩,
    ⟨fun n => GrocerySim.processed_in_horizon SIM_LENGTH n ties g,
      fun s tie e ht hle => GrocerySim.pass_in_horizon ht hle,
      fun s tie e ht hH => GrocerySim.pass_out_of_horizon ht hH, ?_⟩⟩
  · obtain ⟨r, hr⟩ := BankSim.runSim_returns SIM_LENGTH ties b
    obtain ⟨m, sm, _, _, hstop⟩ := iterate_stop_split b.fuel ties b r hr
    exact ⟨r, hr, BankSim.stop_scheduler hstop,
      (BankSim.iterate_bookkeeping SIM_LENGTH b.fuel ties b r (Or.inr hr)).1⟩
  · intro r hr
    obtain ⟨m, sm, _, _, hstop⟩ := iterate_stop_split g.fuel ties g r hr
    exact ⟨GrocerySim.stop_queue hstop,
      GrocerySim.iterate_results SIM_LENGTH g.fuel ties g r (Or.inr hr)⟩

end EventSimulation
